import Mathlib

/-! # CCOrange_WebServer: request parser, response builder and connection object

A shallow embedding of `code/http/httprequest.cpp`, `code/http/httpresponse.cpp`
and `code/http/httpconn.cpp`, with the theorems that settle the claims of the
specification about them.

Conventions of the embedding.

* `std::string` is a list of byte values (`Str`); a literal is written `str "..."`.
* `char` is the signed 8-bit type of the x86-64 Linux ABI the server is built for:
  `toChar` gives the `int` value of a byte, `ofChar` stores an `int` into a byte.
* `std::unordered_map<string,string>` is an association list with unique keys, read
  through `StrMap.find`; the order of the entries carries no meaning.
* The operating system (files, `stat`, `open`, `mmap`) and the MySQL client are oracles:
  records of functions a theorem quantifies over.
* A C++ execution that leaves defined behaviour, or trips an `assert`, is an
  `Except.error`; so is a loop model that runs out of fuel (the fuel of every loop is
  computed from its input, and `outOfFuel` is shown unreachable where it matters).
-/

namespace WebServer

/-! ## Strings, maps, faults -/

/-- A `std::string`: its bytes, each a value in `0..255`. -/
abbrev Str := List Nat

/-- The bytes of a string literal. -/
def str (s : String) : Str := s.data.map Char.toNat

/-- Ways in which the model of an execution yields no result. -/
inductive Fault where
  /-- the C++ execution has undefined behaviour (out-of-bounds access, bad dereference) -/
  | undefinedBehaviour
  /-- an `assert` fails -/
  | assertion
  /-- the fuel of a loop model ran out -/
  | outOfFuel
deriving DecidableEq, Repr

deriving instance DecidableEq for Except

/-- The `int` value of a byte read through a (signed) `char`. -/
def toChar (b : Nat) : Int := if b % 256 < 128 then ((b % 256 : Nat) : Int) else ((b % 256 : Nat) : Int) - 256

/-- The byte stored when an `int` is assigned to a `char`. -/
def ofChar (v : Int) : Nat := (v % 256).toNat

/-- A `std::unordered_map<std::string, std::string>`. -/
abbrev StrMap := List (Str × Str)

namespace StrMap

/-- The value stored under key `k`, if any (`find(k)->second`). -/
def find : StrMap → Str → Option Str
  | [], _ => none
  | (k', v) :: rest, k => if k' = k then some v else find rest k

/-- Model of `m.count(k)`: 1 when the key is present, 0 otherwise. -/
def count (m : StrMap) (k : Str) : Nat := if (find m k).isSome then 1 else 0

/-- Model of `m[k] = v`: overwrite the entry of `k`, or add one. -/
def set : StrMap → Str → Str → StrMap
  | [], k, v => [(k, v)]
  | (k', v') :: rest, k, v => if k' = k then (k, v) :: rest else (k', v') :: set rest k v

/-- Model of `m[k]` read as an rvalue: the value under `k`; a missing key is first inserted with
the empty string. Returns the value and the map after the access. -/
def index (m : StrMap) (k : Str) : Str × StrMap :=
  match find m k with
  | some v => (v, m)
  | none => ([], set m k [])

end StrMap

/-- Model of `std::string::substr(pos, len)` for `pos <= size()`. -/
def substr (s : Str) (pos len : Nat) : Str := (s.drop pos).take len

/-- Model of `std::search(first, last, s_first, s_last)` on the range `hay`: the offset of the first
occurrence of `pat`, or `hay.length` (that is, `last`) when there is none. -/
def search : Str → Str → Nat
  | [], _ => 0
  | c :: cs, pat => if pat.isPrefixOf (c :: cs) then 0 else search cs pat + 1

/-- Model of `std::to_string` of a non-negative integer. -/
def natToString (n : Nat) : Str := (Nat.toDigits 10 n).map Char.toNat

/-- Model of `std::to_string(int)`. -/
def to_string : Int → Str
  | Int.ofNat n => natToString n
  | Int.negSucc n => '-'.toNat :: natToString (n + 1)

/-! ## Byte buffer (`code/buffer/buffer.h`; `buffer.cpp` is not part of the sources) -/

/-- The members of `class Buffer` (buffer.h): backing array, read index, write index. -/
structure Buffer where
  buffer_ : List Nat
  readPos_ : Nat
  writePos_ : Nat
deriving DecidableEq, Repr

namespace Buffer

/-- Modelled from the spec: `Buffer::Buffer(int initBuffSize = 1024)`, whose body is in the
missing buffer.cpp; an array of `initBuffSize` bytes with both indices 0. -/
def new (initBuffSize : Nat) : Buffer := ⟨List.replicate initBuffSize 0, 0, 0⟩

/-- Modelled from the spec: `Buffer::ReadableBytes` (buffer.cpp is missing), `readable() → w − r`. -/
def ReadableBytes (b : Buffer) : Nat := b.writePos_ - b.readPos_

/-- Modelled from the spec: `Buffer::WritableBytes` (buffer.cpp is missing), `writable() → len − w`. -/
def WritableBytes (b : Buffer) : Nat := b.buffer_.length - b.writePos_

/-- Modelled from the spec: `Buffer::PrependableBytes` (buffer.cpp is missing), `prependable() → r`. -/
def PrependableBytes (b : Buffer) : Nat := b.readPos_

/-- Modelled from the spec: `Buffer::Peek` (buffer.cpp is missing), the read pointer at offset `r`;
a pointer into the buffer is its index in the backing array. -/
def Peek (b : Buffer) : Nat := b.readPos_

/-- Modelled from the spec: `Buffer::BeginWrite` / `BeginWriteConst` (buffer.cpp is missing), the
pointer at offset `w`, where the writable span `[w, len)` begins. -/
def BeginWrite (b : Buffer) : Nat := b.writePos_

/-- The bytes of the readable span `[r, w)`: the range `[Peek(), BeginWrite())`. -/
def readable (b : Buffer) : Str := (b.buffer_.drop b.readPos_).take (b.writePos_ - b.readPos_)

/-- The data-model invariant of the buffer, `0 ≤ r ≤ w ≤ len(array)`. -/
def WF (b : Buffer) : Prop := b.readPos_ ≤ b.writePos_ ∧ b.writePos_ ≤ b.buffer_.length

instance (b : Buffer) : Decidable b.WF := by unfold WF; infer_instance

/-- Model of `std::vector<char>::resize(n)`. -/
def resize (l : List Nat) (n : Nat) : List Nat := l.take n ++ List.replicate (n - l.length) 0

/-- Modelled from the spec: `Buffer::MakeSpace_` (buffer.cpp is missing): "if
`writable() + prependable() < n + 1`, resize backing to `w + n + 1`; else shift `[r, w)` to
position 0 and reset `r=0, w=w−r`". -/
def MakeSpace_ (b : Buffer) (n : Nat) : Buffer :=
  if b.WritableBytes + b.PrependableBytes < n + 1 then
    { b with buffer_ := resize b.buffer_ (b.writePos_ + n + 1) }
  else
    { buffer_ := b.readable ++ b.buffer_.drop b.readable.length,
      readPos_ := 0,
      writePos_ := b.writePos_ - b.readPos_ }

/-- Modelled from the spec: `Buffer::EnsureWriteable` (buffer.cpp is missing): "if
`writable() < n`, call `make_space(n)`". -/
def EnsureWriteable (b : Buffer) (n : Nat) : Buffer :=
  if b.WritableBytes < n then b.MakeSpace_ n else b

/-- Modelled from the spec: `Buffer::Append` (buffer.cpp is missing): "`ensure_writable(len)`;
copy; advance `w`". -/
def Append (b : Buffer) (s : Str) : Buffer :=
  let b1 := b.EnsureWriteable s.length
  { b1 with
    buffer_ := b1.buffer_.take b1.writePos_ ++ s ++ b1.buffer_.drop (b1.writePos_ + s.length),
    writePos_ := b1.writePos_ + s.length }

/-- Modelled from the spec: `Buffer::Retrieve` (buffer.cpp is missing): "`r += n` (bounded by
`w`); when `r==w`, reset both to 0". -/
def Retrieve (b : Buffer) (len : Nat) : Buffer :=
  if b.writePos_ ≤ b.readPos_ + len then { b with readPos_ := 0, writePos_ := 0 }
  else { b with readPos_ := b.readPos_ + len }

/-- Modelled from the spec: `Buffer::RetrieveUntil` (buffer.cpp is missing): "equivalent to
`retrieve(ptr − peek())`". -/
def RetrieveUntil (b : Buffer) (end_ : Nat) : Buffer := b.Retrieve (end_ - b.Peek)

/-- Modelled from the spec: `Buffer::RetrieveAll` (buffer.cpp is missing): "after
`retrieve_all`, `r == w == 0`". -/
def RetrieveAll (b : Buffer) : Buffer := { b with readPos_ := 0, writePos_ := 0 }

end Buffer

/-! ## Collaborators: MySQL client and operating system -/

/-- The MySQL client library as an oracle for the two statements `UserVerify` issues. -/
structure MySql where
  /-- Model of `mysql_query` of the SELECT followed by `mysql_store_result` and the `mysql_fetch_row`
  loop: `none` when `mysql_query` returns non-zero, otherwise the rows, each as
  `(row[0], row[1])` = (username, password). -/
  select : Str → Option (List (Str × Str))
  /-- Model of `mysql_query` of the INSERT: `true` when it returns non-zero (failure). -/
  insertFails : Str → Bool

/-- A `const char*` view of a `std::string` (`c_str()` read by `%s`): the bytes before the first NUL. -/
def c_str (s : Str) : Str := s.takeWhile (fun c => c != 0)

/-- Model of `snprintf(order, 256, ...)`: at most 255 bytes of the formatted text are kept. -/
def snprintf256 (formatted : Str) : Str := formatted.take 255

/-- The fields of `struct stat` the server reads. -/
structure Stat where
  st_mode : Nat
  st_size : Nat
deriving DecidableEq, Repr

/-- The file-type mask of `st_mode` (`<sys/stat.h>`, Linux). -/
def S_IFMT : Nat := 0o170000

/-- The file-type value of a directory (`<sys/stat.h>`, Linux). -/
def S_IFDIR : Nat := 0o040000

/-- The read permission bit for others (`<sys/stat.h>`). -/
def S_IROTH : Nat := 0o4

/-- The macro `S_ISDIR(m)`. -/
def S_ISDIR (m : Nat) : Bool := (m &&& S_IFMT) == S_IFDIR

/-- The operating system as an oracle for the three calls the response builder makes. A
path is the C string the call receives, so it holds no NUL byte. -/
structure FileSystem where
  /-- Model of `stat(path, &buf)`: `none` when it returns a negative value, else the metadata. -/
  stat : Str → Option Stat
  /-- Model of `open(path, O_RDONLY)`: `true` when the descriptor returned is non-negative. -/
  openReadOnly : Str → Bool
  /-- Model of `mmap(0, len, PROT_READ, MAP_PRIVATE, fd, 0)` of the file just opened at `path`: `none`
  for `MAP_FAILED`, else the bytes readable through the mapping (the file's bytes from
  offset 0; what lies between the end of the file and the end of its last page reads as 0). -/
  mmap : Str → Nat → Option Str

/-- A pointer value, as far as the connection distinguishes them. -/
inductive Ptr where
  /-- Model of `nullptr` -/
  | null
  /-- a pointer into the backing array of the write buffer, at this index -/
  | buffer (index : Nat)
  /-- a pointer into the mapping of the file of this name, at this offset -/
  | mapped (file : Str) (offset : Nat)
  /-- any other address (an `iovec` never assigned holds one) -/
  | other (addr : Nat)
deriving DecidableEq, Repr

/-- Pointer arithmetic `(uint8_t*) p + n`. -/
def Ptr.add : Ptr → Nat → Ptr
  | .null, n => .other n
  | .buffer i, n => .buffer (i + n)
  | .mapped f o, n => .mapped f (o + n)
  | .other a, n => .other (a + n)

/-- The `int` read by `*mmRet` at the start of a mapping (32-bit, little-endian). -/
def readInt32 (mem : Str) : Int :=
  let v : Nat := mem.getD 0 0 % 256 + 256 * (mem.getD 1 0 % 256) + 65536 * (mem.getD 2 0 % 256)
    + 16777216 * (mem.getD 3 0 % 256)
  if v < 2147483648 then (v : Int) else (v : Int) - 4294967296

/-! ## HTTP request parser (`code/http/httprequest.cpp`) -/

/-- Model of `HttpRequest::PARSE_STATE`. -/
inductive PARSE_STATE where
  | REQUEST_LINE
  | HEADERS
  | BODY
  | FINISH
deriving DecidableEq, Repr

/-- The data members of `HttpRequest`. -/
structure HttpRequest where
  state_ : PARSE_STATE
  method_ : Str
  path_ : Str
  version_ : Str
  body_ : Str
  header_ : StrMap
  post_ : StrMap
deriving DecidableEq, Repr

/-- Model of `HttpRequest::DEFAULT_HTML`. -/
def DEFAULT_HTML : List Str :=
  [str "/index", str "/register", str "/login", str "/welcome", str "/video", str "/picture"]

/-- Model of `HttpRequest::DEFAULT_HTML_TAG`. -/
def DEFAULT_HTML_TAG : List (Str × Int) := [(str "/register.html", 0), (str "/login.html", 1)]

/-- Model of `DEFAULT_HTML_TAG.find(path)->second`, `none` when `count(path) == 0`. -/
def DEFAULT_HTML_TAG_find : List (Str × Int) → Str → Option Int
  | [], _ => none
  | (k, tag) :: rest, p => if k = p then some tag else DEFAULT_HTML_TAG_find rest p

namespace HttpRequest

/-- Model of `HttpRequest::Init`. -/
def Init (_r : HttpRequest) : HttpRequest :=
  { state_ := .REQUEST_LINE, method_ := [], path_ := [], version_ := [], body_ := [],
    header_ := [], post_ := [] }

/-- Model of `HttpRequest::IsKeepAlive`. -/
def IsKeepAlive (r : HttpRequest) : Bool :=
  if r.header_.count (str "Connection") = 1 then
    decide (r.header_.find (str "Connection") = some (str "keep-alive") ∧ r.version_ = str "1.1")
  else false

/-- The loop of `ParsePath_` over the items of `DEFAULT_HTML`: the first item equal to the
path appends `.html` and breaks. -/
def ParsePath_loop : List Str → Str → Str
  | [], path => path
  | item :: rest, path => if item = path then path ++ str ".html" else ParsePath_loop rest path

/-- Model of `HttpRequest::ParsePath_`. -/
def ParsePath_ (r : HttpRequest) : HttpRequest :=
  if r.path_ = str "/" then { r with path_ := str "/index.html" }
  else { r with path_ := ParsePath_loop DEFAULT_HTML r.path_ }

/-- Model of `regex_match(line, subMatch, regex("^([^ ]*) ([^ ]*) HTTP/([^ ]*)$"))`: the three
sub-matches when the whole line matches, `none` otherwise. A greedy `[^ ]*` stops at the first
space (or at the end), where the pattern demands a space; no shorter choice can succeed. -/
def matchRequestLine (line : Str) : Option (Str × Str × Str) :=
  match line.dropWhile (fun c => c != ' '.toNat) with
  | [] => none
  | _ :: rest1 =>
    match rest1.dropWhile (fun c => c != ' '.toNat) with
    | [] => none
    | _ :: rest2 =>
      if (str "HTTP/").isPrefixOf rest2 ∧ ' '.toNat ∉ rest2.drop 5 then
        some (line.takeWhile (fun c => c != ' '.toNat),
              rest1.takeWhile (fun c => c != ' '.toNat),
              rest2.drop 5)
      else none

/-- Model of `HttpRequest::ParseRequestLine_`: `none` is the `return false`, `some r` the `return true`
with the request as modified. -/
def ParseRequestLine_ (r : HttpRequest) (line : Str) : Option HttpRequest :=
  match matchRequestLine line with
  | some (m, p, v) => some { r with method_ := m, path_ := p, version_ := v, state_ := .HEADERS }
  | none => none

/-- Model of `regex_match(line, subMatch, regex("^([^:]*): ?(.*)$"))`: the two sub-matches when the
whole line matches. `[^:]*` stops at the first colon, ` ?` greedily takes one space, and `.`
(ECMAScript) matches every character but `\n` and `\r`. -/
def matchHeader (line : Str) : Option (Str × Str) :=
  match line.dropWhile (fun c => c != ':'.toNat) with
  | [] => none
  | _ :: rest =>
    let value := match rest with
      | c :: cs => if c = ' '.toNat then cs else rest
      | [] => rest
    if value.all (fun c => c != '\n'.toNat && c != '\r'.toNat) then
      some (line.takeWhile (fun c => c != ':'.toNat), value)
    else none

/-- Model of `HttpRequest::ParseHeader_`. -/
def ParseHeader_ (r : HttpRequest) (line : Str) : HttpRequest :=
  match matchHeader line with
  | some (name, value) => { r with header_ := r.header_.set name value }
  | none => { r with state_ := .BODY }

/-- Model of `HttpRequest::ConverHex`, on the `int` value of its `char` argument. -/
def ConverHex (ch : Int) : Int :=
  if ch ≥ 'A'.toNat ∧ ch ≤ 'F'.toNat then ch - 'A'.toNat + 10
  else if ch ≥ 'a'.toNat ∧ ch ≤ 'f'.toNat then ch - 'a'.toNat + 10
  else ch

/-- The local variables of `ParseFromUrlencoded_` that live across loop iterations, with the
two members the loop changes. -/
structure UrlState where
  i : Nat
  j : Nat
  key : Str
  body_ : Str
  post_ : StrMap
deriving DecidableEq, Repr

/-- One iteration of the `for` loop of `ParseFromUrlencoded_` (the `switch` and the `i++`),
entered with `i < n`. In the `'%'` case `body_[i + 2]` is written with a non-zero byte, which
is defined only for `i + 2 < n`. -/
def urlStep (s : UrlState) : Except Fault UrlState :=
  let ch := s.body_.getD s.i 0
  if ch = '='.toNat then
    .ok { s with key := substr s.body_ s.j (s.i - s.j), j := s.i + 1, i := s.i + 1 }
  else if ch = '+'.toNat then
    .ok { s with body_ := s.body_.set s.i ' '.toNat, i := s.i + 1 }
  else if ch = '%'.toNat then
    if s.i + 2 < s.body_.length then
      let num : Int := ConverHex (toChar (s.body_.getD (s.i + 1) 0)) * 16
                        + ConverHex (toChar (s.body_.getD (s.i + 2) 0))
      let body1 := s.body_.set (s.i + 2) (ofChar (Int.tmod num 10 + '0'.toNat))
      let body2 := body1.set (s.i + 1) (ofChar (Int.tdiv num 10 + '0'.toNat))
      .ok { s with body_ := body2, i := s.i + 2 + 1 }
    else .error .undefinedBehaviour
  else if ch = '&'.toNat then
    let value := substr s.body_ s.j (s.i - s.j)
    .ok { s with j := s.i + 1, post_ := s.post_.set s.key value, i := s.i + 1 }
  else
    .ok { s with i := s.i + 1 }

/-- The positions of `body_` that one iteration of the loop of `ParseFromUrlencoded_` passes
to `operator[]`: `body_[i]`, and in the `'%'` case `body_[i + 1]` and `body_[i + 2]`, each read
and then written. -/
def urlStepAccess (s : UrlState) : List Nat :=
  let ch := s.body_.getD s.i 0
  if ch = '%'.toNat then [s.i, s.i + 1, s.i + 2] else [s.i]

/-- The `for (; i < n; i++)` loop of `ParseFromUrlencoded_`; every iteration advances `i`, so
`n` units of fuel are enough. -/
def urlLoop : Nat → UrlState → Except Fault UrlState
  | 0, s => if s.i < s.body_.length then .error .outOfFuel else .ok s
  | fuel + 1, s =>
    if s.i < s.body_.length then
      match urlStep s with
      | .ok s1 => urlLoop fuel s1
      | .error e => .error e
    else .ok s

/-- Model of `HttpRequest::ParseFromUrlencoded_`. -/
def ParseFromUrlencoded_ (r : HttpRequest) : Except Fault HttpRequest :=
  if r.body_.length = 0 then .ok r
  else
    match urlLoop r.body_.length { i := 0, j := 0, key := [], body_ := r.body_, post_ := r.post_ } with
    | .error e => .error e
    | .ok s =>
      if ¬ (s.j ≤ s.i) then .error .assertion
      else if s.post_.count s.key = 0 ∧ s.j < s.i then
        .ok { r with body_ := s.body_, post_ := s.post_.set s.key (substr s.body_ s.j (s.i - s.j)) }
      else .ok { r with body_ := s.body_, post_ := s.post_ }

/-- The text of the SELECT statement `UserVerify` formats into `order`. -/
def selectOrder (name : Str) : Str :=
  snprintf256 (str "SELECT username, password FROM user WHERE username='" ++ c_str name
    ++ str "' LIMIT 1")

/-- The text of the INSERT statement `UserVerify` formats into `order`. -/
def insertOrder (name pwd : Str) : Str :=
  snprintf256 (str "INSERT INTO user(username, password) VALUES('" ++ c_str name ++ str "','"
    ++ c_str pwd ++ str "')")

/-- The `while (MYSQL_ROW row = mysql_fetch_row(res))` loop of `UserVerify`, on `flag`. -/
def verifyRows (pwd : Str) (isLogin : Bool) : List (Str × Str) → Bool → Bool
  | [], flag => flag
  | row :: rest, _ =>
    if isLogin then
      if pwd = c_str row.2 then verifyRows pwd isLogin rest true
      else verifyRows pwd isLogin rest false
    else verifyRows pwd isLogin rest false

/-- Model of `HttpRequest::UserVerify`. -/
def UserVerify (db : MySql) (name pwd : Str) (isLogin : Bool) : Bool :=
  if name = [] ∨ pwd = [] then false
  else
    let flag0 : Bool := if ¬ isLogin then true else false
    match db.select (selectOrder name) with
    | none => false
    | some rows =>
      let flag1 := verifyRows pwd isLogin rows flag0
      if ¬ isLogin ∧ flag1 = true then
        let _flag2 : Bool := if db.insertFails (insertOrder name pwd) then false else flag1
        true
      else flag1

/-- The statements `HttpRequest::UserVerify` passes to `mysql_query`, in the order of the
calls: none for an empty name or password, the SELECT otherwise, and the INSERT after it on
the registration path when no row was found. -/
def UserVerifyQueries (db : MySql) (name pwd : Str) (isLogin : Bool) : List Str :=
  if name = [] ∨ pwd = [] then []
  else
    let flag0 : Bool := if ¬ isLogin then true else false
    match db.select (selectOrder name) with
    | none => [selectOrder name]
    | some rows =>
      let flag1 := verifyRows pwd isLogin rows flag0
      if ¬ isLogin ∧ flag1 = true then [selectOrder name, insertOrder name pwd]
      else [selectOrder name]

/-- Model of `HttpRequest::ParsePost_`. The two `operator[]` reads insert an empty entry for a missing
key, as `std::unordered_map::operator[]` does. -/
def ParsePost_ (db : MySql) (r : HttpRequest) : Except Fault HttpRequest :=
  if r.method_ = str "POST" then
    let ct := r.header_.index (str "Content-Type")
    let r1 := { r with header_ := ct.2 }
    if ct.1 = str "application/x-www-form-urlencoded" then
      match ParseFromUrlencoded_ r1 with
      | .error e => .error e
      | .ok r2 =>
        match DEFAULT_HTML_TAG_find DEFAULT_HTML_TAG r2.path_ with
        | some tag =>
          if tag = 0 ∨ tag = 1 then
            let isLogin : Bool := decide (tag = 1)
            let u := r2.post_.index (str "username")
            let p := u.2.index (str "password")
            let r3 := { r2 with post_ := p.2 }
            if UserVerify db u.1 p.1 isLogin then .ok { r3 with path_ := str "/welcome.html" }
            else .ok { r3 with path_ := str "/error.html" }
          else .ok r2
        | none => .ok r2
    else .ok r1
  else .ok r

/-- The calls of `UserVerify` that `HttpRequest::ParsePost_` makes, each with its three
arguments: the same control flow as `ParsePost_`, recording the call instead of its effect. -/
def ParsePost_calls (r : HttpRequest) : Except Fault (List (Str × Str × Bool)) :=
  if r.method_ = str "POST" then
    let ct := r.header_.index (str "Content-Type")
    let r1 := { r with header_ := ct.2 }
    if ct.1 = str "application/x-www-form-urlencoded" then
      match ParseFromUrlencoded_ r1 with
      | .error e => .error e
      | .ok r2 =>
        match DEFAULT_HTML_TAG_find DEFAULT_HTML_TAG r2.path_ with
        | some tag =>
          if tag = 0 ∨ tag = 1 then
            let isLogin : Bool := decide (tag = 1)
            let u := r2.post_.index (str "username")
            let p := u.2.index (str "password")
            .ok [(u.1, p.1, isLogin)]
          else .ok []
        | none => .ok []
    else .ok []
  else .ok []

/-- Model of `HttpRequest::ParseBody_`. -/
def ParseBody_ (db : MySql) (r : HttpRequest) (line : Str) : Except Fault HttpRequest :=
  match ParsePost_ db { r with body_ := line } with
  | .error e => .error e
  | .ok r1 => .ok { r1 with state_ := .FINISH }

/-- The `switch (state_)` of one iteration of the loop of `parse`: `.ok none` is the
`return false` of a rejected request line. -/
def parseSwitch (db : MySql) (r : HttpRequest) (buff : Buffer) (line : Str) :
    Except Fault (Option HttpRequest) :=
  match r.state_ with
  | .REQUEST_LINE =>
    match ParseRequestLine_ r line with
    | none => .ok none
    | some r1 => .ok (some (ParsePath_ r1))
  | .HEADERS =>
    let r1 := ParseHeader_ r line
    if buff.ReadableBytes ≤ 2 then .ok (some { r1 with state_ := .FINISH }) else .ok (some r1)
  | .BODY =>
    match ParseBody_ db r line with
    | .error e => .error e
    | .ok r1 => .ok (some r1)
  | .FINISH => .ok (some r)

/-- The `while (buff.ReadableBytes() && state_ != FINISH)` loop of `parse`, with the
`return true` that follows it. Every iteration that continues retrieves at least the two
bytes of a CRLF, so `ReadableBytes()` units of fuel are enough. -/
def parseLoop (db : MySql) : Nat → HttpRequest → Buffer → Except Fault (Bool × HttpRequest × Buffer)
  | 0, r, buff =>
    if buff.ReadableBytes ≠ 0 ∧ r.state_ ≠ .FINISH then .error .outOfFuel else .ok (true, r, buff)
  | fuel + 1, r, buff =>
    if buff.ReadableBytes ≠ 0 ∧ r.state_ ≠ .FINISH then
      let lineEnd := buff.Peek + search buff.readable (str "\r\n")
      let line := buff.readable.take (lineEnd - buff.Peek)
      match parseSwitch db r buff line with
      | .error e => .error e
      | .ok none => .ok (false, r, buff)
      | .ok (some r1) =>
        if lineEnd = buff.BeginWrite then .ok (true, r1, buff)
        else parseLoop db fuel r1 (buff.RetrieveUntil (lineEnd + 2))
    else .ok (true, r, buff)

/-- Model of `HttpRequest::parse`: the returned flag, the request and the buffer after the call. -/
def parse (db : MySql) (r : HttpRequest) (buff : Buffer) : Except Fault (Bool × HttpRequest × Buffer) :=
  if buff.ReadableBytes ≤ 0 then .ok (false, r, buff)
  else parseLoop db buff.ReadableBytes r buff

end HttpRequest

/-! ## HTTP response builder (`code/http/httpresponse.cpp`) -/

/-- The data members of `HttpResponse`. -/
structure HttpResponse where
  code_ : Int
  isKeepAlive_ : Bool
  path_ : Str
  srcDir_ : Str
  mmFile_ : Ptr
  mmFileStat_ : Stat
deriving DecidableEq, Repr

/-- Model of `HttpResponse::SUFFIX_TYPE`. -/
def SUFFIX_TYPE : List (Str × Str) :=
  [ (str ".html", str "text/html"),
    (str ".xml", str "text/xml"),
    (str ".xhtml", str "application/xhtml+xml"),
    (str ".txt", str "text/plain"),
    (str ".rtf", str "application/rtf"),
    (str ".pdf", str "application/pdf"),
    (str ".word", str "application/nsword"),
    (str ".png", str "image/png"),
    (str ".gif", str "image/gif"),
    (str ".jpg", str "image/jpeg"),
    (str ".jpeg", str "image/jpeg"),
    (str ".au", str "audio/basic"),
    (str ".mpeg", str "video/mpeg"),
    (str ".mpg", str "video/mpeg"),
    (str ".avi", str "video/x-msvideo"),
    (str ".gz", str "application/x-gzip"),
    (str ".tar", str "application/x-tar"),
    (str ".css", str "text/css "),
    (str ".js", str "text/javascript ") ]

/-- Model of `HttpResponse::CODE_STATUS`. -/
def CODE_STATUS : List (Int × Str) :=
  [(200, str "OK"), (400, str "Bad Request"), (403, str "Forbidden"), (404, str "Not Found")]

/-- Model of `HttpResponse::CODE_PATH`. -/
def CODE_PATH : List (Int × Str) :=
  [(400, str "/400.html"), (403, str "/403.html"), (404, str "/404.html")]

/-- Lookup in a table keyed by status code: `find(code)->second`, `none` when
`count(code) == 0`. -/
def codeFind : List (Int × Str) → Int → Option Str
  | [], _ => none
  | (k, v) :: rest, c => if k = c then some v else codeFind rest c

/-- Model of `std::string::find_last_of(c)`: the index of the last occurrence, `none` for `npos`. -/
def find_last_of : Str → Nat → Option Nat
  | [], _ => none
  | x :: xs, c =>
    match find_last_of xs c with
    | some i => some (i + 1)
    | none => if x = c then some 0 else none

/-- The `struct stat` after `stat(path, &buf)`: filled on success, left as it was on failure. -/
def statInto (fs : FileSystem) (path : Str) (buf : Stat) : Stat :=
  match fs.stat path with
  | some st => st
  | none => buf

namespace HttpResponse

/-- Model of `HttpResponse::HttpResponse()`. -/
def new : HttpResponse :=
  { code_ := -1, isKeepAlive_ := false, path_ := [], srcDir_ := [], mmFile_ := .null,
    mmFileStat_ := ⟨0, 0⟩ }

/-- Model of `HttpResponse::UnmapFile`. -/
def UnmapFile (r : HttpResponse) : HttpResponse :=
  if r.mmFile_ ≠ .null then { r with mmFile_ := .null } else r

/-- Model of `HttpResponse::Init`. -/
def Init (r : HttpResponse) (srcDir path : Str) (isKeepAlive : Bool) (code : Int) :
    Except Fault HttpResponse :=
  if srcDir = [] then .error .assertion
  else
    let r1 := if r.mmFile_ ≠ .null then r.UnmapFile else r
    .ok { r1 with code_ := code, isKeepAlive_ := isKeepAlive, path_ := path, srcDir_ := srcDir,
                  mmFile_ := .null, mmFileStat_ := ⟨0, 0⟩ }

/-- Model of `HttpResponse::File`. -/
def File (r : HttpResponse) : Ptr := r.mmFile_

/-- Model of `HttpResponse::FileLen`. -/
def FileLen (r : HttpResponse) : Nat := r.mmFileStat_.st_size

/-- Model of `HttpResponse::ErrorHtml_`; `stat` receives `(srcDir_ + path_).data()`, a C
string. -/
def ErrorHtml_ (fs : FileSystem) (r : HttpResponse) : HttpResponse :=
  match codeFind CODE_PATH r.code_ with
  | some page =>
    { r with path_ := page, mmFileStat_ := statInto fs (c_str (r.srcDir_ ++ page)) r.mmFileStat_ }
  | none => r

/-- Model of `HttpResponse::AddStateLine_`. -/
def AddStateLine_ (r : HttpResponse) (buff : Buffer) : HttpResponse × Buffer :=
  match codeFind CODE_STATUS r.code_ with
  | some status =>
    (r, buff.Append (str "HTTP/1.1 " ++ to_string r.code_ ++ str " " ++ status ++ str "\r\n"))
  | none =>
    let r1 := { r with code_ := 400 }
    let status := (codeFind CODE_STATUS 400).getD []
    (r1, buff.Append (str "HTTP/1.1 " ++ to_string r1.code_ ++ str " " ++ status ++ str "\r\n"))

/-- Model of `HttpResponse::GetFileType_`. -/
def GetFileType_ (r : HttpResponse) : Str :=
  match find_last_of r.path_ '.'.toNat with
  | none => str "text/plain"
  | some idx =>
    let suffix := r.path_.drop idx
    match StrMap.find SUFFIX_TYPE suffix with
    | some mime => mime
    | none => str "text/plain"

/-- Model of `HttpResponse::AddHeader_`. -/
def AddHeader_ (r : HttpResponse) (buff : Buffer) : Buffer :=
  let b1 := buff.Append (str "Connection: ")
  let b2 :=
    if r.isKeepAlive_ then
      (b1.Append (str "keep-alive\r\n")).Append (str "keep-alive: max=6, timeout=120\r\n")
    else b1.Append (str "close\r\n")
  b2.Append (str "Content-type: " ++ r.GetFileType_ ++ str "\r\n")

/-- The `body` string built by `HttpResponse::ErrorContent`. -/
def errorBody (r : HttpResponse) (message : Str) : Str :=
  let status := match codeFind CODE_STATUS r.code_ with
    | some st => st
    | none => str "Bad Request"
  str "<html><title>Error</title>" ++ str "<body bgcolor=\"ffffff\">"
    ++ (to_string r.code_ ++ str " : " ++ status ++ str "\n")
    ++ (str "<p>" ++ message ++ str "</p>")
    ++ str "<hr><em>TinyWebServer</em></body></html>"

/-- Model of `HttpResponse::ErrorContent`. -/
def ErrorContent (r : HttpResponse) (buff : Buffer) (message : Str) : Buffer :=
  let body := errorBody r message
  (buff.Append (str "Content-length: " ++ natToString body.length ++ str "\r\n\r\n")).Append body

/-- Model of `HttpResponse::AddContent_`. The name `open` is handed is `(srcDir_ + path_).data()`
read as a C string, the bytes before the first NUL. When `mmap` returns `MAP_FAILED`,
`*mmRet` reads through the address `(void*) -1`: the execution has no defined result. -/
def AddContent_ (fs : FileSystem) (r : HttpResponse) (buff : Buffer) :
    Except Fault (HttpResponse × Buffer) :=
  if ¬ fs.openReadOnly (c_str (r.srcDir_ ++ r.path_)) then
    .ok (r, r.ErrorContent buff (str "File NotFound!"))
  else
    match fs.mmap (c_str (r.srcDir_ ++ r.path_)) r.mmFileStat_.st_size with
    | none => .error .undefinedBehaviour
    | some mem =>
      if readInt32 mem = -1 then .ok (r, r.ErrorContent buff (str "File NotFound!"))
      else
        .ok ({ r with mmFile_ := .mapped (c_str (r.srcDir_ ++ r.path_)) 0 },
             buff.Append (str "Content-length: " ++ natToString r.mmFileStat_.st_size
               ++ str "\r\n\r\n"))

/-- The first statement of `MakeResponse`: the `stat` of `(srcDir_ + path_).data()`, which
the kernel reads as a C string (the bytes before the first NUL), and the choice of `code_`
that follows it. -/
def statCode (fs : FileSystem) (r : HttpResponse) : HttpResponse :=
  match fs.stat (c_str (r.srcDir_ ++ r.path_)) with
  | none => { r with code_ := 404 }
  | some st =>
    let r1 := { r with mmFileStat_ := st }
    if S_ISDIR st.st_mode then { r1 with code_ := 404 }
    else if st.st_mode &&& S_IROTH = 0 then { r1 with code_ := 403 }
    else if r1.code_ = -1 then { r1 with code_ := 200 }
    else r1

/-- Model of `HttpResponse::MakeResponse`. -/
def MakeResponse (fs : FileSystem) (r : HttpResponse) (buff : Buffer) :
    Except Fault (HttpResponse × Buffer) :=
  let r1 := statCode fs r
  let r2 := ErrorHtml_ fs r1
  let (r3, b3) := AddStateLine_ r2 buff
  let b4 := AddHeader_ r3 b3
  AddContent_ fs r3 b4

end HttpResponse

/-! ## Connection object (`code/http/httpconn.cpp`, `httpconn.h`) -/

/-- A `struct iovec`. -/
structure IoVec where
  iov_base : Ptr
  iov_len : Nat
deriving DecidableEq, Repr

/-- The fields of `struct sockaddr_in`. -/
structure sockaddr_in where
  sin_family : Nat
  sin_port : Nat
  sin_addr : Nat
deriving DecidableEq, Repr

/-- The static data members of `HttpConn`. The member `srcDir` is a `const char*`: the field
holds the bytes of the C string it points to, none of which is NUL. -/
structure Statics where
  isET : Bool
  srcDir : Str
  userCount : Int
deriving DecidableEq, Repr

/-- The non-static data members of `HttpConn`; `iov0` and `iov1` are `iov_[0]` and `iov_[1]`. -/
structure HttpConn where
  fd_ : Int
  addr_ : sockaddr_in
  isClose_ : Bool
  iovCnt_ : Int
  iov0 : IoVec
  iov1 : IoVec
  readBuff_ : Buffer
  writeBuff_ : Buffer
  request_ : HttpRequest
  response_ : HttpResponse
deriving DecidableEq, Repr

namespace HttpConn

/-- The `int` a `size_t` converts to (x86-64 Linux): its low 32 bits, read as two's
complement. -/
def toInt (n : Nat) : Int :=
  if n % 4294967296 < 2147483648 then ((n % 4294967296 : Nat) : Int)
  else ((n % 4294967296 : Nat) : Int) - 4294967296

/-- Model of `HttpConn::ToWriteBytes`: the `size_t` sum of the two lengths, returned as an
`int`. -/
def ToWriteBytes (c : HttpConn) : Int := toInt (c.iov0.iov_len + c.iov1.iov_len)

/-- The tail of `HttpConn::process`, after `MakeResponse`: the two `iovec` entries and
`iovCnt_`. -/
def setIov (c : HttpConn) : HttpConn :=
  let c1 := { c with iov0 := ⟨.buffer c.writeBuff_.Peek, c.writeBuff_.ReadableBytes⟩, iovCnt_ := 1 }
  if c1.response_.FileLen > 0 ∧ c1.response_.File ≠ .null then
    { c1 with iov1 := ⟨c1.response_.File, c1.response_.FileLen⟩, iovCnt_ := 2 }
  else c1

/-- Model of `HttpConn::process`: the returned flag and the connection after the call. -/
def process (g : Statics) (fs : FileSystem) (db : MySql) (c : HttpConn) :
    Except Fault (Bool × HttpConn) :=
  let c1 := { c with request_ := c.request_.Init }
  if c1.readBuff_.ReadableBytes ≤ 0 then .ok (false, c1)
  else
    match HttpRequest.parse db c1.request_ c1.readBuff_ with
    | .error e => .error e
    | .ok (parsed, req, rb) =>
      let initialised :=
        if parsed then c1.response_.Init g.srcDir req.path_ req.IsKeepAlive 200
        else c1.response_.Init g.srcDir req.path_ false 400
      match initialised with
      | .error e => .error e
      | .ok resp =>
        match resp.MakeResponse fs c1.writeBuff_ with
        | .error e => .error e
        | .ok (resp1, wb) =>
          .ok (true, setIov { c1 with request_ := req, readBuff_ := rb, response_ := resp1,
                                       writeBuff_ := wb })

/-- Model of `HttpConn::init`: the static user count and the connection after the call. The
counter is an `int` far from its bounds (the server admits 65536 connections). -/
def init (g : Statics) (c : HttpConn) (fd : Int) (addr : sockaddr_in) :
    Except Fault (Statics × HttpConn) :=
  if ¬ (fd > 0) then .error .assertion
  else
    .ok ({ g with userCount := g.userCount + 1 },
         { c with addr_ := addr, fd_ := fd, writeBuff_ := c.writeBuff_.RetrieveAll,
                  readBuff_ := c.readBuff_.RetrieveAll, isClose_ := false })

/-- Model of `HttpConn::Close`: the static user count and the connection after the call. -/
def Close (g : Statics) (c : HttpConn) : Statics × HttpConn :=
  let c1 := { c with response_ := c.response_.UnmapFile }
  if c1.isClose_ = false then
    ({ g with userCount := g.userCount - 1 }, { c1 with isClose_ := true })
  else (g, c1)

/-- The body of the `do ... while` loop of `HttpConn::write`, for the value `len` that
`writev` returned: the connection after it, and whether the loop was left by `break`.
`writev` returns at most `iov_[0].iov_len + iov_[1].iov_len`, so no subtraction of the
`size_t` lengths wraps. -/
def writeBody (c : HttpConn) (len : Int) : HttpConn × Bool :=
  if len ≤ 0 then (c, true)
  else if c.iov0.iov_len + c.iov1.iov_len = 0 then (c, true)
  else if len.toNat > c.iov0.iov_len then
    let c1 := { c with iov1 := ⟨c.iov1.iov_base.add (len.toNat - c.iov0.iov_len),
                                c.iov1.iov_len - (len.toNat - c.iov0.iov_len)⟩ }
    if c1.iov0.iov_len ≠ 0 then
      ({ c1 with writeBuff_ := c1.writeBuff_.RetrieveAll, iov0 := ⟨c1.iov0.iov_base, 0⟩ }, false)
    else (c1, false)
  else
    ({ c with iov0 := ⟨c.iov0.iov_base.add len.toNat, c.iov0.iov_len - len.toNat⟩,
              writeBuff_ := c.writeBuff_.Retrieve len.toNat }, false)

/-- Model of `HttpConn::write`, the values `writev` returns call after call given as a list:
the value returned and the connection after the call. A list that ends before the loop does
gives no result. -/
def write (g : Statics) : List Int → HttpConn → Except Fault (Int × HttpConn)
  | [], _ => .error .outOfFuel
  | len :: rest, c =>
    let step := writeBody c len
    if step.2 then .ok (len, step.1)
    else if g.isET ∨ step.1.ToWriteBytes > 10240 then write g rest step.1
    else .ok (len, step.1)

end HttpConn

/-! ## The wording of the specification, for comparison with the code -/

/-- A decimal digit, `\d`. -/
def isDigit (c : Nat) : Prop := '0'.toNat ≤ c ∧ c ≤ '9'.toNat

instance (c : Nat) : Decidable (isDigit c) := by unfold isDigit; infer_instance

/-- The request-line grammar as the specification words it,
`^([^ ]+) ([^ ]+) HTTP/(\d+\.\d+)$`: a non-empty method and a non-empty target without
spaces, and a version made of digits, a dot and digits. -/
def SpecRequestLine (line : Str) : Prop :=
  ∃ m p a b : Str, m ≠ [] ∧ p ≠ [] ∧ a ≠ [] ∧ b ≠ [] ∧ ' '.toNat ∉ m ∧ ' '.toNat ∉ p
    ∧ (∀ c ∈ a, isDigit c) ∧ (∀ c ∈ b, isDigit c)
    ∧ line = m ++ str " " ++ p ++ str " HTTP/" ++ a ++ str "." ++ b

/-- The request `HttpRequest::Init` leaves, used where an example needs a request. -/
def freshRequest : HttpRequest := HttpRequest.Init ⟨.FINISH, [], [], [], [], [], []⟩

/-- The status code the specification prescribes for a response initialised with code `c`
for the file `srcDir ++ path`: "If missing or a directory → code 404. Else if world-readable
bit unset → 403. Else if code unset (−1) → 200", and "unknown codes normalize to 400". -/
def specStatusCode (fs : FileSystem) (srcDir path : Str) (c : Int) : Int :=
  match fs.stat (srcDir ++ path) with
  | none => 404
  | some st =>
    if S_ISDIR st.st_mode then 404
    else if st.st_mode &&& S_IROTH = 0 then 403
    else if c = -1 then 200
    else if c = 200 ∨ c = 400 ∨ c = 403 ∨ c = 404 then c
    else 400

/-- Files of an example document root `/www`: name, `st_mode`, `st_size`, content. -/
def exampleFiles : List (Str × Nat × Nat × Str) :=
  [ (str "/www", 0o040755, 4096, []),
    (str "/www/index.html", 0o100644, 18, str "<html>index</html>"),
    (str "/www/400.html", 0o100644, 16, str "<html>400</html>"),
    (str "/www/403.html", 0o100644, 16, str "<html>403</html>"),
    (str "/www/404.html", 0o100644, 16, str "<html>404</html>"),
    (str "/www/style.css", 0o100644, 12, str "p, a, b, i; "),
    (str "/www/blank.bin", 0o100644, 8, [255, 255, 255, 255, 0, 1, 2, 3]) ]

/-- Lookup of a file of the example document root. -/
def exampleLookup : List (Str × Nat × Nat × Str) → Str → Option (Nat × Nat × Str)
  | [], _ => none
  | (name, f) :: rest, p => if name = p then some f else exampleLookup rest p

/-- An example state of the file system: the files of `exampleFiles`, every regular file of
which opens and maps. -/
def exampleFs : FileSystem where
  stat := fun p => (exampleLookup exampleFiles p).map (fun f => ⟨f.1, f.2.1⟩)
  openReadOnly := fun p =>
    match exampleLookup exampleFiles p with
    | some f => !S_ISDIR f.1
    | none => false
  mmap := fun p len =>
    match exampleLookup exampleFiles p with
    | some f => if len = 0 then none else some f.2.2
    | none => none

/-- An example database: the single user `u` with password `p`; every INSERT succeeds. -/
def exampleDb : MySql where
  select := fun order =>
    if order = HttpRequest.selectOrder (str "u") then some [(str "u", str "p")] else some []
  insertFails := fun _ => false

/-- An example connection just after `init`: empty buffers of 1024 bytes each, the given
bytes then read into the read buffer. -/
def exampleConn (received : Str) : HttpConn :=
  { fd_ := 5, addr_ := ⟨2, 8080, 0⟩, isClose_ := false, iovCnt_ := 0
    iov0 := ⟨.null, 0⟩, iov1 := ⟨.null, 0⟩
    readBuff_ := (Buffer.new 1024).Append received
    writeBuff_ := Buffer.new 1024
    request_ := freshRequest
    response_ := HttpResponse.new }

/-- Example values of the static members: edge-triggered, document root `/www`, one user. -/
def exampleStatics : Statics := { isET := true, srcDir := str "/www", userCount := 1 }

/-- The response `Init(srcDir = "/www", path, isKeepAlive, code)` leaves. -/
def exampleResponse (path : Str) (isKeepAlive : Bool) (code : Int) : HttpResponse :=
  { code_ := code, isKeepAlive_ := isKeepAlive, path_ := path, srcDir_ := str "/www"
    mmFile_ := .null, mmFileStat_ := ⟨0, 0⟩ }

/-- The response object after `MakeResponse` has answered 404 in the example document
root: the page `/404.html` (16 bytes) is mapped. -/
def exampleNotFound : HttpResponse :=
  { code_ := 404, isKeepAlive_ := false, path_ := str "/404.html", srcDir_ := str "/www"
    mmFile_ := .mapped (str "/www/404.html") 0, mmFileStat_ := ⟨0o100644, 16⟩ }

/-- The write buffer (1024 bytes, empty before) after that 404 response was built. -/
def exampleNotFoundBuffer : Buffer :=
  (Buffer.new 1024).Append (str ("HTTP/1.1 404 Not Found\r\nConnection: close\r\n"
    ++ "Content-type: text/html\r\nContent-length: 16\r\n\r\n"))

/-- The response object after `MakeResponse` has answered 200 for `/index.html` (18 bytes)
on a keep-alive connection in the example document root. -/
def exampleOk : HttpResponse :=
  { code_ := 200, isKeepAlive_ := true, path_ := str "/index.html", srcDir_ := str "/www"
    mmFile_ := .mapped (str "/www/index.html") 0, mmFileStat_ := ⟨0o100644, 18⟩ }

/-- The write buffer (1024 bytes, empty before) after that 200 response was built. -/
def exampleOkBuffer : Buffer :=
  (Buffer.new 1024).Append (str ("HTTP/1.1 200 OK\r\nConnection: keep-alive\r\n"
    ++ "keep-alive: max=6, timeout=120\r\nContent-type: text/html\r\nContent-length: 18\r\n\r\n"))

/-- The header grammar as the specification words it, `^([^:]+): ?(.*)$`: a non-empty name
without colon, a colon, an optional space, and a value in which `.` matches every character
but `\n` and `\r` (as in the pattern of the source). -/
def SpecHeaderLine (line : Str) : Prop :=
  ∃ name value : Str, name ≠ [] ∧ ':'.toNat ∉ name
    ∧ (∀ c ∈ value, c ≠ '\n'.toNat ∧ c ≠ '\r'.toNat)
    ∧ (line = name ++ str ":" ++ value ∨ line = name ++ str ": " ++ value)

/-- The example document root with one more file, the empty `/www/empty.txt`. -/
def exampleFilesWithEmpty : List (Str × Nat × Nat × Str) :=
  exampleFiles ++ [(str "/www/empty.txt", 0o100644, 0, [])]

/-- The file system of `exampleFilesWithEmpty`: as `exampleFs`; `mmap` of the empty file
fails, its length being 0. -/
def exampleFsWithEmpty : FileSystem where
  stat := fun p => (exampleLookup exampleFilesWithEmpty p).map (fun f => ⟨f.1, f.2.1⟩)
  openReadOnly := fun p =>
    match exampleLookup exampleFilesWithEmpty p with
    | some f => !S_ISDIR f.1
    | none => false
  mmap := fun p len =>
    match exampleLookup exampleFilesWithEmpty p with
    | some f => if len = 0 then none else some f.2.2
    | none => none

/-- A document root `/www` whose `index.html` is an 8-byte file that starts with four
bytes 0xFF. -/
def exampleFilesBlankIndex : List (Str × Nat × Nat × Str) :=
  [ (str "/www", 0o040755, 4096, []),
    (str "/www/index.html", 0o100644, 8, [255, 255, 255, 255, 60, 112, 62, 10]),
    (str "/www/400.html", 0o100644, 16, str "<html>400</html>"),
    (str "/www/403.html", 0o100644, 16, str "<html>403</html>"),
    (str "/www/404.html", 0o100644, 16, str "<html>404</html>") ]

/-- The file system of `exampleFilesBlankIndex`; every regular file opens and maps. -/
def exampleFsBlankIndex : FileSystem where
  stat := fun p => (exampleLookup exampleFilesBlankIndex p).map (fun f => ⟨f.1, f.2.1⟩)
  openReadOnly := fun p =>
    match exampleLookup exampleFilesBlankIndex p with
    | some f => !S_ISDIR f.1
    | none => false
  mmap := fun p len =>
    match exampleLookup exampleFilesBlankIndex p with
    | some f => if len = 0 then none else some f.2.2
    | none => none

/-- An example database in which the user name `new` is free and every INSERT fails. -/
def exampleDbInsertFails : MySql where
  select := fun _ => some []
  insertFails := fun _ => true

/-- An example request in state BODY: `POST /login HTTP/1.1` with the form Content-Type,
its path already resolved to `/login.html`. -/
def exampleLoginRequest : HttpRequest :=
  { state_ := .BODY, method_ := str "POST", path_ := str "/login.html", version_ := str "1.1",
    body_ := [], header_ := [(str "Content-Type", str "application/x-www-form-urlencoded")],
    post_ := [] }

/-- The request `exampleLoginRequest` after its body `username=u&password=p` is decoded. -/
def exampleLoginDecoded : HttpRequest :=
  { state_ := .BODY, method_ := str "POST", path_ := str "/login.html", version_ := str "1.1",
    body_ := str "username=u&password=p",
    header_ := [(str "Content-Type", str "application/x-www-form-urlencoded")],
    post_ := [(str "username", str "u"), (str "password", str "p")] }

/-- The text after the colon of a header line with one optional leading space removed. -/
def dropOneSpace (rest : Str) : Str :=
  match rest with
  | c :: cs => if c = ' '.toNat then cs else rest
  | [] => rest

/-- The example document root, and a file `secret.txt` in the directory above it, named
through the document root as `/www/../secret.txt`. -/
def exampleFilesOutside : List (Str × Nat × Nat × Str) :=
  exampleFiles ++ [(str "/www/../secret.txt", 0o100644, 6, str "secret")]

/-- The file system of `exampleFilesOutside`; every regular file opens and maps. -/
def exampleFsOutside : FileSystem where
  stat := fun p => (exampleLookup exampleFilesOutside p).map (fun f => ⟨f.1, f.2.1⟩)
  openReadOnly := fun p =>
    match exampleLookup exampleFilesOutside p with
    | some f => !S_ISDIR f.1
    | none => false
  mmap := fun p len =>
    match exampleLookup exampleFilesOutside p with
    | some f => if len = 0 then none else some f.2.2
    | none => none

/-- The request `freshRequest` after the body `a=1&b=2` is decoded. -/
def exampleDecodedPairs : HttpRequest :=
  { state_ := .REQUEST_LINE, method_ := [], path_ := [], version_ := [],
    body_ := str "a=1&b=2", header_ := [],
    post_ := [(str "a", str "1"), (str "b", str "2")] }

/-- A key or value with each `+` replaced by a space. -/
def plusToSpace (s : Str) : Str := s.map (fun c => if c = '+'.toNat then ' '.toNat else c)

/-- A key or value that contains none of `=`, `&`, `%`. -/
def PlainText (s : Str) : Prop := '='.toNat ∉ s ∧ '&'.toNat ∉ s ∧ '%'.toNat ∉ s

instance (s : Str) : Decidable (PlainText s) := by unfold PlainText; infer_instance

/-- The form body made of the pairs `key=value` joined by `&`. -/
def formBody : List (Str × Str) → Str
  | [] => []
  | [p] => p.1 ++ str "=" ++ p.2
  | p :: q :: rest => p.1 ++ str "=" ++ p.2 ++ str "&" ++ formBody (q :: rest)

/-- The decoding loop as a left fold over the bytes of a body without `%`, on the key, the
text read since the last `=` or `&`, and the mapping: what one byte does to them. Used to
relate the loop of `ParseFromUrlencoded_` to the pairs of a body. -/
def scanStep (acc : Str × Str × StrMap) (c : Nat) : Str × Str × StrMap :=
  if c = '='.toNat then (acc.2.1, [], acc.2.2)
  else if c = '+'.toNat then (acc.1, acc.2.1 ++ [' '.toNat], acc.2.2)
  else if c = '&'.toNat then (acc.1, [], acc.2.2.set acc.1 acc.2.1)
  else (acc.1, acc.2.1 ++ [c], acc.2.2)

/-- Closing a connection `n` times. -/
def closeTimes : Nat → Statics × HttpConn → Statics × HttpConn
  | 0, p => p
  | n + 1, p => closeTimes n (HttpConn.Close p.1 p.2)

/-- An example connection in the middle of sending: four header bytes left in the write
buffer, and the 18 mapped bytes of `/www/index.html`. -/
def exampleWriting : HttpConn :=
  { fd_ := 5, addr_ := ⟨2, 8080, 0⟩, isClose_ := false, iovCnt_ := 2
    iov0 := ⟨.buffer 0, 4⟩, iov1 := ⟨.mapped (str "/www/index.html") 0, 18⟩
    readBuff_ := Buffer.new 8
    writeBuff_ := (Buffer.new 8).Append (str "\r\n\r\n")
    request_ := freshRequest
    response_ := ⟨200, false, str "/index.html", str "/www", .mapped (str "/www/index.html") 0,
                  ⟨0o100644, 18⟩⟩ }

/-- The example connection after `process` has answered the bytes received, in the example
document root (the connection as received when `process` has no result). -/
def exampleAnswered (received : Str) : HttpConn :=
  match HttpConn.process exampleStatics exampleFs exampleDb (exampleConn received) with
  | .ok p => p.2
  | .error _ => exampleConn received

/-- An example request as received: a POST to `/login` with the form Content-Type, the
empty line, and the given one-line body with no CRLF after it. -/
def examplePost (body : Str) : Str :=
  str "POST /login HTTP/1.1\r\nContent-Type: application/x-www-form-urlencoded\r\n\r\n" ++ body

/-- What the decoder has gathered at the start of an iteration: the key, the text of the
segment that began at `j`, and the mapping. -/
def HttpRequest.UrlState.view (s : HttpRequest.UrlState) : Str × Str × StrMap :=
  (s.key, substr s.body_ s.j (s.i - s.j), s.post_)

/-- The mapping after the decoded pairs are stored one after the other. -/
def storePairs (pairs : List (Str × Str)) (m : StrMap) : StrMap :=
  pairs.foldl (fun acc p => acc.set (plusToSpace p.1) (plusToSpace p.2)) m

/-- A document root `/www` that holds `index.html` and no error page. -/
def exampleFilesNoPages : List (Str × Nat × Nat × Str) :=
  [ (str "/www", 0o040755, 4096, []),
    (str "/www/index.html", 0o100644, 18, str "<html>index</html>") ]

/-- The file system of `exampleFilesNoPages`; every regular file opens and maps. -/
def exampleFsNoPages : FileSystem where
  stat := fun p => (exampleLookup exampleFilesNoPages p).map (fun f => ⟨f.1, f.2.1⟩)
  openReadOnly := fun p =>
    match exampleLookup exampleFilesNoPages p with
    | some f => !S_ISDIR f.1
    | none => false
  mmap := fun p len =>
    match exampleLookup exampleFilesNoPages p with
    | some f => if len = 0 then none else some f.2.2
    | none => none

/-- A connection object used a second time, in the document root without error pages: it
answered `GET /` (83 header bytes and the 18 mapped bytes of `index.html`), `writev` reported
89 bytes, the peer went away and the object was closed; then `init` took it for a new peer
on descriptor 7, and the request `GET /missing HTTP/1.1` was read into the read buffer. -/
def exampleReused : HttpConn :=
  match HttpConn.process exampleStatics exampleFsNoPages exampleDb
      (exampleConn (str "GET / HTTP/1.1\r\n\r\n")) with
  | .error _ => exampleConn []
  | .ok answered =>
    let closed := HttpConn.Close exampleStatics (HttpConn.writeBody answered.2 89).1
    match HttpConn.init closed.1 closed.2 7 ⟨2, 9090, 0⟩ with
    | .error _ => exampleConn []
    | .ok opened =>
      { opened.2 with readBuff_ := opened.2.readBuff_.Append (str "GET /missing HTTP/1.1\r\n\r\n") }

/-- A request target with a NUL byte in it: the bytes `/index.html`, a NUL, and `.css`. -/
def exampleNulPath : Str := str "/index.html" ++ [0] ++ str ".css"

/-- An example connection that is sending a large file: four header bytes left in the write
buffer, and a mapping of 2147483648 bytes (2 GiB) of `/www/big.bin`. -/
def exampleWritingLarge : HttpConn :=
  { fd_ := 5, addr_ := ⟨2, 8080, 0⟩, isClose_ := false, iovCnt_ := 2
    iov0 := ⟨.buffer 0, 4⟩, iov1 := ⟨.mapped (str "/www/big.bin") 0, 2147483648⟩
    readBuff_ := Buffer.new 8
    writeBuff_ := (Buffer.new 8).Append (str "\r\n\r\n")
    request_ := freshRequest
    response_ := ⟨200, false, str "/big.bin", str "/www", .mapped (str "/www/big.bin") 0,
                  ⟨0o100644, 2147483648⟩⟩ }

/-- A user name that closes the quoted name of the SELECT and comments out its `LIMIT 1`. -/
def exampleInjectedName : Str := str "' OR 1=1 -- "

/-- An example database with the two users `u` (password `q`) and `v` (password `p`): the
SELECT built from `exampleInjectedName` returns both rows, every other SELECT none. -/
def exampleDbTwoUsers : MySql where
  select := fun order =>
    if order = HttpRequest.selectOrder exampleInjectedName
    then some [(str "u", str "q"), (str "v", str "p")] else some []
  insertFails := fun _ => false

set_option maxRecDepth 100000

/-! ## The byte buffer as a queue of bytes -/

namespace Buffer

theorem readable_length (b : Buffer) (h : b.WF) : b.readable.length = b.ReadableBytes := by
  obtain ⟨h1, h2⟩ := h
  simp only [readable, ReadableBytes, List.length_take, List.length_drop]
  omega

theorem readable_eq_drop_take (b : Buffer) : b.readable = (b.buffer_.take b.writePos_).drop b.readPos_ := by
  simp only [readable]
  rw [List.drop_take]

theorem WF_MakeSpace_ (b : Buffer) (n : Nat) (h : b.WF) : (b.MakeSpace_ n).WF := by
  obtain ⟨h1, h2⟩ := h
  unfold MakeSpace_
  split
  · simp only [WF, resize, List.length_append, List.length_take, List.length_replicate]
    omega
  · simp only [WF, readable, List.length_append, List.length_take, List.length_drop]
    omega

theorem readable_MakeSpace_ (b : Buffer) (n : Nat) (h : b.WF) :
    (b.MakeSpace_ n).readable = b.readable := by
  obtain ⟨h1, h2⟩ := h
  unfold MakeSpace_
  split
  · simp only [readable, resize]
    rw [List.drop_append_of_le_length (by simp; omega)]
    rw [List.take_append_of_le_length (by simp; omega)]
    rw [List.drop_take, List.take_take]
    congr 1
    omega
  · have hl : b.readable.length = b.writePos_ - b.readPos_ := by
      simp only [readable, List.length_take, List.length_drop]; omega
    simp only [readable, List.drop_zero, Nat.sub_zero]
    rw [List.take_append_of_le_length (by simp; omega)]
    simp

theorem WF_EnsureWriteable (b : Buffer) (n : Nat) (h : b.WF) : (b.EnsureWriteable n).WF := by
  unfold EnsureWriteable
  split
  · exact WF_MakeSpace_ b n h
  · exact h

theorem readable_EnsureWriteable (b : Buffer) (n : Nat) (h : b.WF) :
    (b.EnsureWriteable n).readable = b.readable := by
  unfold EnsureWriteable
  split
  · exact readable_MakeSpace_ b n h
  · rfl

theorem WF_Append (b : Buffer) (s : Str) (h : b.WF) : (b.Append s).WF := by
  obtain ⟨h1, h2⟩ := WF_EnsureWriteable b s.length h
  simp only [Append, WF, List.length_append, List.length_take, List.length_drop]
  omega

theorem take_drop_write (pre s post : List Nat) (r : Nat) (hr : r ≤ pre.length) :
    List.take (pre.length + s.length - r) (List.drop r (pre ++ s ++ post)) = List.drop r pre ++ s := by
  rw [List.append_assoc, List.drop_append_of_le_length hr, ← List.append_assoc]
  apply List.take_left'
  simp only [List.length_append, List.length_drop]
  omega

theorem readable_write (b1 : Buffer) (s : Str) (h : b1.WF) :
    readable { b1 with
      buffer_ := b1.buffer_.take b1.writePos_ ++ s ++ b1.buffer_.drop (b1.writePos_ + s.length),
      writePos_ := b1.writePos_ + s.length } = b1.readable ++ s := by
  obtain ⟨h1, h2⟩ := h
  have hl : (b1.buffer_.take b1.writePos_).length = b1.writePos_ := by
    simp only [List.length_take]; omega
  have key := take_drop_write (b1.buffer_.take b1.writePos_) s
    (b1.buffer_.drop (b1.writePos_ + s.length)) b1.readPos_ (by omega)
  rw [hl] at key
  rw [readable_eq_drop_take b1]
  exact key

theorem readable_Append (b : Buffer) (s : Str) (h : b.WF) :
    (b.Append s).readable = b.readable ++ s := by
  have hr := readable_EnsureWriteable b s.length h
  have hw := WF_EnsureWriteable b s.length h
  rw [← hr]
  exact readable_write (b.EnsureWriteable s.length) s hw

end Buffer

/-! ## Splitting a line at its separators -/

theorem takeWhile_ne_append (c : Nat) (m X : Str) (hm : c ∉ m) :
    List.takeWhile (fun x => x != c) (m ++ c :: X) = m := by
  induction m with
  | nil => simp [List.takeWhile]
  | cons a m ih =>
    have ha : a ≠ c := fun h => hm (by simp [h])
    have hm' : c ∉ m := fun h => hm (by simp [h])
    have hb : (a != c) = true := by simpa using ha
    rw [List.cons_append, List.takeWhile_cons, hb, if_pos rfl, ih hm']

theorem dropWhile_ne_append (c : Nat) (m X : Str) (hm : c ∉ m) :
    List.dropWhile (fun x => x != c) (m ++ c :: X) = c :: X := by
  induction m with
  | nil => simp [List.dropWhile]
  | cons a m ih =>
    have ha : a ≠ c := fun h => hm (by simp [h])
    have hm' : c ∉ m := fun h => hm (by simp [h])
    have hb : (a != c) = true := by simpa using ha
    rw [List.cons_append, List.dropWhile_cons, hb, if_pos rfl, ih hm']

theorem not_mem_takeWhile_ne (c : Nat) (l : Str) : c ∉ List.takeWhile (fun x => x != c) l := by
  intro h
  have := List.mem_takeWhile_imp h
  simp at this

theorem dropWhile_ne_cons (c y : Nat) (l X : Str)
    (h : List.dropWhile (fun x => x != c) l = y :: X) :
    y = c ∧ l = List.takeWhile (fun x => x != c) l ++ c :: X := by
  have hy : y = c := by
    induction l with
    | nil => simp at h
    | cons a l ih =>
      by_cases ha : a = c
      · subst ha
        simp [List.dropWhile] at h
        exact h.1.symm
      · have hb : (a != c) = true := by simpa using ha
        rw [List.dropWhile_cons, hb, if_pos rfl] at h
        exact ih h
  refine ⟨hy, ?_⟩
  subst hy
  conv_lhs => rw [← List.takeWhile_append_dropWhile (fun x => x != y) l]
  rw [h]

theorem isPrefixOf_str (pre l : Str) : pre.isPrefixOf l = true ↔ l = pre ++ l.drop pre.length := by
  rw [List.isPrefixOf_iff_prefix]
  constructor
  · rintro ⟨t, rfl⟩
    simp
  · intro h
    exact ⟨_, h.symm⟩

namespace HttpRequest

/-- The sub-matches of the request-line pattern `^([^ ]*) ([^ ]*) HTTP/([^ ]*)$` of the source. -/
theorem matchRequestLine_iff (line m p v : Str) :
    matchRequestLine line = some (m, p, v) ↔
      (' '.toNat ∉ m ∧ ' '.toNat ∉ p ∧ ' '.toNat ∉ v
        ∧ line = m ++ str " " ++ p ++ str " HTTP/" ++ v) := by
  constructor
  · intro h
    unfold matchRequestLine at h
    split at h
    · simp at h
    · rename_i y1 rest1 h1
      split at h
      · simp at h
      · rename_i y2 rest2 h2
        split at h
        · rename_i hc
          obtain ⟨hpre, hv⟩ := hc
          simp only [Option.some.injEq, Prod.mk.injEq] at h
          obtain ⟨rfl, rfl, rfl⟩ := h
          obtain ⟨-, e1⟩ := dropWhile_ne_cons _ _ _ _ h1
          obtain ⟨-, e2⟩ := dropWhile_ne_cons _ _ _ _ h2
          rw [isPrefixOf_str] at hpre
          refine ⟨not_mem_takeWhile_ne _ _, not_mem_takeWhile_ne _ _, hv, ?_⟩
          conv_lhs => rw [e1, e2, hpre]
          simp [str]
        · simp at h
  · rintro ⟨hm, hp, hv, rfl⟩
    have e1 : m ++ str " " ++ p ++ str " HTTP/" ++ v = m ++ ' '.toNat :: (p ++ ' '.toNat :: (str "HTTP/" ++ v)) := by
      simp [str]
    rw [e1]
    unfold matchRequestLine
    rw [dropWhile_ne_append _ _ _ hm, takeWhile_ne_append _ _ _ hm]
    simp only
    rw [dropWhile_ne_append _ _ _ hp, takeWhile_ne_append _ _ _ hp]
    have e2 : (str "HTTP/").isPrefixOf (str "HTTP/" ++ v) = true := by
      rw [List.isPrefixOf_iff_prefix]; exact List.prefix_append _ _
    have e3 : (str "HTTP/" ++ v).drop 5 = v := by simp [str]
    simp only [e2, e3, true_and]
    rw [if_pos hv]

theorem ParseRequestLine_eq_some (r r1 : HttpRequest) (line : Str) :
    ParseRequestLine_ r line = some r1 ↔
      ∃ m p v : Str, ' '.toNat ∉ m ∧ ' '.toNat ∉ p ∧ ' '.toNat ∉ v
        ∧ line = m ++ str " " ++ p ++ str " HTTP/" ++ v
        ∧ r1 = { r with method_ := m, path_ := p, version_ := v, state_ := .HEADERS } := by
  unfold ParseRequestLine_
  constructor
  · intro h
    split at h
    · rename_i m p v hm
      obtain ⟨h1, h2, h3, h4⟩ := (matchRequestLine_iff line m p v).1 hm
      exact ⟨m, p, v, h1, h2, h3, h4, by simpa using h.symm⟩
    · simp at h
  · rintro ⟨m, p, v, h1, h2, h3, h4, rfl⟩
    rw [(matchRequestLine_iff line m p v).2 ⟨h1, h2, h3, h4⟩]

/-- A first line that is not accepted makes `parse` return false, nothing changed. -/
theorem parse_rejected_line (db : MySql) (r : HttpRequest) (buff : Buffer)
    (hs : r.state_ = .REQUEST_LINE) (hb : 0 < buff.ReadableBytes)
    (hl : ParseRequestLine_ r (buff.readable.take (search buff.readable (str "\r\n"))) = none) :
    parse db r buff = .ok (false, r, buff) := by
  unfold parse
  rw [if_neg (by omega)]
  obtain ⟨n, hn⟩ : ∃ n, buff.ReadableBytes = n + 1 := ⟨buff.ReadableBytes - 1, by omega⟩
  rw [hn]
  unfold parseLoop
  rw [if_pos ⟨by omega, by rw [hs]; decide⟩]
  simp only [Nat.add_sub_cancel_left, parseSwitch, hs, hl]

end HttpRequest

/-! ## The response builder, step by step -/

namespace HttpResponse

theorem Init_ok (r0 r : HttpResponse) (srcDir path : Str) (ka : Bool) (c : Int)
    (h : r0.Init srcDir path ka c = .ok r) :
    r.code_ = c ∧ r.isKeepAlive_ = ka ∧ r.path_ = path ∧ r.srcDir_ = srcDir
      ∧ r.mmFile_ = .null ∧ r.mmFileStat_ = ⟨0, 0⟩ := by
  unfold Init at h
  split at h
  · simp at h
  · simp only [Except.ok.injEq] at h
    subst h
    exact ⟨rfl, rfl, rfl, rfl, rfl, rfl⟩

theorem statCode_fields (fs : FileSystem) (r : HttpResponse) :
    (statCode fs r).isKeepAlive_ = r.isKeepAlive_ ∧ (statCode fs r).path_ = r.path_
      ∧ (statCode fs r).srcDir_ = r.srcDir_ ∧ (statCode fs r).mmFile_ = r.mmFile_ := by
  unfold statCode
  split
  · exact ⟨rfl, rfl, rfl, rfl⟩
  · simp only
    split
    · exact ⟨rfl, rfl, rfl, rfl⟩
    · split
      · exact ⟨rfl, rfl, rfl, rfl⟩
      · split <;> exact ⟨rfl, rfl, rfl, rfl⟩

theorem statCode_code (fs : FileSystem) (r : HttpResponse) :
    (statCode fs r).code_ =
      match fs.stat (c_str (r.srcDir_ ++ r.path_)) with
      | none => 404
      | some st =>
        if S_ISDIR st.st_mode then 404
        else if st.st_mode &&& S_IROTH = 0 then 403
        else if r.code_ = -1 then 200
        else r.code_ := by
  unfold statCode
  split
  · rfl
  · simp only
    split
    · rfl
    · split
      · rfl
      · split <;> rfl

theorem ErrorHtml_fields (fs : FileSystem) (r : HttpResponse) :
    (ErrorHtml_ fs r).code_ = r.code_ ∧ (ErrorHtml_ fs r).isKeepAlive_ = r.isKeepAlive_
      ∧ (ErrorHtml_ fs r).srcDir_ = r.srcDir_ ∧ (ErrorHtml_ fs r).mmFile_ = r.mmFile_ := by
  unfold ErrorHtml_
  split <;> exact ⟨rfl, rfl, rfl, rfl⟩

/-- The error-page table, entry by entry. -/
theorem codeFind_CODE_PATH (c : Int) :
    codeFind CODE_PATH c =
      if c = 400 then some (str "/400.html")
      else if c = 403 then some (str "/403.html")
      else if c = 404 then some (str "/404.html")
      else none := by
  simp only [CODE_PATH, codeFind]
  by_cases h2 : (400 : Int) = c
  · simp [h2.symm]
  · have e2 : ¬ c = 400 := fun e => h2 e.symm
    rw [if_neg h2, if_neg e2]
    by_cases h3 : (403 : Int) = c
    · simp [h3.symm]
    · have e3 : ¬ c = 403 := fun e => h3 e.symm
      rw [if_neg h3, if_neg e3]
      by_cases h4 : (404 : Int) = c
      · simp [h4.symm]
      · have e4 : ¬ c = 404 := fun e => h4 e.symm
        rw [if_neg h4, if_neg e4]

theorem ErrorHtml_path (fs : FileSystem) (r : HttpResponse) :
    (ErrorHtml_ fs r).path_ =
      if r.code_ = 400 then str "/400.html"
      else if r.code_ = 403 then str "/403.html"
      else if r.code_ = 404 then str "/404.html"
      else r.path_ := by
  unfold ErrorHtml_
  rw [codeFind_CODE_PATH]
  by_cases h2 : r.code_ = 400
  · rw [if_pos h2, if_pos h2]
  · rw [if_neg h2, if_neg h2]
    by_cases h3 : r.code_ = 403
    · rw [if_pos h3, if_pos h3]
    · rw [if_neg h3, if_neg h3]
      by_cases h4 : r.code_ = 404
      · rw [if_pos h4, if_pos h4]
      · rw [if_neg h4, if_neg h4]

/-- The status table, entry by entry. -/
theorem codeFind_CODE_STATUS (c : Int) :
    codeFind CODE_STATUS c =
      if c = 200 then some (str "OK")
      else if c = 400 then some (str "Bad Request")
      else if c = 403 then some (str "Forbidden")
      else if c = 404 then some (str "Not Found")
      else none := by
  simp only [CODE_STATUS, codeFind]
  by_cases h1 : (200 : Int) = c
  · simp [h1.symm]
  · have e1 : ¬ c = 200 := fun e => h1 e.symm
    rw [if_neg h1, if_neg e1]
    by_cases h2 : (400 : Int) = c
    · simp [h2.symm]
    · have e2 : ¬ c = 400 := fun e => h2 e.symm
      rw [if_neg h2, if_neg e2]
      by_cases h3 : (403 : Int) = c
      · simp [h3.symm]
      · have e3 : ¬ c = 403 := fun e => h3 e.symm
        rw [if_neg h3, if_neg e3]
        by_cases h4 : (404 : Int) = c
        · simp [h4.symm]
        · have e4 : ¬ c = 404 := fun e => h4 e.symm
          rw [if_neg h4, if_neg e4]

theorem AddStateLine_known (r : HttpResponse) (buff : Buffer) (status : Str)
    (h : codeFind CODE_STATUS r.code_ = some status) :
    AddStateLine_ r buff =
      (r, buff.Append (str "HTTP/1.1 " ++ to_string r.code_ ++ str " " ++ status ++ str "\r\n")) := by
  unfold AddStateLine_
  rw [h]

theorem AddStateLine_unknown (r : HttpResponse) (buff : Buffer)
    (h : codeFind CODE_STATUS r.code_ = none) :
    AddStateLine_ r buff =
      ({ r with code_ := 400 }, buff.Append (str "HTTP/1.1 400 Bad Request\r\n")) := by
  unfold AddStateLine_
  rw [h]
  rfl

/-- The code `AddStateLine_` leaves and the status line it appends: one of four. -/
theorem AddStateLine_cases (r : HttpResponse) (buff : Buffer) :
    (r.code_ = 200 ∧ AddStateLine_ r buff = (r, buff.Append (str "HTTP/1.1 200 OK\r\n")))
    ∨ (r.code_ = 400 ∧ AddStateLine_ r buff = (r, buff.Append (str "HTTP/1.1 400 Bad Request\r\n")))
    ∨ (r.code_ = 403 ∧ AddStateLine_ r buff = (r, buff.Append (str "HTTP/1.1 403 Forbidden\r\n")))
    ∨ (r.code_ = 404 ∧ AddStateLine_ r buff = (r, buff.Append (str "HTTP/1.1 404 Not Found\r\n")))
    ∨ ((r.code_ ≠ 200 ∧ r.code_ ≠ 400 ∧ r.code_ ≠ 403 ∧ r.code_ ≠ 404)
        ∧ AddStateLine_ r buff
            = ({ r with code_ := 400 }, buff.Append (str "HTTP/1.1 400 Bad Request\r\n"))) := by
  have hf := codeFind_CODE_STATUS r.code_
  by_cases h1 : r.code_ = 200
  · rw [if_pos h1] at hf
    refine Or.inl ⟨h1, ?_⟩
    rw [AddStateLine_known r buff _ hf, h1]
    rfl
  · rw [if_neg h1] at hf
    by_cases h2 : r.code_ = 400
    · rw [if_pos h2] at hf
      refine Or.inr (Or.inl ⟨h2, ?_⟩)
      rw [AddStateLine_known r buff _ hf, h2]
      rfl
    · rw [if_neg h2] at hf
      by_cases h3 : r.code_ = 403
      · rw [if_pos h3] at hf
        refine Or.inr (Or.inr (Or.inl ⟨h3, ?_⟩))
        rw [AddStateLine_known r buff _ hf, h3]
        rfl
      · rw [if_neg h3] at hf
        by_cases h4 : r.code_ = 404
        · rw [if_pos h4] at hf
          refine Or.inr (Or.inr (Or.inr (Or.inl ⟨h4, ?_⟩)))
          rw [AddStateLine_known r buff _ hf, h4]
          rfl
        · rw [if_neg h4] at hf
          exact Or.inr (Or.inr (Or.inr (Or.inr ⟨⟨h1, h2, h3, h4⟩, AddStateLine_unknown r buff hf⟩)))

theorem AddStateLine_fields (r : HttpResponse) (buff : Buffer) :
    (AddStateLine_ r buff).1.isKeepAlive_ = r.isKeepAlive_
      ∧ (AddStateLine_ r buff).1.path_ = r.path_
      ∧ (AddStateLine_ r buff).1.srcDir_ = r.srcDir_
      ∧ (AddStateLine_ r buff).1.mmFile_ = r.mmFile_
      ∧ (AddStateLine_ r buff).1.mmFileStat_ = r.mmFileStat_ := by
  unfold AddStateLine_
  split <;> exact ⟨rfl, rfl, rfl, rfl, rfl⟩

theorem AddStateLine_code (r : HttpResponse) (buff : Buffer) :
    (AddStateLine_ r buff).1.code_ =
      if r.code_ = 200 ∨ r.code_ = 400 ∨ r.code_ = 403 ∨ r.code_ = 404 then r.code_ else 400 := by
  rcases AddStateLine_cases r buff with ⟨h, e⟩ | ⟨h, e⟩ | ⟨h, e⟩ | ⟨h, e⟩ | ⟨⟨h1, h2, h3, h4⟩, e⟩
  · rw [e, if_pos (Or.inl h)]
  · rw [e, if_pos (Or.inr (Or.inl h))]
  · rw [e, if_pos (Or.inr (Or.inr (Or.inl h)))]
  · rw [e, if_pos (Or.inr (Or.inr (Or.inr h)))]
  · rw [e, if_neg (by rintro (h | h | h | h) <;> contradiction)]

/-- The status line `AddStateLine_` appends, for each of the four codes it can leave. -/
theorem AddStateLine_buffer (r : HttpResponse) (buff : Buffer) (hw : buff.WF) :
    (AddStateLine_ r buff).2.WF
      ∧ ∃ line, (AddStateLine_ r buff).2.readable = buff.readable ++ line
        ∧ (((AddStateLine_ r buff).1.code_ = 200 ∧ line = str "HTTP/1.1 200 OK\r\n")
          ∨ ((AddStateLine_ r buff).1.code_ = 400 ∧ line = str "HTTP/1.1 400 Bad Request\r\n")
          ∨ ((AddStateLine_ r buff).1.code_ = 403 ∧ line = str "HTTP/1.1 403 Forbidden\r\n")
          ∨ ((AddStateLine_ r buff).1.code_ = 404 ∧ line = str "HTTP/1.1 404 Not Found\r\n")) := by
  rcases AddStateLine_cases r buff with ⟨h, e⟩ | ⟨h, e⟩ | ⟨h, e⟩ | ⟨h, e⟩ | ⟨-, e⟩
  · rw [e]
    exact ⟨Buffer.WF_Append _ _ hw, _, Buffer.readable_Append _ _ hw, Or.inl ⟨h, rfl⟩⟩
  · rw [e]
    exact ⟨Buffer.WF_Append _ _ hw, _, Buffer.readable_Append _ _ hw, Or.inr (Or.inl ⟨h, rfl⟩)⟩
  · rw [e]
    exact ⟨Buffer.WF_Append _ _ hw, _, Buffer.readable_Append _ _ hw,
      Or.inr (Or.inr (Or.inl ⟨h, rfl⟩))⟩
  · rw [e]
    exact ⟨Buffer.WF_Append _ _ hw, _, Buffer.readable_Append _ _ hw,
      Or.inr (Or.inr (Or.inr ⟨h, rfl⟩))⟩
  · rw [e]
    exact ⟨Buffer.WF_Append _ _ hw, _, Buffer.readable_Append _ _ hw, Or.inr (Or.inl ⟨rfl, rfl⟩)⟩

/-- The header lines `AddHeader_` appends. -/
theorem AddHeader_buffer (r : HttpResponse) (buff : Buffer) (hw : buff.WF) :
    (AddHeader_ r buff).WF
      ∧ (AddHeader_ r buff).readable = buff.readable
          ++ (if r.isKeepAlive_
                then str "Connection: keep-alive\r\nkeep-alive: max=6, timeout=120\r\n"
                else str "Connection: close\r\n")
          ++ (str "Content-type: " ++ r.GetFileType_ ++ str "\r\n") := by
  unfold AddHeader_
  have w1 := Buffer.WF_Append buff (str "Connection: ") hw
  cases hk : r.isKeepAlive_
  · have w2 := Buffer.WF_Append _ (str "close\r\n") w1
    refine ⟨Buffer.WF_Append _ _ w2, ?_⟩
    simp only [Bool.false_eq_true, if_false]
    rw [Buffer.readable_Append _ _ w2, Buffer.readable_Append _ _ w1,
      Buffer.readable_Append _ _ hw]
    simp [str]
  · have w2 := Buffer.WF_Append _ (str "keep-alive\r\n") w1
    have w3 := Buffer.WF_Append _ (str "keep-alive: max=6, timeout=120\r\n") w2
    refine ⟨Buffer.WF_Append _ _ w3, ?_⟩
    simp only [if_true]
    rw [Buffer.readable_Append _ _ w3, Buffer.readable_Append _ _ w2,
      Buffer.readable_Append _ _ w1, Buffer.readable_Append _ _ hw]
    simp [str]

theorem ErrorContent_buffer (r : HttpResponse) (buff : Buffer) (message : Str) (hw : buff.WF) :
    (r.ErrorContent buff message).WF
      ∧ (r.ErrorContent buff message).readable = buff.readable
          ++ (str "Content-length: " ++ natToString (r.errorBody message).length ++ str "\r\n\r\n")
          ++ r.errorBody message := by
  unfold ErrorContent
  have w1 := Buffer.WF_Append buff
    (str "Content-length: " ++ natToString (r.errorBody message).length ++ str "\r\n\r\n") hw
  exact ⟨Buffer.WF_Append _ _ w1, by
    rw [Buffer.readable_Append _ _ w1, Buffer.readable_Append _ _ hw]⟩

/-- What `AddContent_` changes when it returns: no field but `mmFile_`, and the buffer only
by bytes appended. -/
theorem AddContent_ok (fs : FileSystem) (r r1 : HttpResponse) (buff b1 : Buffer)
    (hw : buff.WF) (h : AddContent_ fs r buff = .ok (r1, b1)) :
    r1.code_ = r.code_ ∧ r1.path_ = r.path_ ∧ r1.isKeepAlive_ = r.isKeepAlive_
      ∧ r1.srcDir_ = r.srcDir_ ∧ r1.mmFileStat_ = r.mmFileStat_
      ∧ b1.WF ∧ ∃ rest, b1.readable = buff.readable ++ rest := by
  unfold AddContent_ at h
  split at h
  · simp only [Except.ok.injEq, Prod.mk.injEq] at h
    obtain ⟨h1, h2⟩ := h
    subst h1 h2
    obtain ⟨w, e⟩ := ErrorContent_buffer r buff (str "File NotFound!") hw
    refine ⟨rfl, rfl, rfl, rfl, rfl, w, _, e.trans (List.append_assoc _ _ _)⟩
  · split at h
    · simp at h
    · split at h
      · simp only [Except.ok.injEq, Prod.mk.injEq] at h
        obtain ⟨h1, h2⟩ := h
        subst h1 h2
        obtain ⟨w, e⟩ := ErrorContent_buffer r buff (str "File NotFound!") hw
        refine ⟨rfl, rfl, rfl, rfl, rfl, w, _, e.trans (List.append_assoc _ _ _)⟩
      · simp only [Except.ok.injEq, Prod.mk.injEq] at h
        obtain ⟨h1, h2⟩ := h
        subst h1 h2
        exact ⟨rfl, rfl, rfl, rfl, rfl, Buffer.WF_Append _ _ hw, _, Buffer.readable_Append _ _ hw⟩

theorem GetFileType_congr (r r1 : HttpResponse) (h : r1.path_ = r.path_) :
    r1.GetFileType_ = r.GetFileType_ := by
  unfold GetFileType_
  rw [h]

end HttpResponse

namespace HttpResponse

/-- The function `MakeResponse`, when it returns: the code and path it leaves and the bytes it appends. -/
theorem MakeResponse_ok (fs : FileSystem) (r r1 : HttpResponse) (buff b1 : Buffer)
    (hw : buff.WF) (hm : r.MakeResponse fs buff = .ok (r1, b1)) :
    r1.code_ = (AddStateLine_ (ErrorHtml_ fs (statCode fs r)) buff).1.code_
      ∧ r1.path_ = (ErrorHtml_ fs (statCode fs r)).path_
      ∧ b1.WF
      ∧ ∃ line rest, b1.readable = buff.readable ++ line
            ++ (if r.isKeepAlive_
                  then str "Connection: keep-alive\r\nkeep-alive: max=6, timeout=120\r\n"
                  else str "Connection: close\r\n")
            ++ (str "Content-type: " ++ r1.GetFileType_ ++ str "\r\n") ++ rest
          ∧ ((r1.code_ = 200 ∧ line = str "HTTP/1.1 200 OK\r\n")
            ∨ (r1.code_ = 400 ∧ line = str "HTTP/1.1 400 Bad Request\r\n")
            ∨ (r1.code_ = 403 ∧ line = str "HTTP/1.1 403 Forbidden\r\n")
            ∨ (r1.code_ = 404 ∧ line = str "HTTP/1.1 404 Not Found\r\n")) := by
  unfold MakeResponse at hm
  simp only at hm
  generalize hr2 : ErrorHtml_ fs (statCode fs r) = r2 at hm ⊢
  obtain ⟨f1, f2, -, -, -⟩ := AddStateLine_fields r2 buff
  obtain ⟨w3, line, e3, hline⟩ := AddStateLine_buffer r2 buff hw
  generalize hs : AddStateLine_ r2 buff = s at hm f1 f2 w3 e3 hline ⊢
  obtain ⟨r3, b3⟩ := s
  simp only at hm f1 f2 w3 e3 hline ⊢
  obtain ⟨w4, e4⟩ := AddHeader_buffer r3 b3 w3
  obtain ⟨c5, p5, -, -, -, w5, rest, e5⟩ := AddContent_ok fs r3 r1 _ b1 w4 hm
  have hk : r3.isKeepAlive_ = r.isKeepAlive_ := by
    rw [f1, ← hr2, (ErrorHtml_fields fs _).2.1, (statCode_fields fs r).1]
  refine ⟨c5, p5.trans f2, w5, line, rest, ?_, ?_⟩
  · rw [e5, e4, e3, hk, GetFileType_congr r1 r3 p5.symm]
  · rw [c5]
    exact hline

/-- The function `MakeResponse` keeps the keep-alive flag `Init` stored. -/
theorem MakeResponse_keepAlive (fs : FileSystem) (r r1 : HttpResponse) (buff b1 : Buffer)
    (hw : buff.WF) (hm : r.MakeResponse fs buff = .ok (r1, b1)) :
    r1.isKeepAlive_ = r.isKeepAlive_ := by
  unfold MakeResponse at hm
  simp only at hm
  generalize hr2 : ErrorHtml_ fs (statCode fs r) = r2 at hm
  obtain ⟨f1, -, -, -, -⟩ := AddStateLine_fields r2 buff
  obtain ⟨w3, -, -, -⟩ := AddStateLine_buffer r2 buff hw
  generalize hs : AddStateLine_ r2 buff = s at hm f1 w3
  obtain ⟨r3, b3⟩ := s
  simp only at hm f1 w3
  obtain ⟨w4, -⟩ := AddHeader_buffer r3 b3 w3
  obtain ⟨-, -, k5, -, -, -, -, -⟩ := AddContent_ok fs r3 r1 _ b1 w4 hm
  rw [k5, f1, ← hr2, (ErrorHtml_fields fs _).2.1, (statCode_fields fs r).1]

/-- The function `MakeResponse` returns whenever `mmap` does not fail on a file that opened. -/
theorem MakeResponse_returns (fs : FileSystem) (r : HttpResponse) (buff : Buffer)
    (hmap : ∀ p n, fs.openReadOnly p = true → fs.mmap p n ≠ none) :
    ∃ r1 b1, r.MakeResponse fs buff = .ok (r1, b1) := by
  unfold MakeResponse
  simp only
  generalize AddStateLine_ (ErrorHtml_ fs (statCode fs r)) buff = s
  obtain ⟨r3, b3⟩ := s
  simp only
  unfold AddContent_
  by_cases ho : fs.openReadOnly (c_str (r3.srcDir_ ++ r3.path_)) = true
  · rw [if_neg (by simpa using ho)]
    cases hm : fs.mmap (c_str (r3.srcDir_ ++ r3.path_)) r3.mmFileStat_.st_size with
    | none => exact absurd hm (hmap _ _ ho)
    | some mem =>
      simp only
      split
      · exact ⟨_, _, rfl⟩
      · exact ⟨_, _, rfl⟩
  · rw [if_pos ho]
    exact ⟨_, _, rfl⟩

end HttpResponse

/-! ## Maps and the form decoder: what is left unchanged -/

namespace StrMap

theorem find_set_self (m : StrMap) (k v : Str) : find (set m k v) k = some v := by
  induction m with
  | nil => simp [set, find]
  | cons e rest ih =>
    obtain ⟨k1, v1⟩ := e
    unfold set
    by_cases h : k1 = k
    · rw [if_pos h]; simp [find]
    · rw [if_neg h]; simp only [find]; rw [if_neg h]; exact ih

theorem find_set_ne (m : StrMap) (k k2 v : Str) (hne : k2 ≠ k) :
    find (set m k v) k2 = find m k2 := by
  induction m with
  | nil =>
    simp only [set, find]
    rw [if_neg (fun h => hne h.symm)]
  | cons e rest ih =>
    obtain ⟨k1, v1⟩ := e
    unfold set
    by_cases h : k1 = k
    · rw [if_pos h]
      simp only [find]
      rw [if_neg (fun h2 => hne h2.symm), if_neg (fun h2 => hne (h2.symm.trans h))]
    · rw [if_neg h]
      simp only [find]
      rw [ih]

theorem index_fst (m : StrMap) (k : Str) : (index m k).1 = (find m k).getD [] := by
  unfold index
  cases find m k <;> rfl

theorem index_of_find (m : StrMap) (k v : Str) (h : find m k = some v) : index m k = (v, m) := by
  unfold index
  rw [h]

end StrMap

namespace HttpRequest

theorem urlStep_length (s s1 : UrlState) (h : urlStep s = .ok s1) :
    s1.body_.length = s.body_.length := by
  unfold urlStep at h
  simp only at h
  split at h
  · simp only [Except.ok.injEq] at h; rw [← h]
  · split at h
    · simp only [Except.ok.injEq] at h; rw [← h]; simp
    · split at h
      · split at h
        · simp only [Except.ok.injEq] at h; rw [← h]; simp
        · simp at h
      · split at h
        · simp only [Except.ok.injEq] at h; rw [← h]
        · simp only [Except.ok.injEq] at h; rw [← h]

/-- The decoder changes nothing of the request but the body and the POST mapping. -/
theorem ParseFromUrlencoded_fields (r r2 : HttpRequest) (h : ParseFromUrlencoded_ r = .ok r2) :
    r2.path_ = r.path_ ∧ r2.method_ = r.method_ ∧ r2.version_ = r.version_
      ∧ r2.header_ = r.header_ ∧ r2.state_ = r.state_ := by
  unfold ParseFromUrlencoded_ at h
  split at h
  · simp only [Except.ok.injEq] at h; rw [← h]; exact ⟨rfl, rfl, rfl, rfl, rfl⟩
  · split at h
    · simp at h
    · split at h
      · simp at h
      · split at h
        · simp only [Except.ok.injEq] at h; rw [← h]; exact ⟨rfl, rfl, rfl, rfl, rfl⟩
        · simp only [Except.ok.injEq] at h; rw [← h]; exact ⟨rfl, rfl, rfl, rfl, rfl⟩

end HttpRequest

/-! ## Retrieving from a buffer -/

namespace Buffer

theorem ReadableBytes_Retrieve (b : Buffer) (len : Nat) :
    (b.Retrieve len).ReadableBytes = b.ReadableBytes - len := by
  unfold Retrieve ReadableBytes
  split
  · simp only; omega
  · simp only; omega

theorem ReadableBytes_RetrieveAll (b : Buffer) : b.RetrieveAll.ReadableBytes = 0 := rfl

theorem WF_Retrieve (b : Buffer) (len : Nat) (h : b.WF) : (b.Retrieve len).WF := by
  unfold Retrieve WF at *
  split
  · exact ⟨Nat.le_refl _, Nat.zero_le _⟩
  · simp only; omega

theorem readable_Retrieve (b : Buffer) (len : Nat) (h : b.WF) :
    (b.Retrieve len).readable = b.readable.drop len := by
  obtain ⟨h1, h2⟩ := h
  unfold Retrieve
  split
  · rename_i hle
    unfold readable
    simp only [Nat.sub_self, List.take_zero]
    symm
    apply List.drop_eq_nil_of_le
    simp only [List.length_take, List.length_drop]
    omega
  · rename_i hlt
    unfold readable
    simp only
    rw [List.drop_take, List.drop_drop]
    congr 1
    omega

end Buffer

/-! ## The `int` a `size_t` converts to -/

namespace HttpConn

theorem toInt_of_lt (n : Nat) (h : n < 2147483648) : toInt n = (n : Int) := by
  unfold toInt
  have e : n % 4294967296 = n := Nat.mod_eq_of_lt (by omega)
  rw [e, if_pos h]

/-- A positive `int` is at most the `size_t` it was converted from. -/
theorem toInt_le (n : Nat) (len : Int) (h0 : 0 < len) (h : len ≤ toInt n) : len.toNat ≤ n := by
  unfold toInt at h
  have hm : n % 4294967296 ≤ n := Nat.mod_le _ _
  split at h
  · omega
  · omega

end HttpConn

/-! ## C1: the response to a request line that is not accepted -/

namespace HttpConn

/-- When the first line of a non-empty read buffer is not accepted and the document root is
a directory, `process` (if `AddContent_` returns) answers 404 with the page `/404.html`:
the request path is still empty, so the file examined is the document root itself. -/
theorem process_rejected_request_line_is_404 (g : Statics) (fs : FileSystem) (db : MySql)
    (c c1 : HttpConn) (flag : Bool) (st : Stat)
    (hb : 0 < c.readBuff_.ReadableBytes)
    (hl : HttpRequest.ParseRequestLine_ c.request_.Init
      (c.readBuff_.readable.take (search c.readBuff_.readable (str "\r\n"))) = none)
    (hstat : fs.stat (c_str g.srcDir) = some st) (hdir : S_ISDIR st.st_mode = true)
    (hw : c.writeBuff_.WF)
    (hp : process g fs db c = .ok (flag, c1)) :
    flag = true ∧ c1.response_.code_ = 404 ∧ c1.response_.path_ = str "/404.html"
      ∧ ∃ rest, c1.writeBuff_.readable
          = c.writeBuff_.readable ++ str "HTTP/1.1 404 Not Found\r\n" ++ rest := by
  unfold process at hp
  simp only at hp
  rw [if_neg (by omega)] at hp
  rw [HttpRequest.parse_rejected_line db _ _ rfl hb hl] at hp
  simp only [Bool.false_eq_true, if_false] at hp
  split at hp
  · simp at hp
  · rename_i resp hi
    obtain ⟨hc, -, hpath, hsrc, -, -⟩ := HttpResponse.Init_ok _ _ _ _ _ _ hi
    split at hp
    · simp at hp
    · rename_i resp1 wb hm
      simp only [Except.ok.injEq, Prod.mk.injEq] at hp
      obtain ⟨hflag, hc1⟩ := hp
      obtain ⟨e1, e2, -, line, rest, eb, hline⟩ :=
        HttpResponse.MakeResponse_ok fs resp resp1 c.writeBuff_ wb hw hm
      have hcode : (HttpResponse.statCode fs resp).code_ = 404 := by
        rw [HttpResponse.statCode_code, hsrc, hpath]
        simp only [HttpRequest.Init, List.append_nil, hstat, hdir, if_true]
      have h404 : resp1.code_ = 404 := by
        rw [e1, HttpResponse.AddStateLine_code, (HttpResponse.ErrorHtml_fields fs _).1, hcode]
        decide
      have hpage : resp1.path_ = str "/404.html" := by
        rw [e2, HttpResponse.ErrorHtml_path, hcode]
        rw [if_neg (by decide), if_neg (by decide), if_pos rfl]
      have hresp : c1.response_ = resp1 := by
        rw [← hc1]; unfold setIov; simp only; split <;> rfl
      have hbuf : c1.writeBuff_ = wb := by
        rw [← hc1]; unfold setIov; simp only; split <;> rfl
      refine ⟨hflag.symm, by rw [hresp]; exact h404, by rw [hresp]; exact hpage, ?_⟩
      rw [hbuf, eb]
      rcases hline with ⟨h, -⟩ | ⟨h, -⟩ | ⟨h, -⟩ | ⟨h, l⟩
      · rw [h404] at h; exact absurd h (by decide)
      · rw [h404] at h; exact absurd h (by decide)
      · rw [h404] at h; exact absurd h (by decide)
      · rw [l]
        exact ⟨(if resp.isKeepAlive_ = true
            then str "Connection: keep-alive\r\nkeep-alive: max=6, timeout=120\r\n"
            else str "Connection: close\r\n")
          ++ (str "Content-type: " ++ resp1.GetFileType_ ++ str "\r\n") ++ rest,
          by simp only [List.append_assoc]⟩

/-- C1 (failing input): the read buffer holds `BAD\r\n`, whose first line is not a request
line, and the document root `/www` is a directory with a world-readable `/400.html`.
`parse` returns false, and `process` answers with the status line
`HTTP/1.1 404 Not Found\r\n` and the page `/404.html`, not with 400 and `/400.html`. -/
theorem C1_rejected_request_line_answers_404 :
    exampleFs.stat (str "/www") = some ⟨0o040755, 4096⟩
      ∧ S_ISDIR 0o040755 = true
      ∧ exampleFs.stat (str "/www/400.html") = some ⟨0o100644, 16⟩
      ∧ 0o100644 &&& S_IROTH ≠ 0
      ∧ (HttpRequest.parse exampleDb (exampleConn (str "BAD\r\n")).request_.Init
          (exampleConn (str "BAD\r\n")).readBuff_).map (fun x => x.1) = .ok false
      ∧ (process exampleStatics exampleFs exampleDb (exampleConn (str "BAD\r\n"))).map
          (fun x => (x.1, x.2.response_.code_, x.2.response_.path_, x.2.writeBuff_.readable))
        = .ok (true, 404, str "/404.html",
            str ("HTTP/1.1 404 Not Found\r\nConnection: close\r\n"
              ++ "Content-type: text/html\r\nContent-length: 16\r\n\r\n")) := by
  refine ⟨by decide, by decide, by decide, by decide, by decide, by decide⟩

end HttpConn

/-! ## C2: percent-decoding of a form body -/

namespace HttpRequest

/-- C2 (failing input): for the body `a=%2Fhi&b=one+two`, `ConverHex` gives 50 for the
digit `2` (its character code, not 2), `num` is 50 * 16 + 15 = 815, and the two characters
after the `%` are overwritten with the bytes 815 / 10 + 48 = 129 (mod 256) and
815 % 10 + 48 = `5`; the `%` stays. The value stored for `a` is the five bytes
`%`, 0x81, `5`, `h`, `i`, not `/hi`; `b` is `one two`. -/
theorem C2_percent_escape_not_decoded :
    ConverHex (toChar '2'.toNat) = 50
      ∧ ConverHex (toChar 'F'.toNat) = 15
      ∧ (ParseFromUrlencoded_ { freshRequest with body_ := str "a=%2Fhi&b=one+two" }).map
          (fun r => r.post_)
        = .ok [(str "a", '%'.toNat :: 129 :: '5'.toNat :: str "hi"), (str "b", str "one two")]
      ∧ '%'.toNat :: 129 :: '5'.toNat :: str "hi" ≠ str "/hi" := by
  refine ⟨by decide, by decide, by decide, by decide⟩

end HttpRequest

/-! ## C3: the parse state when `parse` returns true -/

theorem search_le_length (hay pat : Str) : search hay pat ≤ hay.length := by
  induction hay with
  | nil => simp [search]
  | cons c cs ih =>
    unfold search
    split
    · exact Nat.zero_le _
    · simp only [List.length_cons]
      omega

theorem Buffer.readable_length_le (b : Buffer) : b.readable.length ≤ b.ReadableBytes := by
  simp only [Buffer.readable, Buffer.ReadableBytes, List.length_take, List.length_drop]
  omega

namespace HttpRequest

theorem ParsePath_state (r : HttpRequest) : (ParsePath_ r).state_ = r.state_ := by
  unfold ParsePath_
  split <;> rfl

theorem ParseHeader_state (r : HttpRequest) (line : Str) :
    (ParseHeader_ r line).state_ = r.state_ ∨ (ParseHeader_ r line).state_ = .BODY := by
  unfold ParseHeader_
  split
  · exact Or.inl rfl
  · exact Or.inr rfl

theorem ParseBody_state (db : MySql) (r r1 : HttpRequest) (line : Str)
    (h : ParseBody_ db r line = .ok r1) : r1.state_ = .FINISH := by
  unfold ParseBody_ at h
  split at h
  · simp at h
  · simp only [Except.ok.injEq] at h
    rw [← h]

/-- One iteration of the loop of `parse` never leaves the request in state REQUEST_LINE. -/
theorem parseSwitch_state (db : MySql) (r r1 : HttpRequest) (buff : Buffer) (line : Str)
    (hr : r.state_ ≠ .FINISH) (h : parseSwitch db r buff line = .ok (some r1)) :
    r1.state_ ≠ .REQUEST_LINE := by
  unfold parseSwitch at h
  split at h
  · split at h
    · simp at h
    · rename_i r2 h2
      simp only [Except.ok.injEq, Option.some.injEq] at h
      rw [← h, ParsePath_state]
      obtain ⟨m, p, v, -, -, -, -, e⟩ := (ParseRequestLine_eq_some r r2 line).1 h2
      rw [e]
      simp
  · rename_i hs
    split at h
    · simp only [Except.ok.injEq, Option.some.injEq] at h
      rw [← h]
      simp
    · simp only [Except.ok.injEq, Option.some.injEq] at h
      rw [← h]
      rcases ParseHeader_state r line with e | e
      · rw [e, hs]; simp
      · rw [e]; simp
  · split at h
    · simp at h
    · rename_i r2 h2
      simp only [Except.ok.injEq, Option.some.injEq] at h
      rw [← h, ParseBody_state db r r2 line h2]
      simp
  · rename_i hs
    exact absurd hs hr

/-- What holds of the loop of `parse` when it ends with `return true`. -/
theorem parseLoop_true (db : MySql) (fuel : Nat) :
    ∀ (r : HttpRequest) (buff : Buffer) (r1 : HttpRequest) (b1 : Buffer),
      parseLoop db fuel r buff = .ok (true, r1, b1) →
      (r1.state_ = .FINISH ∨ search b1.readable (str "\r\n") = b1.readable.length)
        ∧ (r1.state_ = .REQUEST_LINE → r.state_ = .REQUEST_LINE ∧ buff.ReadableBytes = 0) := by
  have leave : ∀ (r : HttpRequest) (buff : Buffer),
      ¬ (buff.ReadableBytes ≠ 0 ∧ r.state_ ≠ .FINISH) →
      (r.state_ = .FINISH ∨ search buff.readable (str "\r\n") = buff.readable.length)
        ∧ (r.state_ = .REQUEST_LINE → r.state_ = .REQUEST_LINE ∧ buff.ReadableBytes = 0) := by
    intro r buff hc
    by_cases hf : r.state_ = .FINISH
    · exact ⟨Or.inl hf, fun e => by rw [hf] at e; cases e⟩
    · have hz : buff.ReadableBytes = 0 := by
        by_contra hne
        exact hc ⟨hne, hf⟩
      have hl : buff.readable.length = 0 := by
        have := Buffer.readable_length_le buff
        omega
      have hs := search_le_length buff.readable (str "\r\n")
      exact ⟨Or.inr (by omega), fun e => ⟨e, hz⟩⟩
  induction fuel with
  | zero =>
    intro r buff r1 b1 h
    unfold parseLoop at h
    split at h
    · simp at h
    · rename_i hc
      simp only [Except.ok.injEq, Prod.mk.injEq, true_and] at h
      obtain ⟨rfl, rfl⟩ := h
      exact leave _ _ hc
  | succ fuel ih =>
    intro r buff r1 b1 h
    unfold parseLoop at h
    split at h
    · rename_i hc
      simp only at h
      split at h
      · simp at h
      · simp at h
      · rename_i r2 h2
        have hst := parseSwitch_state db r r2 buff _ hc.2 h2
        split at h
        · rename_i hend
          simp only [Except.ok.injEq, Prod.mk.injEq, true_and] at h
          obtain ⟨rfl, rfl⟩ := h
          refine ⟨Or.inr ?_, fun e => absurd e hst⟩
          have h1 := search_le_length buff.readable (str "\r\n")
          have h2 := Buffer.readable_length_le buff
          simp only [Buffer.Peek, Buffer.BeginWrite] at hend
          simp only [Buffer.ReadableBytes] at h2
          omega
        · obtain ⟨q1, q2⟩ := ih _ _ _ _ h
          exact ⟨q1, fun e => absurd (q2 e).1 hst⟩
    · rename_i hc
      simp only [Except.ok.injEq, Prod.mk.injEq, true_and] at h
      obtain ⟨rfl, rfl⟩ := h
      exact leave _ _ hc

end HttpRequest

namespace HttpRequest

/-- Past the request line no iteration of the loop of `parse` returns false. -/
theorem parseSwitch_ne_none (db : MySql) (r : HttpRequest) (buff : Buffer) (line : Str)
    (hr : r.state_ ≠ .REQUEST_LINE) : parseSwitch db r buff line ≠ .ok none := by
  unfold parseSwitch
  split
  · rename_i hs
    exact absurd hs hr
  · split <;> simp
  · split <;> simp
  · simp

/-- Started past the request line, the loop of `parse` returns true if it returns. -/
theorem parseLoop_flag (db : MySql) (fuel : Nat) :
    ∀ (r : HttpRequest) (buff : Buffer) (flag : Bool) (r1 : HttpRequest) (b1 : Buffer),
      r.state_ ≠ .REQUEST_LINE → parseLoop db fuel r buff = .ok (flag, r1, b1) → flag = true := by
  induction fuel with
  | zero =>
    intro r buff flag r1 b1 _ h
    unfold parseLoop at h
    split at h
    · simp at h
    · simp only [Except.ok.injEq, Prod.mk.injEq] at h
      exact h.1.symm
  | succ fuel ih =>
    intro r buff flag r1 b1 hr h
    unfold parseLoop at h
    split at h
    · rename_i hc
      simp only at h
      split at h
      · simp at h
      · rename_i hn
        exact absurd hn (parseSwitch_ne_none db r buff _ hr)
      · rename_i r2 h2
        split at h
        · simp only [Except.ok.injEq, Prod.mk.injEq] at h
          exact h.1.symm
        · exact ih _ _ _ _ _ (parseSwitch_state db r r2 buff _ hc.2 h2) h
    · simp only [Except.ok.injEq, Prod.mk.injEq] at h
      exact h.1.symm

/-- C3 (amended): `parse`, started from a freshly initialised request, returns true exactly
when the buffer is not empty and its first line (the readable bytes up to the first CRLF, or
all of them when there is none) is accepted as a request line. When it returns true, the
parse state is HEADERS, BODY or FINISH, and it is FINISH unless the bytes left in the read
buffer contain no CRLF (the readable bytes ended before the request was complete). -/
theorem C3_parse_true_state (db : MySql) (r : HttpRequest) (buff : Buffer) (flag : Bool)
    (r1 : HttpRequest) (b1 : Buffer)
    (h : parse db r.Init buff = .ok (flag, r1, b1)) :
    (flag = true ↔ 0 < buff.ReadableBytes
        ∧ (ParseRequestLine_ r.Init
            (buff.readable.take (search buff.readable (str "\r\n")))).isSome = true)
      ∧ (flag = true →
          (r1.state_ = .HEADERS ∨ r1.state_ = .BODY ∨ r1.state_ = .FINISH)
          ∧ (r1.state_ = .FINISH ∨ search b1.readable (str "\r\n") = b1.readable.length)) := by
  constructor
  · by_cases hb : 0 < buff.ReadableBytes
    · cases hl : ParseRequestLine_ r.Init (buff.readable.take (search buff.readable (str "\r\n"))) with
      | none =>
        rw [parse_rejected_line db r.Init buff rfl hb hl] at h
        simp only [Except.ok.injEq, Prod.mk.injEq] at h
        rw [← h.1]
        simp
      | some r2 =>
        have hflag : flag = true := by
          unfold parse at h
          rw [if_neg (by omega)] at h
          obtain ⟨n, hn⟩ : ∃ n, buff.ReadableBytes = n + 1 := ⟨buff.ReadableBytes - 1, by omega⟩
          rw [hn] at h
          unfold parseLoop at h
          rw [if_pos ⟨by omega, by simp [Init]⟩] at h
          have hsw : parseSwitch db r.Init buff
              (buff.readable.take (buff.Peek + search buff.readable (str "\r\n") - buff.Peek))
              = .ok (some (ParsePath_ r2)) := by
            rw [Nat.add_sub_cancel_left]
            simp only [parseSwitch, Init, hl]
            simp only [Init] at hl
            rw [hl]
          simp only [hsw] at h
          split at h
          · simp only [Except.ok.injEq, Prod.mk.injEq] at h
            exact h.1.symm
          · refine parseLoop_flag db n _ _ _ _ _ ?_ h
            rw [ParsePath_state]
            obtain ⟨m, p, v, -, -, -, -, e⟩ := (ParseRequestLine_eq_some _ r2 _).1 hl
            rw [e]
            simp
        simp [hflag, hb]
    · have hfalse : flag = false := by
        unfold parse at h
        rw [if_pos (by omega)] at h
        simp only [Except.ok.injEq, Prod.mk.injEq] at h
        exact h.1.symm
      simp [hfalse, hb]
  · intro hflag
    subst hflag
    unfold parse at h
    split at h
    · simp at h
    · rename_i hb
      obtain ⟨q1, q2⟩ := parseLoop_true db _ _ _ _ _ h
      refine ⟨?_, q1⟩
      cases hs : r1.state_ with
      | REQUEST_LINE => exact absurd (q2 hs).2 (by omega)
      | HEADERS => exact Or.inl rfl
      | BODY => exact Or.inr (Or.inl rfl)
      | FINISH => exact Or.inr (Or.inr rfl)

/-- C3 (witness): the complete request `GET / HTTP/1.1` with its empty line is parsed to
FINISH and the buffer is left empty. -/
theorem C3_parse_true_state_witness :
    (true = true ↔ 0 < Buffer.ReadableBytes ⟨str "GET / HTTP/1.1\r\n\r\n", 0, 18⟩
        ∧ (ParseRequestLine_ freshRequest.Init
            ((Buffer.readable ⟨str "GET / HTTP/1.1\r\n\r\n", 0, 18⟩).take
              (search (Buffer.readable ⟨str "GET / HTTP/1.1\r\n\r\n", 0, 18⟩)
                (str "\r\n")))).isSome = true)
      ∧ (true = true →
          (PARSE_STATE.FINISH = .HEADERS ∨ PARSE_STATE.FINISH = .BODY
            ∨ PARSE_STATE.FINISH = PARSE_STATE.FINISH)
          ∧ (PARSE_STATE.FINISH = PARSE_STATE.FINISH
              ∨ search (Buffer.readable ⟨str "GET / HTTP/1.1\r\n\r\n", 0, 0⟩) (str "\r\n")
                  = (Buffer.readable ⟨str "GET / HTTP/1.1\r\n\r\n", 0, 0⟩).length)) :=
  C3_parse_true_state ⟨fun _ => none, fun _ => false⟩ freshRequest
    ⟨str "GET / HTTP/1.1\r\n\r\n", 0, 18⟩ true
    { freshRequest with state_ := .FINISH, method_ := str "GET", path_ := str "/index.html",
                        version_ := str "1.1" }
    ⟨str "GET / HTTP/1.1\r\n\r\n", 0, 0⟩ (by decide)

/-- C3 (counterexample): on the readable bytes `GET / HTTP/1.1`, which end before the CRLF
of the request line, and on `GET / HTTP/1.1\r\nHost: x`, which end before the CRLF of the
header block, `parse` returns true with the state HEADERS (in the first case with the
buffer as it was). -/
theorem C3_counterexample :
    parse ⟨fun _ => none, fun _ => false⟩ freshRequest.Init ⟨str "GET / HTTP/1.1", 0, 14⟩
        = .ok (true, { freshRequest with state_ := .HEADERS, method_ := str "GET",
                                         path_ := str "/index.html", version_ := str "1.1" },
               ⟨str "GET / HTTP/1.1", 0, 14⟩)
      ∧ (parse ⟨fun _ => none, fun _ => false⟩ freshRequest.Init
            ⟨str "GET / HTTP/1.1\r\nHost: x", 0, 23⟩).map (fun x => (x.1, x.2.1.state_))
          = .ok (true, .HEADERS) := by
  constructor <;> decide

end HttpRequest

/-! ## C4: which request lines are accepted -/

namespace HttpRequest

theorem isDigit_ne_space (c : Nat) (h : isDigit c) : c ≠ ' '.toNat := by
  intro e
  subst e
  exact absurd h.1 (by decide)

/-- C4 (amended): `ParseRequestLine_` accepts a line exactly when it matches the pattern of
the source, `^([^ ]*) ([^ ]*) HTTP/([^ ]*)$` (three space-free groups, each possibly empty),
and then sets method, target and version to the three groups and moves to HEADERS. Every
line of the specification's grammar `^([^ ]+) ([^ ]+) HTTP/(\d+\.\d+)$` is accepted. When
the first line of a non-empty buffer is not accepted, `parse` returns false and leaves the
request and the buffer as they were. -/
theorem C4_request_line_accepted_iff_source_pattern (r : HttpRequest) (line : Str) :
    (∀ r1, ParseRequestLine_ r line = some r1 ↔
      ∃ m p v : Str, ' '.toNat ∉ m ∧ ' '.toNat ∉ p ∧ ' '.toNat ∉ v
        ∧ line = m ++ str " " ++ p ++ str " HTTP/" ++ v
        ∧ r1 = { r with method_ := m, path_ := p, version_ := v, state_ := .HEADERS })
    ∧ (SpecRequestLine line → (ParseRequestLine_ r line).isSome = true)
    ∧ (ParseRequestLine_ r line = none →
        ∀ (db : MySql) (buff : Buffer), r.state_ = .REQUEST_LINE → 0 < buff.ReadableBytes →
          buff.readable.take (search buff.readable (str "\r\n")) = line →
          parse db r buff = .ok (false, r, buff)) := by
  refine ⟨fun r1 => ParseRequestLine_eq_some r r1 line, ?_, ?_⟩
  · rintro ⟨m, p, a, b, -, -, -, -, hm, hp, ha, hb, rfl⟩
    have hv : ' '.toNat ∉ a ++ str "." ++ b := by
      intro h
      rcases List.mem_append.1 h with h | h
      · rcases List.mem_append.1 h with h | h
        · exact isDigit_ne_space _ (ha _ h) rfl
        · revert h; decide
      · exact isDigit_ne_space _ (hb _ h) rfl
    have e := (ParseRequestLine_eq_some r _ (m ++ str " " ++ p ++ str " HTTP/" ++ a ++ str "." ++ b)).2
      ⟨m, p, a ++ str "." ++ b, hm, hp, hv, by simp, rfl⟩
    rw [e]
    rfl
  · intro hn db buff hs hb hl
    exact parse_rejected_line db r buff hs hb (by rw [hl]; exact hn)

/-- C4 (witness): the amended statement at the line `GET / HTTP/1.1`, which the
specification's grammar contains. -/
theorem C4_request_line_witness :
    (ParseRequestLine_ freshRequest (str "GET / HTTP/1.1")).isSome = true :=
  (C4_request_line_accepted_iff_source_pattern freshRequest (str "GET / HTTP/1.1")).2.1
    ⟨str "GET", str "/", str "1", str "1", by decide, by decide, by decide, by decide,
      by decide, by decide, by decide, by decide, by decide⟩

/-- C4 (counterexample): the line `GET / HTTP/x` is accepted, with version `x`, although it
is not a line of the specification's grammar (its version has no digits and no dot); so is
the line made of two spaces and `HTTP/`, whose method and target are empty. -/
theorem C4_counterexample :
    ParseRequestLine_ freshRequest (str "GET / HTTP/x")
        = some { freshRequest with method_ := str "GET", path_ := str "/", version_ := str "x",
                                   state_ := .HEADERS }
      ∧ ¬ SpecRequestLine (str "GET / HTTP/x")
      ∧ (ParseRequestLine_ freshRequest (str "  HTTP/")).isSome = true
      ∧ ¬ SpecRequestLine (str "  HTTP/") := by
  refine ⟨by decide, ?_, by decide, ?_⟩
  · rintro ⟨m, p, a, b, -, -, -, -, -, -, -, -, h⟩
    have hdot : '.'.toNat ∈ str "GET / HTTP/x" := by
      rw [h]; simp [str]
    revert hdot
    decide
  · rintro ⟨m, p, a, b, -, -, -, -, -, -, -, -, h⟩
    have hdot : '.'.toNat ∈ str "  HTTP/" := by
      rw [h]; simp [str]
    revert hdot
    decide

end HttpRequest

/-! ## C5: the path a target resolves to -/

namespace HttpRequest

theorem ParsePath_loop_eq (items : List Str) (path : Str) :
    ParsePath_loop items path = if path ∈ items then path ++ str ".html" else path := by
  induction items with
  | nil => simp [ParsePath_loop]
  | cons item rest ih =>
    unfold ParsePath_loop
    by_cases h : item = path
    · simp [h]
    · have h' : ¬ path = item := fun e => h e.symm
      rw [if_neg h, ih]
      simp [h']

theorem ParsePath_path (r : HttpRequest) :
    (ParsePath_ r).path_ =
      if r.path_ = str "/" then str "/index.html"
      else if r.path_ ∈ DEFAULT_HTML then r.path_ ++ str ".html"
      else r.path_ := by
  unfold ParsePath_
  split
  · rfl
  · simp only [ParsePath_loop_eq]

/-- C5: a request line with method `m`, target `T` and version `v` (three space-free groups)
is accepted in state REQUEST_LINE, and the path after `ParsePath_` is `/index.html` when `T`
is `/`, `T` followed by `.html` when `T` is one of `/index`, `/register`, `/login`,
`/welcome`, `/video`, `/picture`, and `T` itself otherwise. -/
theorem C5_resolved_path (db : MySql) (r : HttpRequest) (buff : Buffer) (m T v : Str)
    (hs : r.state_ = .REQUEST_LINE)
    (hm : ' '.toNat ∉ m) (hT : ' '.toNat ∉ T) (hv : ' '.toNat ∉ v) :
    ∃ r2, parseSwitch db r buff (m ++ str " " ++ T ++ str " HTTP/" ++ v) = .ok (some r2)
      ∧ r2.path_ =
        (if T = str "/" then str "/index.html"
         else if T = str "/index" ∨ T = str "/register" ∨ T = str "/login"
              ∨ T = str "/welcome" ∨ T = str "/video" ∨ T = str "/picture"
           then T ++ str ".html"
         else T) := by
  have e := (ParseRequestLine_eq_some r _ (m ++ str " " ++ T ++ str " HTTP/" ++ v)).2
    ⟨m, T, v, hm, hT, hv, rfl, rfl⟩
  refine ⟨ParsePath_ { r with method_ := m, path_ := T, version_ := v, state_ := .HEADERS }, ?_, ?_⟩
  · simp only [parseSwitch, hs, e]
  · rw [ParsePath_path]
    simp [DEFAULT_HTML]

/-- C5 (witness): the request line `GET /login HTTP/1.1` resolves to `/login.html`. -/
theorem C5_resolved_path_witness :
    ∃ r2, parseSwitch ⟨fun _ => none, fun _ => false⟩ freshRequest (Buffer.new 1024)
        (str "GET" ++ str " " ++ str "/login" ++ str " HTTP/" ++ str "1.1") = .ok (some r2)
      ∧ r2.path_ =
        (if str "/login" = str "/" then str "/index.html"
         else if str "/login" = str "/index" ∨ str "/login" = str "/register"
              ∨ str "/login" = str "/login" ∨ str "/login" = str "/welcome"
              ∨ str "/login" = str "/video" ∨ str "/login" = str "/picture"
           then str "/login" ++ str ".html"
         else str "/login") :=
  C5_resolved_path ⟨fun _ => none, fun _ => false⟩ freshRequest (Buffer.new 1024)
    (str "GET") (str "/login") (str "1.1") (by decide) (by decide) (by decide) (by decide)

end HttpRequest

/-! ## C6: the status code of a response -/

theorem c_str_eq_self (s : Str) (h : 0 ∉ s) : c_str s = s := by
  unfold c_str
  apply List.takeWhile_eq_self_iff.mpr
  intro c hc
  have : c ≠ 0 := fun e => h (e ▸ hc)
  simpa using this

namespace HttpResponse

/-- C6 (counterexample): a response initialised with code 200 for the path made of
`/index.html`, a NUL byte and `.css`, in the example document root. No file is named
`srcDir ++ path` (the oracle has none, and `specStatusCode` is 404), yet `MakeResponse`
emits 200: `stat` reads its argument as a C string and examines `/www/index.html`. The
request `GET` of that target is answered the same way by `process`. -/
theorem C6_counterexample :
    exampleFs.stat (str "/www" ++ exampleNulPath) = none
      ∧ specStatusCode exampleFs (str "/www") exampleNulPath 200 = 404
      ∧ c_str (str "/www" ++ exampleNulPath) = str "/www/index.html"
      ∧ ((exampleResponse exampleNulPath false 200).MakeResponse exampleFs (Buffer.new 1024)).map
          (fun x => (x.1.code_, x.2.readable.take 17))
        = .ok (200, str "HTTP/1.1 200 OK\r\n")
      ∧ (HttpConn.process exampleStatics exampleFs exampleDb
          (exampleConn (str "GET " ++ exampleNulPath ++ str " HTTP/1.1\r\n\r\n"))).map
          (fun x => (x.1, x.2.response_.code_, x.2.writeBuff_.readable.take 17))
        = .ok (true, 200, str "HTTP/1.1 200 OK\r\n") := by
  refine ⟨by decide, by decide, by decide, by decide, by decide⟩

/-- C6 (amended): for a response initialised with code `c` for `srcDir` and `path`, the code
`MakeResponse` leaves, which is the code of the status line it appends, is decided by the
file `stat` is handed, named by the bytes of `srcDir ++ path` before the first NUL: 404 if
that file is missing or a directory; otherwise 403 if its world-readable bit is unset;
otherwise 200 if `c` is -1; otherwise `c` if `c` is one of 200, 400, 403, 404; otherwise
400. When `srcDir ++ path` holds no NUL byte this is the status code of the specification
for `srcDir ++ path`. The code is always one of 200, 400, 403, 404. -/
theorem C6_status_code (fs : FileSystem) (r0 r r1 : HttpResponse) (srcDir path : Str)
    (ka : Bool) (c : Int) (buff b1 : Buffer)
    (hi : r0.Init srcDir path ka c = .ok r) (hw : buff.WF)
    (hm : r.MakeResponse fs buff = .ok (r1, b1)) :
    r1.code_ =
        (match fs.stat (c_str (srcDir ++ path)) with
          | none => 404
          | some st =>
            if S_ISDIR st.st_mode then 404
            else if st.st_mode &&& S_IROTH = 0 then 403
            else if c = -1 then 200
            else if c = 200 ∨ c = 400 ∨ c = 403 ∨ c = 404 then c
            else 400)
      ∧ (0 ∉ srcDir ++ path → r1.code_ = specStatusCode fs srcDir path c)
      ∧ (r1.code_ = 200 ∨ r1.code_ = 400 ∨ r1.code_ = 403 ∨ r1.code_ = 404)
      ∧ ∃ rest, b1.readable
          = buff.readable ++ (str "HTTP/1.1 " ++ to_string r1.code_ ++ str " ") ++ rest := by
  obtain ⟨hc, hk, hp, hs, -, -⟩ := Init_ok r0 r srcDir path ka c hi
  obtain ⟨e1, -, -, line, rest, eb, hline⟩ := MakeResponse_ok fs r r1 buff b1 hw hm
  have hcode : r1.code_ =
      (match fs.stat (c_str (srcDir ++ path)) with
        | none => 404
        | some st =>
          if S_ISDIR st.st_mode then 404
          else if st.st_mode &&& S_IROTH = 0 then 403
          else if c = -1 then 200
          else if c = 200 ∨ c = 400 ∨ c = 403 ∨ c = 404 then c
          else 400) := by
    rw [e1, AddStateLine_code, (ErrorHtml_fields fs _).1, statCode_code, hs, hp, hc]
    cases fs.stat (c_str (srcDir ++ path)) with
    | none => simp
    | some st =>
      simp only
      by_cases h1 : S_ISDIR st.st_mode = true
      · simp [h1]
      · rw [if_neg h1, if_neg h1]
        by_cases h2 : st.st_mode &&& S_IROTH = 0
        · simp [h2]
        · rw [if_neg h2, if_neg h2]
          by_cases h3 : c = -1
          · simp [h3]
          · rw [if_neg h3, if_neg h3]
  refine ⟨hcode, ?_, ?_, ?_⟩
  · intro hnul
    rw [hcode, c_str_eq_self _ hnul]
    rfl
  · rcases hline with ⟨h, -⟩ | ⟨h, -⟩ | ⟨h, -⟩ | ⟨h, -⟩
    · exact Or.inl h
    · exact Or.inr (Or.inl h)
    · exact Or.inr (Or.inr (Or.inl h))
    · exact Or.inr (Or.inr (Or.inr h))
  · have key : ∀ tail : Str, line = (str "HTTP/1.1 " ++ to_string r1.code_ ++ str " ") ++ tail →
        ∃ rest, b1.readable
          = buff.readable ++ (str "HTTP/1.1 " ++ to_string r1.code_ ++ str " ") ++ rest := by
      intro tail ht
      refine ⟨tail ++ ((if r.isKeepAlive_
          then str "Connection: keep-alive\r\nkeep-alive: max=6, timeout=120\r\n"
          else str "Connection: close\r\n")
        ++ ((str "Content-type: " ++ r1.GetFileType_ ++ str "\r\n") ++ rest)), ?_⟩
      rw [eb, ht]
      simp only [List.append_assoc]
    rcases hline with ⟨h, l⟩ | ⟨h, l⟩ | ⟨h, l⟩ | ⟨h, l⟩
    · exact key (str "OK\r\n") (by rw [l, h]; decide)
    · exact key (str "Bad Request\r\n") (by rw [l, h]; decide)
    · exact key (str "Forbidden\r\n") (by rw [l, h]; decide)
    · exact key (str "Not Found\r\n") (by rw [l, h]; decide)

/-- C6 (witness): a request for the missing file `/nosuchfile`, initialised with code 200
in the example document root, is answered with 404. -/
theorem C6_status_code_witness :
    exampleNotFound.code_ = specStatusCode exampleFs (str "/www") (str "/nosuchfile") 200
      ∧ (exampleNotFound.code_ = 200 ∨ exampleNotFound.code_ = 400
          ∨ exampleNotFound.code_ = 403 ∨ exampleNotFound.code_ = 404)
      ∧ ∃ rest, exampleNotFoundBuffer.readable
          = (Buffer.new 1024).readable
            ++ (str "HTTP/1.1 " ++ to_string exampleNotFound.code_ ++ str " ") ++ rest :=
  have h := C6_status_code exampleFs HttpResponse.new (exampleResponse (str "/nosuchfile") false 200)
    exampleNotFound (str "/www") (str "/nosuchfile") false 200 (Buffer.new 1024)
    exampleNotFoundBuffer (by decide) (by decide) (by decide)
  ⟨h.2.1 (by decide), h.2.2⟩

end HttpResponse

/-! ## C7: status line and header lines -/

namespace HttpResponse

/-- C7: the bytes `MakeResponse` appends to the write buffer begin with the status line
`HTTP/1.1 <code> <reason>\r\n`, the reason being OK, Bad Request, Forbidden or Not Found for
200, 400, 403, 404; then comes `Connection: keep-alive\r\nkeep-alive: max=6, timeout=120\r\n`
when the keep-alive flag is set and `Connection: close\r\n` otherwise; then
`Content-type: <mime>\r\n`, the mime being the value of `GetFileType_` for the final path. -/
theorem C7_response_head (fs : FileSystem) (r r1 : HttpResponse) (buff b1 : Buffer)
    (hw : buff.WF) (hm : r.MakeResponse fs buff = .ok (r1, b1)) :
    ∃ line rest, b1.readable = buff.readable ++ line
        ++ (if r.isKeepAlive_
              then str "Connection: keep-alive\r\nkeep-alive: max=6, timeout=120\r\n"
              else str "Connection: close\r\n")
        ++ (str "Content-type: " ++ r1.GetFileType_ ++ str "\r\n") ++ rest
      ∧ ((r1.code_ = 200 ∧ line = str "HTTP/1.1 200 OK\r\n")
        ∨ (r1.code_ = 400 ∧ line = str "HTTP/1.1 400 Bad Request\r\n")
        ∨ (r1.code_ = 403 ∧ line = str "HTTP/1.1 403 Forbidden\r\n")
        ∨ (r1.code_ = 404 ∧ line = str "HTTP/1.1 404 Not Found\r\n")) :=
  (MakeResponse_ok fs r r1 buff b1 hw hm).2.2.2

/-- C7 (witness): the response to a keep-alive request for `/index.html` in the example
document root. -/
theorem C7_response_head_witness :
    ∃ line rest, exampleOkBuffer.readable = (Buffer.new 1024).readable ++ line
        ++ (if (exampleResponse (str "/index.html") true 200).isKeepAlive_
              then str "Connection: keep-alive\r\nkeep-alive: max=6, timeout=120\r\n"
              else str "Connection: close\r\n")
        ++ (str "Content-type: " ++ exampleOk.GetFileType_ ++ str "\r\n") ++ rest
      ∧ ((exampleOk.code_ = 200 ∧ line = str "HTTP/1.1 200 OK\r\n")
        ∨ (exampleOk.code_ = 400 ∧ line = str "HTTP/1.1 400 Bad Request\r\n")
        ∨ (exampleOk.code_ = 403 ∧ line = str "HTTP/1.1 403 Forbidden\r\n")
        ∨ (exampleOk.code_ = 404 ∧ line = str "HTTP/1.1 404 Not Found\r\n")) :=
  C7_response_head exampleFs (exampleResponse (str "/index.html") true 200) exampleOk
    (Buffer.new 1024) exampleOkBuffer (by decide) (by decide)

end HttpResponse

/-! ## C8: the MIME type of a path -/

namespace HttpResponse

/-- C8 (failing input): for the paths `/style.css` and `/app.js` the value `GetFileType_`
returns ends in a space, `text/css ` and `text/javascript `, as the two entries of
`SUFFIX_TYPE` do; the header line built from it is `Content-type: text/css \r\n`. -/
theorem C8_css_and_js_types_end_in_a_space :
    (exampleResponse (str "/style.css") false 200).GetFileType_ = str "text/css "
      ∧ (exampleResponse (str "/style.css") false 200).GetFileType_ ≠ str "text/css"
      ∧ (exampleResponse (str "/app.js") false 200).GetFileType_ = str "text/javascript "
      ∧ (exampleResponse (str "/app.js") false 200).GetFileType_ ≠ str "text/javascript"
      ∧ (MakeResponse exampleFs (exampleResponse (str "/style.css") false 200)
            (Buffer.new 1024)).map (fun x => x.2.readable)
          = .ok (str ("HTTP/1.1 200 OK\r\nConnection: close\r\n"
              ++ "Content-type: text/css \r\nContent-length: 12\r\n\r\n")) := by
  refine ⟨by decide, by decide, by decide, by decide, by decide⟩

end HttpResponse

/-! ## C9: the page served with an error status -/

namespace HttpResponse

/-- C9 (failing input): a response initialised with the code 500 for the readable file
`/index.html` of the example document root. `ErrorHtml_` finds no page for 500 and keeps the
path; `AddStateLine_`, which runs after it, turns the code into 400. The status line is
`HTTP/1.1 400 Bad Request\r\n` and the file mapped as the body is `/www/index.html`, not
`/www/400.html`. -/
theorem C9_unknown_code_served_with_requested_file :
    HttpResponse.new.Init (str "/www") (str "/index.html") false 500
        = .ok (exampleResponse (str "/index.html") false 500)
      ∧ (MakeResponse exampleFs (exampleResponse (str "/index.html") false 500)
            (Buffer.new 1024)).map
          (fun x => (x.1.code_, x.1.path_, x.1.mmFile_, x.2.readable))
        = .ok (400, str "/index.html", .mapped (str "/www/index.html") 0,
            str ("HTTP/1.1 400 Bad Request\r\nConnection: close\r\n"
              ++ "Content-type: text/html\r\nContent-length: 18\r\n\r\n")) := by
  refine ⟨by decide, by decide⟩

end HttpResponse

/-! ## C10: the content length line of a mapped file -/

namespace HttpResponse

/-- C10 (failing input): the file `/blank.bin` of the example document root has 8 bytes,
the first four of them 0xFF; it is world-readable, opens and maps. `*mmRet` reads the int -1
from the mapping, so `AddContent_` takes the failure branch: it appends
`Content-length: 119\r\n\r\n` and the 119 bytes of the synthesized error page, not
`Content-length: 8\r\n\r\n` alone, and `File()` stays null. -/
theorem C10_mapped_file_starting_with_minus_one :
    exampleFs.openReadOnly (str "/www/blank.bin") = true
      ∧ exampleFs.mmap (str "/www/blank.bin") 8 = some [255, 255, 255, 255, 0, 1, 2, 3]
      ∧ readInt32 [255, 255, 255, 255, 0, 1, 2, 3] = -1
      ∧ (AddContent_ exampleFs
            { exampleResponse (str "/blank.bin") false 200 with mmFileStat_ := ⟨0o100644, 8⟩ }
            (Buffer.new 1024)).map (fun x => (x.1.File, x.1.FileLen, x.2.readable))
        = .ok (.null, 8,
            str ("Content-length: 119\r\n\r\n"
              ++ "<html><title>Error</title><body bgcolor=\"ffffff\">200 : OK\n"
              ++ "<p>File NotFound!</p><hr><em>TinyWebServer</em></body></html>")) := by
  refine ⟨by decide, by decide, by decide, by decide⟩

end HttpResponse

/-! ## C11: the synthesized error body -/

namespace HttpResponse

/-- The page `ErrorContent` builds contains `<code> : <reason>`. -/
theorem errorBody_contains (r : HttpResponse) (message : Str) :
    ∃ reason before after, r.errorBody message
        = before ++ (to_string r.code_ ++ str " : " ++ reason) ++ after
      ∧ reason = (match codeFind CODE_STATUS r.code_ with
          | some st => st
          | none => str "Bad Request") := by
  refine ⟨_, str "<html><title>Error</title>" ++ str "<body bgcolor=\"ffffff\">",
    str "\n" ++ (str "<p>" ++ message ++ str "</p>")
      ++ str "<hr><em>TinyWebServer</em></body></html>", ?_, rfl⟩
  unfold errorBody
  simp only [List.append_assoc]

/-- When the resolved file cannot be opened, `AddContent_` appends `Content-length: N\r\n\r\n`
and the synthesized page of exactly `N` bytes, and leaves the response as it was. -/
theorem AddContent_open_fails (fs : FileSystem) (r : HttpResponse) (buff : Buffer)
    (hw : buff.WF) (ho : fs.openReadOnly (c_str (r.srcDir_ ++ r.path_)) = false) :
    ∃ b1, AddContent_ fs r buff = .ok (r, b1)
      ∧ b1.readable = buff.readable
          ++ (str "Content-length: " ++ natToString (r.errorBody (str "File NotFound!")).length
              ++ str "\r\n\r\n")
          ++ r.errorBody (str "File NotFound!") := by
  unfold AddContent_
  rw [if_pos (by simp [ho])]
  exact ⟨_, rfl, (ErrorContent_buffer r buff _ hw).2⟩

/-- C11 (failing input): the file `/empty.txt` has length 0; it opens, and `mmap` of
length 0 returns `MAP_FAILED`. `AddContent_` then evaluates `*mmRet`, a read through
`MAP_FAILED`, before it can reach `ErrorContent`: the call has no defined result and nothing
is appended, neither by `AddContent_` alone nor through `MakeResponse`. -/
theorem C11_mmap_failure_is_dereferenced :
    exampleFsWithEmpty.stat (str "/www/empty.txt") = some ⟨0o100644, 0⟩
      ∧ exampleFsWithEmpty.openReadOnly (str "/www/empty.txt") = true
      ∧ exampleFsWithEmpty.mmap (str "/www/empty.txt") 0 = none
      ∧ AddContent_ exampleFsWithEmpty
          { exampleResponse (str "/empty.txt") false 200 with mmFileStat_ := ⟨0o100644, 0⟩ }
          (Buffer.new 1024) = .error .undefinedBehaviour
      ∧ MakeResponse exampleFsWithEmpty (exampleResponse (str "/empty.txt") false 200)
          (Buffer.new 1024) = .error .undefinedBehaviour := by
  refine ⟨by decide, by decide, by decide, by decide, by decide⟩

end HttpResponse

/-! ## C12: the response to `GET /` -/

namespace HttpConn

/-- The request `GET / HTTP/1.1` with its empty line is parsed to FINISH, whatever the database. -/
theorem parse_get_root (db : MySql) :
    HttpRequest.parse db (exampleConn (str "GET / HTTP/1.1\r\n\r\n")).request_.Init
        (exampleConn (str "GET / HTTP/1.1\r\n\r\n")).readBuff_
      = .ok (true,
          { freshRequest with state_ := .FINISH, method_ := str "GET",
                              path_ := str "/index.html", version_ := str "1.1" },
          (exampleConn (str "GET / HTTP/1.1\r\n\r\n")).readBuff_.RetrieveAll) := by
  rfl

/-- The response built for a readable `index.html` whose first four bytes are not all 0xFF. -/
theorem MakeResponse_index (fs : FileSystem) (srcDir : Str) (mode n : Nat) (mem : Str)
    (hstat : fs.stat (c_str (srcDir ++ str "/index.html")) = some ⟨mode, n⟩)
    (hreg : S_ISDIR mode = false) (hread : mode &&& S_IROTH ≠ 0)
    (hopen : fs.openReadOnly (c_str (srcDir ++ str "/index.html")) = true)
    (hmap : fs.mmap (c_str (srcDir ++ str "/index.html")) n = some mem)
    (hint : readInt32 mem ≠ -1) :
    ∃ b1, HttpResponse.MakeResponse fs ⟨200, false, str "/index.html", srcDir, .null, ⟨0, 0⟩⟩
          (Buffer.new 1024)
        = .ok (⟨200, false, str "/index.html", srcDir, .mapped (c_str (srcDir ++ str "/index.html")) 0,
                ⟨mode, n⟩⟩, b1)
      ∧ b1.readable
          = str "HTTP/1.1 200 OK\r\nConnection: close\r\nContent-type: text/html\r\n"
            ++ (str "Content-length: " ++ natToString n ++ str "\r\n\r\n") := by
  have hsc : HttpResponse.statCode fs ⟨200, false, str "/index.html", srcDir, .null, ⟨0, 0⟩⟩
      = ⟨200, false, str "/index.html", srcDir, .null, ⟨mode, n⟩⟩ := by
    unfold HttpResponse.statCode
    simp only [hstat, hreg, Bool.false_eq_true, if_false, if_neg hread]
    rfl
  unfold HttpResponse.MakeResponse
  simp only [hsc]
  have he : HttpResponse.ErrorHtml_ fs ⟨200, false, str "/index.html", srcDir, .null, ⟨mode, n⟩⟩
      = ⟨200, false, str "/index.html", srcDir, .null, ⟨mode, n⟩⟩ := rfl
  rw [he]
  have hs : HttpResponse.AddStateLine_ ⟨200, false, str "/index.html", srcDir, .null, ⟨mode, n⟩⟩
      (Buffer.new 1024)
      = (⟨200, false, str "/index.html", srcDir, .null, ⟨mode, n⟩⟩,
         (Buffer.new 1024).Append (str "HTTP/1.1 200 OK\r\n")) := rfl
  rw [hs]
  simp only
  have w0 : (Buffer.new 1024).WF := by decide
  obtain ⟨w4, e4⟩ := HttpResponse.AddHeader_buffer
    ⟨200, false, str "/index.html", srcDir, .null, ⟨mode, n⟩⟩
    ((Buffer.new 1024).Append (str "HTTP/1.1 200 OK\r\n")) (Buffer.WF_Append _ _ w0)
  unfold HttpResponse.AddContent_
  simp only [hopen, not_true_eq_false, if_false, hmap, if_neg hint]
  refine ⟨_, rfl, ?_⟩
  rw [Buffer.readable_Append _ _ w4, e4, Buffer.readable_Append _ _ w0]
  have hnew : (Buffer.new 1024).readable = [] := by decide
  have ht : HttpResponse.GetFileType_
      ⟨200, false, str "/index.html", srcDir, .null, ⟨mode, n⟩⟩ = str "text/html" := rfl
  rw [hnew, ht]
  simp [str]

/-- The response to `GET /` when the first four bytes of `index.html` are not all 0xFF. -/
theorem process_get_root (g : Statics) (fs : FileSystem) (db : MySql) (mode n : Nat) (mem : Str)
    (hsrc : g.srcDir ≠ [])
    (hstat : fs.stat (c_str (g.srcDir ++ str "/index.html")) = some ⟨mode, n⟩)
    (hreg : S_ISDIR mode = false) (hread : mode &&& S_IROTH ≠ 0) (hn : 0 < n)
    (hopen : fs.openReadOnly (c_str (g.srcDir ++ str "/index.html")) = true)
    (hmap : fs.mmap (c_str (g.srcDir ++ str "/index.html")) n = some mem)
    (hint : readInt32 mem ≠ -1) :
    ∃ c1, process g fs db (exampleConn (str "GET / HTTP/1.1\r\n\r\n")) = .ok (true, c1)
      ∧ c1.writeBuff_.readable
          = str "HTTP/1.1 200 OK\r\nConnection: close\r\nContent-type: text/html\r\n"
            ++ (str "Content-length: " ++ natToString n ++ str "\r\n\r\n")
      ∧ c1.iovCnt_ = 2
      ∧ c1.iov1 = ⟨.mapped (c_str (g.srcDir ++ str "/index.html")) 0, n⟩ := by
  obtain ⟨b1, hm, hb⟩ := MakeResponse_index fs g.srcDir mode n mem hstat hreg hread hopen hmap hint
  have hi : HttpResponse.Init (exampleConn (str "GET / HTTP/1.1\r\n\r\n")).response_ g.srcDir
      (str "/index.html") false 200
      = .ok ⟨200, false, str "/index.html", g.srcDir, .null, ⟨0, 0⟩⟩ := by
    unfold HttpResponse.Init
    rw [if_neg hsrc]
  have hka : HttpRequest.IsKeepAlive
      { freshRequest with state_ := .FINISH, method_ := str "GET",
                          path_ := str "/index.html", version_ := str "1.1" } = false := by
    decide
  have hwb : (exampleConn (str "GET / HTTP/1.1\r\n\r\n")).writeBuff_ = Buffer.new 1024 := rfl
  unfold process
  simp only
  rw [if_neg (by decide), parse_get_root db]
  simp only [if_true, hka, hi, hwb, hm]
  refine ⟨_, rfl, ?_, ?_, ?_⟩
  · unfold setIov
    simp only
    split <;> exact hb
  · unfold setIov
    simp only [HttpResponse.FileLen, HttpResponse.File]
    rw [if_pos ⟨hn, by simp⟩]
  · unfold setIov
    simp only [HttpResponse.FileLen, HttpResponse.File]
    rw [if_pos ⟨hn, by simp⟩]

/-- C12 (failing input): the read buffer holds `GET / HTTP/1.1\r\n\r\n`, the write buffer is
empty, and `/www/index.html` is a world-readable regular file of 8 bytes that opens and
maps; its first four bytes are 0xFF. `process` returns true with the status line
`HTTP/1.1 200 OK\r\n` and `Content-type: text/html\r\n`, but the write buffer ends with
`Content-length: 119\r\n\r\n` and the synthesized error page instead of
`Content-length: 8\r\n\r\n`, `iovCnt_` is 1 and `iov_[1]` is not set to the mapping. -/
theorem C12_get_root_with_index_starting_with_minus_one :
    exampleFsBlankIndex.stat (str "/www/index.html") = some ⟨0o100644, 8⟩
      ∧ S_ISDIR 0o100644 = false ∧ 0o100644 &&& S_IROTH ≠ 0
      ∧ exampleFsBlankIndex.openReadOnly (str "/www/index.html") = true
      ∧ exampleFsBlankIndex.mmap (str "/www/index.html") 8
          = some [255, 255, 255, 255, 60, 112, 62, 10]
      ∧ (process exampleStatics exampleFsBlankIndex exampleDb
            (exampleConn (str "GET / HTTP/1.1\r\n\r\n"))).map
          (fun x => (x.1, x.2.writeBuff_.readable, x.2.iovCnt_, x.2.iov1, x.2.response_.File))
        = .ok (true,
            str ("HTTP/1.1 200 OK\r\nConnection: close\r\nContent-type: text/html\r\n"
              ++ "Content-length: 119\r\n\r\n"
              ++ "<html><title>Error</title><body bgcolor=\"ffffff\">200 : OK\n"
              ++ "<p>File NotFound!</p><hr><em>TinyWebServer</em></body></html>"),
            1, ⟨.null, 0⟩, .null) := by
  refine ⟨by decide, by decide, by decide, by decide, by decide, by decide⟩

end HttpConn

/-! ## C13: the files a response consults -/

namespace HttpResponse

theorem statCode_congr (fs1 fs2 : FileSystem) (r : HttpResponse)
    (h : fs1.stat (c_str (r.srcDir_ ++ r.path_)) = fs2.stat (c_str (r.srcDir_ ++ r.path_))) :
    statCode fs1 r = statCode fs2 r := by
  unfold statCode
  rw [h]

theorem ErrorHtml_congr (fs1 fs2 : FileSystem) (r : HttpResponse)
    (h : fs1.stat (c_str (r.srcDir_ ++ (ErrorHtml_ fs1 r).path_))
      = fs2.stat (c_str (r.srcDir_ ++ (ErrorHtml_ fs1 r).path_))) :
    ErrorHtml_ fs1 r = ErrorHtml_ fs2 r := by
  unfold ErrorHtml_ at h ⊢
  cases hc : codeFind CODE_PATH r.code_ with
  | none => rfl
  | some page =>
    rw [hc] at h
    simp only at h ⊢
    unfold statInto
    rw [h]

theorem AddContent_congr (fs1 fs2 : FileSystem) (r : HttpResponse) (buff : Buffer)
    (ho : fs1.openReadOnly (c_str (r.srcDir_ ++ r.path_)) = fs2.openReadOnly (c_str (r.srcDir_ ++ r.path_)))
    (hm : ∀ n, fs1.mmap (c_str (r.srcDir_ ++ r.path_)) n = fs2.mmap (c_str (r.srcDir_ ++ r.path_)) n) :
    AddContent_ fs1 r buff = AddContent_ fs2 r buff := by
  unfold AddContent_
  rw [ho, hm]

/-- The pointer `AddContent_` leaves: the one it found, or the mapping of the file named by
`srcDir_ + path_` as a C string. -/
theorem AddContent_file (fs : FileSystem) (r r1 : HttpResponse) (buff b1 : Buffer)
    (h : AddContent_ fs r buff = .ok (r1, b1)) :
    r1.mmFile_ = r.mmFile_ ∨ r1.mmFile_ = .mapped (c_str (r.srcDir_ ++ r.path_)) 0 := by
  unfold AddContent_ at h
  split at h
  · simp only [Except.ok.injEq, Prod.mk.injEq] at h
    rw [← h.1]; exact Or.inl rfl
  · split at h
    · simp at h
    · split at h
      · simp only [Except.ok.injEq, Prod.mk.injEq] at h
        rw [← h.1]; exact Or.inl rfl
      · simp only [Except.ok.injEq, Prod.mk.injEq] at h
        rw [← h.1]; exact Or.inr rfl

theorem AddContent_path (fs : FileSystem) (r r1 : HttpResponse) (buff b1 : Buffer)
    (h : AddContent_ fs r buff = .ok (r1, b1)) : r1.path_ = r.path_ := by
  unfold AddContent_ at h
  split at h
  · simp only [Except.ok.injEq, Prod.mk.injEq] at h
    rw [← h.1]
  · split at h
    · simp at h
    · split at h
      · simp only [Except.ok.injEq, Prod.mk.injEq] at h
        rw [← h.1]
      · simp only [Except.ok.injEq, Prod.mk.injEq] at h
        rw [← h.1]

/-- C13 (counterexample): the request `GET` of the target made of `/index.html`, a NUL byte
and `.css`. The path of the response is that target, and no file is named by the byte
concatenation `srcDir ++ path` (neither `stat` nor `open` of it succeeds in the example file
system), yet `process` answers 200 and maps the 18 bytes of `/www/index.html`: `stat` and
`open` read their argument as a C string. -/
theorem C13_counterexample :
    (HttpConn.process exampleStatics exampleFs exampleDb
        (exampleConn (str "GET " ++ exampleNulPath ++ str " HTTP/1.1\r\n\r\n"))).map
        (fun x => (x.2.response_.code_, x.2.response_.path_, x.2.iov1))
      = .ok (200, exampleNulPath, ⟨.mapped (str "/www/index.html") 0, 18⟩)
      ∧ str "/www" ++ exampleNulPath ≠ str "/www/index.html"
      ∧ exampleFs.stat (str "/www" ++ exampleNulPath) = none
      ∧ exampleFs.openReadOnly (str "/www" ++ exampleNulPath) = false := by
  refine ⟨by decide, by decide, by decide, by decide⟩

/-- C13 (amended): for every response there is a final path, the request path or one of the
three error pages, such that `MakeResponse` consults the file system only through `stat` of
the name `srcDir ++ path` and through `stat`, `open` and `mmap` of the name
`srcDir ++ final`, each name read as a C string (its bytes before the first NUL, so the
whole concatenation when it holds no NUL): a file system that agrees on these gives the same
result. The path left is the final path, and a file mapped for the body is the one of that
name. No path is normalized otherwise: a target that contains a dot, so any target with
`..` segments, is left as it is by `ParsePath_`. -/
theorem C13_files_consulted (fs1 : FileSystem) (r : HttpResponse) (buff : Buffer) :
    (∃ final : Str,
      (final = r.path_ ∨ final = str "/400.html" ∨ final = str "/403.html"
          ∨ final = str "/404.html")
      ∧ (∀ fs2 : FileSystem,
          fs1.stat (c_str (r.srcDir_ ++ r.path_)) = fs2.stat (c_str (r.srcDir_ ++ r.path_)) →
          fs1.stat (c_str (r.srcDir_ ++ final)) = fs2.stat (c_str (r.srcDir_ ++ final)) →
          fs1.openReadOnly (c_str (r.srcDir_ ++ final)) = fs2.openReadOnly (c_str (r.srcDir_ ++ final)) →
          (∀ n, fs1.mmap (c_str (r.srcDir_ ++ final)) n = fs2.mmap (c_str (r.srcDir_ ++ final)) n) →
          r.MakeResponse fs1 buff = r.MakeResponse fs2 buff)
      ∧ (∀ r1 b1, r.MakeResponse fs1 buff = .ok (r1, b1) →
          r1.path_ = final
            ∧ (r1.mmFile_ = r.mmFile_ ∨ r1.mmFile_ = .mapped (c_str (r.srcDir_ ++ final)) 0))
      ∧ (0 ∉ r.srcDir_ ++ r.path_ → c_str (r.srcDir_ ++ r.path_) = r.srcDir_ ++ r.path_)
      ∧ (0 ∉ r.srcDir_ ++ final → c_str (r.srcDir_ ++ final) = r.srcDir_ ++ final))
    ∧ (∀ rq : HttpRequest, '.'.toNat ∈ rq.path_ → (HttpRequest.ParsePath_ rq).path_ = rq.path_) := by
  constructor
  · refine ⟨(ErrorHtml_ fs1 (statCode fs1 r)).path_, ?_, ?_, ?_, c_str_eq_self _, c_str_eq_self _⟩
    · rw [ErrorHtml_path, (statCode_fields fs1 r).2.1]
      split
      · exact Or.inr (Or.inl rfl)
      · split
        · exact Or.inr (Or.inr (Or.inl rfl))
        · split
          · exact Or.inr (Or.inr (Or.inr rfl))
          · exact Or.inl rfl
    · intro fs2 h1 h2 h3 h4
      have e1 := statCode_congr fs1 fs2 r h1
      have hsd : (statCode fs1 r).srcDir_ = r.srcDir_ := (statCode_fields fs1 r).2.2.1
      have e2 : ErrorHtml_ fs1 (statCode fs1 r) = ErrorHtml_ fs2 (statCode fs1 r) :=
        ErrorHtml_congr fs1 fs2 _ (by rw [hsd]; exact h2)
      unfold MakeResponse
      simp only
      rw [← e1, ← e2]
      have hsd2 : (ErrorHtml_ fs1 (statCode fs1 r)).srcDir_ = r.srcDir_ := by
        rw [(ErrorHtml_fields fs1 _).2.2.1, hsd]
      obtain ⟨-, f2, f3, -, -⟩ := AddStateLine_fields (ErrorHtml_ fs1 (statCode fs1 r)) buff
      generalize AddStateLine_ (ErrorHtml_ fs1 (statCode fs1 r)) buff = s at f2 f3 ⊢
      obtain ⟨r3, b3⟩ := s
      simp only at f2 f3 ⊢
      exact AddContent_congr fs1 fs2 r3 _ (by rw [f3, f2, hsd2]; exact h3)
        (by intro n; rw [f3, f2, hsd2]; exact h4 n)
    · intro r1 b1 hm
      unfold MakeResponse at hm
      simp only at hm
      have hsd2 : (ErrorHtml_ fs1 (statCode fs1 r)).srcDir_ = r.srcDir_ := by
        rw [(ErrorHtml_fields fs1 _).2.2.1, (statCode_fields fs1 r).2.2.1]
      have hmf : (ErrorHtml_ fs1 (statCode fs1 r)).mmFile_ = r.mmFile_ := by
        rw [(ErrorHtml_fields fs1 _).2.2.2, (statCode_fields fs1 r).2.2.2]
      obtain ⟨-, f2, f3, f4, -⟩ := AddStateLine_fields (ErrorHtml_ fs1 (statCode fs1 r)) buff
      generalize AddStateLine_ (ErrorHtml_ fs1 (statCode fs1 r)) buff = s at f2 f3 f4 hm
      obtain ⟨r3, b3⟩ := s
      simp only at f2 f3 f4 hm
      refine ⟨(AddContent_path fs1 r3 r1 _ b1 hm).trans f2, ?_⟩
      rcases AddContent_file fs1 r3 r1 _ b1 hm with h | h
      · exact Or.inl (by rw [h, f4, hmf])
      · exact Or.inr (by rw [h, f3, f2, hsd2])
  · intro rq hdot
    rw [HttpRequest.ParsePath_path]
    have h1 : ¬ rq.path_ = str "/" := by
      intro e; rw [e] at hdot; revert hdot; decide
    have h2 : ¬ rq.path_ ∈ DEFAULT_HTML := by
      intro hmem
      simp only [DEFAULT_HTML, List.mem_cons, List.mem_singleton, List.not_mem_nil, or_false] at hmem
      rcases hmem with e | e | e | e | e | e <;> (rw [e] at hdot; revert hdot; decide)
    rw [if_neg h1, if_neg h2]

/-- C13 (witness): the target `/../secret.txt` is resolved to itself, and in a file system
where `/www/../secret.txt` is a readable file `process` answers 200 and maps the file of
exactly that name. -/
theorem C13_files_consulted_witness :
    (HttpRequest.ParsePath_ { freshRequest with path_ := str "/../secret.txt" }).path_
        = ({ freshRequest with path_ := str "/../secret.txt" } : HttpRequest).path_
      ∧ (HttpConn.process exampleStatics exampleFsOutside exampleDb
            (exampleConn (str "GET /../secret.txt HTTP/1.1\r\n\r\n"))).map
          (fun x => (x.1, x.2.response_.code_, x.2.response_.path_, x.2.iov1))
        = .ok (true, 200, str "/../secret.txt", ⟨.mapped (str "/www/../secret.txt") 0, 6⟩) :=
  ⟨(C13_files_consulted exampleFs (exampleResponse (str "/index.html") false 200)
      (Buffer.new 1024)).2 { freshRequest with path_ := str "/../secret.txt" } (by decide),
   by decide⟩

end HttpResponse

/-! ## C14: login and registration forms -/

namespace StrMap

theorem find_index_snd_ne (m : StrMap) (k k2 : Str) (hne : k2 ≠ k) :
    find (index m k).2 k2 = find m k2 := by
  unfold index
  cases find m k with
  | some v => rfl
  | none => exact find_set_ne m k k2 [] hne

end StrMap

namespace HttpRequest

theorem DEFAULT_HTML_TAG_find_eq (p : Str) :
    DEFAULT_HTML_TAG_find DEFAULT_HTML_TAG p =
      if p = str "/register.html" then some 0
      else if p = str "/login.html" then some 1
      else none := by
  simp only [DEFAULT_HTML_TAG, DEFAULT_HTML_TAG_find]
  by_cases h1 : str "/register.html" = p
  · rw [if_pos h1, if_pos h1.symm]
  · rw [if_neg h1, if_neg (show ¬ p = str "/register.html" from fun e => h1 e.symm)]
    by_cases h2 : str "/login.html" = p
    · rw [if_pos h2, if_pos h2.symm]
    · rw [if_neg h2, if_neg (show ¬ p = str "/login.html" from fun e => h2 e.symm)]

/-- The function `ParsePost_` on a POST request with the form Content-Type, in terms of the
decoded request `r2`. -/
theorem ParsePost_form (db : MySql) (r r2 : HttpRequest)
    (hm : r.method_ = str "POST")
    (hc : r.header_.find (str "Content-Type") = some (str "application/x-www-form-urlencoded"))
    (hd : ParseFromUrlencoded_ r = .ok r2) :
    ParsePost_ db r =
      (if r.path_ = str "/register.html" ∨ r.path_ = str "/login.html" then
        .ok { r2 with
          post_ := ((r2.post_.index (str "username")).2.index (str "password")).2,
          path_ := if UserVerify db ((r2.post_.find (str "username")).getD [])
                        ((r2.post_.find (str "password")).getD [])
                        (decide (r.path_ = str "/login.html")) = true
                   then str "/welcome.html" else str "/error.html" }
      else .ok r2)
    ∧ ParsePost_calls r =
      (if r.path_ = str "/register.html" ∨ r.path_ = str "/login.html" then
        .ok [((r2.post_.find (str "username")).getD [],
              (r2.post_.find (str "password")).getD [],
              decide (r.path_ = str "/login.html"))]
      else .ok []) := by
  have hidx := StrMap.index_of_find _ _ _ hc
  have hp2 : r2.path_ = r.path_ := (ParseFromUrlencoded_fields _ _ hd).1
  have hu : (r2.post_.index (str "username")).1 = (r2.post_.find (str "username")).getD [] :=
    StrMap.index_fst _ _
  have hpw : ((r2.post_.index (str "username")).2.index (str "password")).1
      = (r2.post_.find (str "password")).getD [] := by
    rw [StrMap.index_fst, StrMap.find_index_snd_ne _ _ _ (by decide)]
  have heta : ({ r with header_ := r.header_ } : HttpRequest) = r := rfl
  unfold ParsePost_ ParsePost_calls
  rw [if_pos hm, if_pos hm]
  simp only [hidx, heta, if_true, hd, DEFAULT_HTML_TAG_find_eq, hp2, hu, hpw]
  by_cases hg : r.path_ = str "/register.html"
  · have hnl : ¬ r.path_ = str "/login.html" := by rw [hg]; decide
    have hdl : decide (r.path_ = str "/login.html") = false := decide_eq_false hnl
    rw [if_pos hg, if_pos (Or.inl hg), if_pos (Or.inl hg), hdl]
    have hz : decide ((0 : Int) = 1) = false := by decide
    simp only [show ((0 : Int) = 0 ∨ (0 : Int) = 1) from Or.inl rfl, if_true, hz]
    refine ⟨?_, by simp⟩
    by_cases hv : UserVerify db ((r2.post_.find (str "username")).getD [])
        ((r2.post_.find (str "password")).getD []) false = true <;> simp [hv]
  · rw [if_neg hg]
    by_cases hl : r.path_ = str "/login.html"
    · have hdl : decide (r.path_ = str "/login.html") = true := decide_eq_true hl
      rw [if_pos hl, if_pos (Or.inr hl), if_pos (Or.inr hl), hdl]
      have hz : decide ((1 : Int) = 1) = true := by decide
      simp only [show ((1 : Int) = 0 ∨ (1 : Int) = 1) from Or.inr rfl, if_true, hz]
      refine ⟨?_, by simp⟩
      by_cases hv : UserVerify db ((r2.post_.find (str "username")).getD [])
          ((r2.post_.find (str "password")).getD []) true = true <;> simp [hv]
    · rw [if_neg hl, if_neg (by rintro (h | h) <;> contradiction),
        if_neg (by rintro (h | h) <;> contradiction)]
      exact ⟨rfl, rfl⟩

/-- C14: for a POST request whose Content-Type is exactly
`application/x-www-form-urlencoded` and whose body is decoded to the request `r2`: if the
path is `/login.html` or `/register.html`, `ParseBody_` calls `UserVerify` once, with
`post["username"]`, `post["password"]` and `isLogin` true exactly for `/login.html`, and the
path becomes `/welcome.html` when it returns true and `/error.html` otherwise; for every
other path the path is left as it was and `UserVerify` is not called. -/
theorem C14_login_and_register_paths (db : MySql) (r r2 : HttpRequest) (line : Str)
    (hm : r.method_ = str "POST")
    (hc : r.header_.find (str "Content-Type") = some (str "application/x-www-form-urlencoded"))
    (hd : ParseFromUrlencoded_ { r with body_ := line } = .ok r2) :
    ((r.path_ = str "/login.html" ∨ r.path_ = str "/register.html") →
        ∃ r1, ParseBody_ db r line = .ok r1
          ∧ r1.path_ =
              (if UserVerify db ((r2.post_.find (str "username")).getD [])
                    ((r2.post_.find (str "password")).getD [])
                    (decide (r.path_ = str "/login.html")) = true
                then str "/welcome.html" else str "/error.html")
          ∧ ParsePost_calls { r with body_ := line }
              = .ok [((r2.post_.find (str "username")).getD [],
                      (r2.post_.find (str "password")).getD [],
                      decide (r.path_ = str "/login.html"))])
      ∧ ((r.path_ ≠ str "/login.html" ∧ r.path_ ≠ str "/register.html") →
          ∃ r1, ParseBody_ db r line = .ok r1 ∧ r1.path_ = r.path_
            ∧ ParsePost_calls { r with body_ := line } = .ok []) := by
  obtain ⟨e1, e2⟩ := ParsePost_form db { r with body_ := line } r2 hm hc hd
  have hp2 : r2.path_ = r.path_ := (ParseFromUrlencoded_fields _ _ hd).1
  constructor
  · intro hpath
    have hcond : r.path_ = str "/register.html" ∨ r.path_ = str "/login.html" := hpath.symm
    unfold ParseBody_
    rw [e1, e2]
    simp only [if_pos hcond]
    exact ⟨_, rfl, rfl, trivial⟩
  · rintro ⟨hnl, hnr⟩
    have hcond : ¬ (r.path_ = str "/register.html" ∨ r.path_ = str "/login.html") := by
      rintro (h | h) <;> contradiction
    unfold ParseBody_
    rw [e1, e2]
    simp only [if_neg hcond]
    exact ⟨_, rfl, hp2, trivial⟩

/-- C14 (witness): the login form `username=u&password=p` posted to `/login.html`, the
example database holding the row (`u`, `p`): `UserVerify` is called with `u`, `p` and
`isLogin = true`, and the path becomes `/welcome.html`. -/
theorem C14_login_and_register_paths_witness :
    (ParseBody_ exampleDb exampleLoginRequest (str "username=u&password=p")).map
        (fun r1 => r1.path_) = .ok (str "/welcome.html")
      ∧ (((exampleLoginRequest.path_ = str "/login.html"
            ∨ exampleLoginRequest.path_ = str "/register.html") →
        ∃ r1, ParseBody_ exampleDb exampleLoginRequest (str "username=u&password=p") = .ok r1
          ∧ r1.path_ =
              (if UserVerify exampleDb ((exampleLoginDecoded.post_.find (str "username")).getD [])
                    ((exampleLoginDecoded.post_.find (str "password")).getD [])
                    (decide (exampleLoginRequest.path_ = str "/login.html")) = true
                then str "/welcome.html" else str "/error.html")
          ∧ ParsePost_calls { exampleLoginRequest with body_ := str "username=u&password=p" }
              = .ok [((exampleLoginDecoded.post_.find (str "username")).getD [],
                      (exampleLoginDecoded.post_.find (str "password")).getD [],
                      decide (exampleLoginRequest.path_ = str "/login.html"))])
      ∧ ((exampleLoginRequest.path_ ≠ str "/login.html"
            ∧ exampleLoginRequest.path_ ≠ str "/register.html") →
          ∃ r1, ParseBody_ exampleDb exampleLoginRequest (str "username=u&password=p") = .ok r1
            ∧ r1.path_ = exampleLoginRequest.path_
            ∧ ParsePost_calls { exampleLoginRequest with body_ := str "username=u&password=p" }
                = .ok [])) :=
  ⟨by decide,
   C14_login_and_register_paths exampleDb exampleLoginRequest exampleLoginDecoded
    (str "username=u&password=p") (by decide) (by decide) (by decide)⟩

end HttpRequest

/-! ## C15 and C16: user verification -/

namespace HttpRequest

theorem verifyRows_nil (pwd : Str) (isLogin flag : Bool) :
    verifyRows pwd isLogin [] flag = flag := rfl

theorem verifyRows_single (pwd : Str) (isLogin flag : Bool) (row : Str × Str) :
    verifyRows pwd isLogin [row] flag = (isLogin && decide (pwd = c_str row.2)) := by
  unfold verifyRows
  cases isLogin
  · simp [verifyRows]
  · by_cases h : pwd = c_str row.2
    · simp [h, verifyRows]
    · simp [h, verifyRows]

/-- On the registration path every row found clears the flag. -/
theorem verifyRows_register (pwd : Str) (rows : List (Str × Str)) (flag : Bool) :
    verifyRows pwd false rows flag = (flag && rows.isEmpty) := by
  induction rows generalizing flag with
  | nil => simp [verifyRows]
  | cons row rest ih =>
    unfold verifyRows
    simp only [Bool.false_eq_true, if_false, List.isEmpty_cons, Bool.and_false]
    rw [ih]
    simp

/-- On the login path the last row fetched decides; without a row the flag is kept. -/
theorem verifyRows_login (pwd : Str) (rows : List (Str × Str)) (flag : Bool) :
    verifyRows pwd true rows flag =
      match rows.getLast? with
      | none => flag
      | some row => decide (pwd = c_str row.2) := by
  induction rows generalizing flag with
  | nil => rfl
  | cons row rest ih =>
    unfold verifyRows
    simp only [if_true]
    cases rest with
    | nil =>
      by_cases h : pwd = c_str row.2
      · simp [h, verifyRows]
      · simp [h, verifyRows]
    | cons q rest =>
      have hl : (row :: q :: rest).getLast? = (q :: rest).getLast? := by
        simp [List.getLast?_cons_cons]
      rw [hl]
      split
      · exact ih true
      · exact ih false

/-- C15 (counterexample): a login with the name `' OR 1=1 -- ` and the password `p`, in a
database with the users `u` (password `q`) and `v` (password `p`). The SELECT succeeds and
returns two rows, not exactly one, and `UserVerify` returns true: the last row fetched
decides. -/
theorem C15_counterexample :
    selectOrder exampleInjectedName
        = str "SELECT username, password FROM user WHERE username='' OR 1=1 -- ' LIMIT 1"
      ∧ exampleDbTwoUsers.select (selectOrder exampleInjectedName)
          = some [(str "u", str "q"), (str "v", str "p")]
      ∧ UserVerify exampleDbTwoUsers exampleInjectedName (str "p") true = true
      ∧ ¬ ∃ row, exampleDbTwoUsers.select (selectOrder exampleInjectedName) = some [row]
            ∧ c_str row.2 = str "p" := by
  have e : exampleDbTwoUsers.select (selectOrder exampleInjectedName)
      = some [(str "u", str "q"), (str "v", str "p")] := by decide
  refine ⟨by decide, e, by decide, ?_⟩
  rintro ⟨row, h, -⟩
  rw [e] at h
  simp at h

/-- C15 (amended): for a login, `UserVerify` returns true exactly when name and password are
non-empty, the SELECT succeeds and returns at least one row, and the password of the last
row returned equals `pwd`; when the SELECT returns at most the one row its `LIMIT 1` allows,
that is exactly when it succeeds with exactly one row whose password equals `pwd`. With an
empty name or password it returns false and passes no statement to `mysql_query`. -/
theorem C15_login_verification (db : MySql) (name pwd : Str) :
    (UserVerify db name pwd true = true ↔
        name ≠ [] ∧ pwd ≠ []
          ∧ ∃ rows row, db.select (selectOrder name) = some rows
              ∧ rows.getLast? = some row ∧ c_str row.2 = pwd)
      ∧ ((∀ rows, db.select (selectOrder name) = some rows → rows.length ≤ 1) →
          (UserVerify db name pwd true = true ↔
            name ≠ [] ∧ pwd ≠ []
              ∧ ∃ row, db.select (selectOrder name) = some [row] ∧ c_str row.2 = pwd))
      ∧ ((name = [] ∨ pwd = []) →
          UserVerify db name pwd true = false ∧ UserVerifyQueries db name pwd true = []) := by
  have main : UserVerify db name pwd true = true ↔
      name ≠ [] ∧ pwd ≠ []
        ∧ ∃ rows row, db.select (selectOrder name) = some rows
            ∧ rows.getLast? = some row ∧ c_str row.2 = pwd := by
    unfold UserVerify
    by_cases he : name = [] ∨ pwd = []
    · rw [if_pos he]
      constructor
      · intro h; exact absurd h (by decide)
      · rintro ⟨h1, h2, -⟩
        rcases he with he | he
        · exact absurd he h1
        · exact absurd he h2
    · rw [if_neg he]
      have hn : name ≠ [] := fun h => he (Or.inl h)
      have hp : pwd ≠ [] := fun h => he (Or.inr h)
      cases hs : db.select (selectOrder name) with
      | none => simp
      | some rows =>
        simp only [not_true_eq_false, if_false, false_and]
        rw [verifyRows_login]
        cases hl : rows.getLast? with
        | none => simp [hn, hp, hl]
        | some row =>
          simp only [decide_eq_true_eq]
          constructor
          · intro h
            exact ⟨hn, hp, rows, row, rfl, hl, h.symm⟩
          · rintro ⟨-, -, rows1, row1, h1, h2, h3⟩
            simp only [Option.some.injEq] at h1
            subst h1
            rw [hl] at h2
            simp only [Option.some.injEq] at h2
            subst h2
            exact h3.symm
  refine ⟨main, ?_, ?_⟩
  · intro hlimit
    rw [main]
    constructor
    · rintro ⟨hn, hp, rows, row, h1, h2, h3⟩
      refine ⟨hn, hp, row, ?_, h3⟩
      have hl := hlimit rows h1
      match rows, hl, h2 with
      | [r1], _, h2 =>
        simp only [List.getLast?_singleton, Option.some.injEq] at h2
        rw [h1, h2]
    · rintro ⟨hn, hp, row, h1, h3⟩
      exact ⟨hn, hp, [row], row, h1, rfl, h3⟩
  · intro he
    constructor
    · unfold UserVerify
      rw [if_pos he]
    · unfold UserVerifyQueries
      rw [if_pos he]

/-- C15 (witness): the example database holds the row (`u`, `p`), the only row its SELECT
for `u` returns; the login of `u` with `p` is accepted. -/
theorem C15_login_verification_witness :
    UserVerify exampleDb (str "u") (str "p") true = true
      ∧ (UserVerify exampleDb (str "u") (str "p") true = true ↔
        str "u" ≠ [] ∧ str "p" ≠ []
          ∧ ∃ row, exampleDb.select (selectOrder (str "u")) = some [row] ∧ c_str row.2 = str "p") :=
  ⟨by decide,
   (C15_login_verification exampleDb (str "u") (str "p")).2.1 (by
    intro rows h
    have e : exampleDb.select (selectOrder (str "u")) = some [(str "u", str "p")] := by decide
    rw [e] at h
    simp only [Option.some.injEq] at h
    rw [← h]
    decide)⟩

/-- On the registration path with a non-empty name and password, `UserVerify` returns true
exactly when the SELECT succeeds and finds no row, whatever the INSERT reports. -/
theorem UserVerify_register (db : MySql) (name pwd : Str) (hn : name ≠ []) (hp : pwd ≠ []) :
    UserVerify db name pwd false = true ↔ db.select (selectOrder name) = some [] := by
  unfold UserVerify
  rw [if_neg (by rintro (h | h) <;> contradiction)]
  cases hs : db.select (selectOrder name) with
  | none => simp
  | some rows =>
    simp only [verifyRows_register]
    cases rows with
    | nil => simp
    | cons row rest => simp

/-- C16 (failing input): a registration of the free name `new` in a database whose INSERT
fails. `UserVerify` issues the SELECT and the INSERT, sets `flag = false` for the failed
INSERT and then `flag = true` unconditionally: it returns true. -/
theorem C16_failed_insert_still_registers :
    exampleDbInsertFails.select (selectOrder (str "new")) = some []
      ∧ exampleDbInsertFails.insertFails (insertOrder (str "new") (str "pw")) = true
      ∧ UserVerifyQueries exampleDbInsertFails (str "new") (str "pw") false
          = [selectOrder (str "new"), insertOrder (str "new") (str "pw")]
      ∧ insertOrder (str "new") (str "pw")
          = str "INSERT INTO user(username, password) VALUES('new','pw')"
      ∧ UserVerify exampleDbInsertFails (str "new") (str "pw") false = true := by
  refine ⟨by decide, by decide, by decide, by decide, by decide⟩

end HttpRequest

/-! ## C17: bodies that are not decoded -/

namespace HttpRequest

/-- C17: when the method is not POST, or the Content-Type header is missing or is not
exactly `application/x-www-form-urlencoded`, `ParseBody_` stores the line as the body,
leaves the POST mapping (empty in a request being parsed) and the path as they were, calls
`UserVerify` not at all, and moves to FINISH. -/
theorem C17_body_left_untouched (db : MySql) (r : HttpRequest) (line : Str)
    (h : r.method_ ≠ str "POST"
      ∨ r.header_.find (str "Content-Type") ≠ some (str "application/x-www-form-urlencoded")) :
    ∃ r1, ParseBody_ db r line = .ok r1
      ∧ r1.body_ = line ∧ r1.post_ = r.post_ ∧ (r.post_ = [] → r1.post_ = [])
      ∧ r1.path_ = r.path_ ∧ r1.state_ = .FINISH
      ∧ ParsePost_calls { r with body_ := line } = .ok [] := by
  unfold ParseBody_ ParsePost_ ParsePost_calls
  by_cases hm : r.method_ = str "POST"
  · have hc : r.header_.find (str "Content-Type")
        ≠ some (str "application/x-www-form-urlencoded") := by
      rcases h with h | h
      · exact absurd hm h
      · exact h
    have hne : (r.header_.index (str "Content-Type")).1
        ≠ str "application/x-www-form-urlencoded" := by
      rw [StrMap.index_fst]
      cases hf : r.header_.find (str "Content-Type") with
      | none => decide
      | some v =>
        intro e
        simp only [Option.getD_some] at e
        exact hc (by rw [hf, e])
    simp only [hm, if_true, if_neg hne]
    exact ⟨_, rfl, rfl, rfl, fun e => e, rfl, rfl, trivial⟩
  · simp only [if_neg hm]
    exact ⟨_, rfl, rfl, rfl, fun e => e, rfl, rfl, trivial⟩

/-- C17 (witness): a GET request in state BODY, and the line `a=1&b=2`. -/
theorem C17_body_left_untouched_witness :
    ∃ r1, ParseBody_ exampleDb { freshRequest with method_ := str "GET", path_ := str "/login.html" }
          (str "a=1&b=2") = .ok r1
      ∧ r1.body_ = str "a=1&b=2"
      ∧ r1.post_ = ({ freshRequest with method_ := str "GET", path_ := str "/login.html" }).post_
      ∧ (({ freshRequest with method_ := str "GET", path_ := str "/login.html" }).post_ = []
          → r1.post_ = [])
      ∧ r1.path_ = ({ freshRequest with method_ := str "GET", path_ := str "/login.html" }).path_
      ∧ r1.state_ = .FINISH
      ∧ ParsePost_calls { ({ freshRequest with method_ := str "GET", path_ := str "/login.html" })
          with body_ := str "a=1&b=2" } = .ok [] :=
  C17_body_left_untouched exampleDb
    { freshRequest with method_ := str "GET", path_ := str "/login.html" } (str "a=1&b=2")
    (Or.inl (by decide))

end HttpRequest

/-! ## C18: the final pair of a form body -/

namespace HttpRequest

theorem substr_append (b t : Str) (j i : Nat) (hi : i ≤ b.length) :
    substr (b ++ t) j (i - j) = substr b j (i - j) := by
  unfold substr
  by_cases hj : j ≤ i
  · rw [List.drop_append_of_le_length (by omega)]
    rw [List.take_append_of_le_length (by simp only [List.length_drop]; omega)]
  · have : i - j = 0 := by omega
    rw [this, List.take_zero, List.take_zero]

/-- One iteration of the decoding loop reads and writes inside the body, so it does the same
on a body that has one more byte at its end. -/
theorem urlStep_ext (s s1 : UrlState) (x : Nat) (hi : s.i < s.body_.length)
    (h : urlStep s = .ok s1) :
    urlStep { s with body_ := s.body_ ++ [x] } = .ok { s1 with body_ := s1.body_ ++ [x] } := by
  unfold urlStep at h ⊢
  simp only at h ⊢
  rw [List.getD_append _ _ _ _ hi]
  split at h
  · rename_i hc
    rw [if_pos hc]
    simp only [Except.ok.injEq] at h
    rw [← h, substr_append _ _ _ _ (by omega)]
  · rename_i hc
    rw [if_neg hc]
    split at h
    · rename_i hc2
      rw [if_pos hc2]
      simp only [Except.ok.injEq] at h
      rw [← h, List.set_append_left _ _ hi]
    · rename_i hc2
      rw [if_neg hc2]
      split at h
      · rename_i hc3
        rw [if_pos hc3]
        split at h
        · rename_i hlt
          simp only [Except.ok.injEq] at h
          rw [if_pos (by simp only [List.length_append, List.length_singleton]; omega)]
          rw [List.getD_append _ _ _ _ (by omega), List.getD_append _ _ _ _ (by omega)]
          rw [← h]
          simp only
          rw [List.set_append_left _ _ hlt,
            List.set_append_left _ _ (by rw [List.length_set]; omega)]
        · simp at h
      · rename_i hc3
        rw [if_neg hc3]
        split at h
        · rename_i hc4
          rw [if_pos hc4]
          simp only [Except.ok.injEq] at h
          rw [← h, substr_append _ _ _ _ (by omega)]
        · rename_i hc4
          rw [if_neg hc4]
          simp only [Except.ok.injEq] at h
          rw [← h]

/-- One iteration of the decoding loop advances `i` and stays inside the body. -/
theorem urlStep_i (s s1 : UrlState) (hi : s.i < s.body_.length) (h : urlStep s = .ok s1) :
    s.i < s1.i ∧ s1.i ≤ s.body_.length := by
  unfold urlStep at h
  simp only at h
  split at h
  · simp only [Except.ok.injEq] at h; rw [← h]; simp only; omega
  · split at h
    · simp only [Except.ok.injEq] at h; rw [← h]; simp only; omega
    · split at h
      · split at h
        · simp only [Except.ok.injEq] at h; rw [← h]; simp only; omega
        · simp at h
      · split at h
        · simp only [Except.ok.injEq] at h; rw [← h]; simp only; omega
        · simp only [Except.ok.injEq] at h; rw [← h]; simp only; omega

theorem urlLoop_done (fuel : Nat) (s : UrlState) (h : ¬ s.i < s.body_.length) :
    urlLoop fuel s = .ok s := by
  cases fuel with
  | zero => unfold urlLoop; rw [if_neg h]
  | succ n => unfold urlLoop; rw [if_neg h]

/-- At the last byte of the body the loop makes one iteration and ends. -/
theorem urlLoop_last (fuel : Nat) (s : UrlState) (h : s.i + 1 = s.body_.length) :
    urlLoop (fuel + 1) s = urlStep s := by
  unfold urlLoop
  rw [if_pos (by omega)]
  cases hs : urlStep s with
  | error e => rfl
  | ok s1 =>
    simp only
    have h1 := urlStep_i s s1 (by omega) hs
    have h2 := urlStep_length s s1 hs
    exact urlLoop_done fuel s1 (by omega)

/-- The loop on a body with one more byte at its end: it first does what it does on the
body, then makes its last iteration on the added byte. -/
theorem urlLoop_ext (x : Nat) (fuel : Nat) :
    ∀ s s1 : UrlState, s.i ≤ s.body_.length → urlLoop fuel s = .ok s1 →
      s1.i = s1.body_.length ∧ s1.body_.length = s.body_.length
        ∧ urlLoop (fuel + 1) { s with body_ := s.body_ ++ [x] }
            = urlStep { s1 with body_ := s1.body_ ++ [x] } := by
  induction fuel with
  | zero =>
    intro s s1 hi h
    unfold urlLoop at h
    split at h
    · simp at h
    · rename_i hlt
      simp only [Except.ok.injEq] at h
      subst h
      refine ⟨by omega, rfl, ?_⟩
      exact urlLoop_last 0 _ (by simp only [List.length_append, List.length_singleton]; omega)
  | succ fuel ih =>
    intro s s1 hi h
    unfold urlLoop at h
    split at h
    · rename_i hlt
      split at h
      · rename_i s2 hs2
        obtain ⟨h1, h2⟩ := urlStep_i s s2 hlt hs2
        have h3 := urlStep_length s s2 hs2
        obtain ⟨q1, q2, q3⟩ := ih s2 s1 (by omega) h
        refine ⟨q1, by omega, ?_⟩
        rw [← q3]
        conv_lhs => unfold urlLoop
        rw [if_pos (by simp only [List.length_append, List.length_singleton]; omega)]
        rw [urlStep_ext s s2 x hlt hs2]
      · simp at h
    · rename_i hlt
      simp only [Except.ok.injEq] at h
      subst h
      refine ⟨by omega, rfl, ?_⟩
      exact urlLoop_last (fuel + 1) _
        (by simp only [List.length_append, List.length_singleton]; omega)

/-- The last iteration on an added `&`: the final pair is stored. -/
theorem urlStep_amp (s : UrlState) (h : s.i = s.body_.length) :
    urlStep { s with body_ := s.body_ ++ str "&" }
      = .ok { s with body_ := s.body_ ++ str "&", j := s.i + 1, i := s.i + 1,
                     post_ := s.post_.set s.key (substr s.body_ s.j (s.i - s.j)) } := by
  unfold urlStep
  simp only
  have hg : (s.body_ ++ str "&").getD s.i 0 = '&'.toNat := by
    rw [h]
    simp [str, List.getD_eq_getElem?_getD]
  rw [hg, if_neg (by decide), if_neg (by decide), if_neg (by decide), if_pos rfl]
  rw [substr_append _ _ _ _ (by omega)]

theorem StrMap_count_set (m : StrMap) (k v : Str) : ¬ ((m.set k v).count k = 0) := by
  unfold StrMap.count
  rw [StrMap.find_set_self]
  simp

end HttpRequest

/-! ## C19: header lines -/

namespace HttpRequest

/-- The sub-matches of the header pattern `^([^:]*): ?(.*)$` of the source. -/
theorem matchHeader_iff (line name value : Str) :
    matchHeader line = some (name, value) ↔
      ':'.toNat ∉ name ∧ (∀ c ∈ value, c ≠ '\n'.toNat ∧ c ≠ '\r'.toNat)
        ∧ ∃ rest, line = name ++ str ":" ++ rest ∧ value = dropOneSpace rest := by
  constructor
  · intro h
    unfold matchHeader at h
    split at h
    · simp at h
    · rename_i y rest hd
      simp only at h
      split at h
      · rename_i hall
        simp only [Option.some.injEq, Prod.mk.injEq] at h
        obtain ⟨hn, hv⟩ := h
        obtain ⟨-, e⟩ := dropWhile_ne_cons _ _ _ _ hd
        refine ⟨by rw [← hn]; exact not_mem_takeWhile_ne _ _, ?_, rest, ?_, ?_⟩
        · intro c hc
          rw [← hv] at hc
          have := List.all_eq_true.1 hall c hc
          simpa using this
        · rw [← hn]
          conv_lhs => rw [e]
          simp [str]
        · rw [← hv]
          rcases rest with _ | ⟨c, cs⟩
          · rfl
          · by_cases hc : c = ' '.toNat
            · simp only [dropOneSpace, if_pos hc]
            · simp only [dropOneSpace, if_neg hc]
      · simp at h
  · rintro ⟨hn, hv, rest, rfl, rfl⟩
    have e : name ++ str ":" ++ rest = name ++ ':'.toNat :: rest := by simp [str]
    rw [e]
    unfold matchHeader
    rw [dropWhile_ne_append _ _ _ hn, takeWhile_ne_append _ _ _ hn]
    simp only
    have hall : (dropOneSpace rest).all (fun c => c != '\n'.toNat && c != '\r'.toNat) = true := by
      rw [List.all_eq_true]
      intro c hc
      have := hv c hc
      simpa using this
    rcases rest with _ | ⟨c, cs⟩
    · simp only [dropOneSpace] at hall ⊢
      rw [if_pos hall]
    · by_cases hc : c = ' '.toNat
      · simp only [dropOneSpace, if_pos hc] at hall ⊢
        rw [if_pos hall]
      · simp only [dropOneSpace, if_neg hc] at hall ⊢
        rw [if_pos hall]

/-- Whether a line matches the header pattern of the source decides what `ParseHeader_` does. -/
theorem ParseHeader_eq (r : HttpRequest) (line : Str) :
    (∀ name rest, ':'.toNat ∉ name → line = name ++ str ":" ++ rest →
        (∀ c ∈ dropOneSpace rest, c ≠ '\n'.toNat ∧ c ≠ '\r'.toNat) →
        ParseHeader_ r line = { r with header_ := r.header_.set name (dropOneSpace rest) })
      ∧ ((¬ ∃ name rest, ':'.toNat ∉ name ∧ line = name ++ str ":" ++ rest
            ∧ ∀ c ∈ dropOneSpace rest, c ≠ '\n'.toNat ∧ c ≠ '\r'.toNat) →
          ParseHeader_ r line = { r with state_ := .BODY }) := by
  constructor
  · intro name rest hn hl hv
    have := (matchHeader_iff line name (dropOneSpace rest)).2 ⟨hn, hv, rest, hl, rfl⟩
    unfold ParseHeader_
    rw [this]
  · intro hno
    unfold ParseHeader_
    cases hm : matchHeader line with
    | none => rfl
    | some nv =>
      obtain ⟨name, value⟩ := nv
      obtain ⟨hn, hv, rest, hl, he⟩ := (matchHeader_iff line name value).1 hm
      exact absurd ⟨name, rest, hn, hl, by rw [← he]; exact hv⟩ hno

theorem not_mem_dropOneSpace (rest : Str) (c : Nat) (h : c ∈ dropOneSpace rest) : c ∈ rest := by
  unfold dropOneSpace at h
  split at h
  · rename_i c1 cs
    split at h
    · exact List.mem_cons_of_mem _ h
    · exact h
  · exact h

/-- C19 (amended): `ParseHeader_` stores an entry exactly when the line matches the pattern
of the source, `^([^:]*): ?(.*)$`: a name without colon (possibly empty), a colon, and a
rest that, one optional leading space removed, contains neither `\n` nor `\r`. It then maps
the name to that value, overwriting an earlier entry of the same name and leaving all other
entries as they were. Every line of the specification's grammar `^([^:]+): ?(.*)$` is
stored. On a line that does not match it stores nothing and moves the state to BODY. -/
theorem C19_header_stored_iff_source_pattern (r : HttpRequest) (line : Str) :
    (∀ name rest, ':'.toNat ∉ name → line = name ++ str ":" ++ rest →
        (∀ c ∈ dropOneSpace rest, c ≠ '\n'.toNat ∧ c ≠ '\r'.toNat) →
        ParseHeader_ r line = { r with header_ := r.header_.set name (dropOneSpace rest) }
          ∧ (r.header_.set name (dropOneSpace rest)).find name = some (dropOneSpace rest)
          ∧ ∀ other, other ≠ name →
              (r.header_.set name (dropOneSpace rest)).find other = r.header_.find other)
      ∧ ((¬ ∃ name rest, ':'.toNat ∉ name ∧ line = name ++ str ":" ++ rest
            ∧ ∀ c ∈ dropOneSpace rest, c ≠ '\n'.toNat ∧ c ≠ '\r'.toNat) →
          ParseHeader_ r line = { r with state_ := .BODY })
      ∧ (SpecHeaderLine line →
          ∃ name value, ParseHeader_ r line = { r with header_ := r.header_.set name value }) := by
  obtain ⟨h1, h2⟩ := ParseHeader_eq r line
  refine ⟨?_, h2, ?_⟩
  · intro name rest hn hl hv
    exact ⟨h1 name rest hn hl hv, StrMap.find_set_self _ _ _,
      fun other hne => StrMap.find_set_ne _ _ _ _ hne⟩
  · rintro ⟨name, value, -, hn, hv, hl | hl⟩
    · exact ⟨name, dropOneSpace value, h1 name value hn hl
        (fun c hc => hv c (not_mem_dropOneSpace value c hc))⟩
    · refine ⟨name, value, ?_⟩
      have := h1 name (' '.toNat :: value) hn (by rw [hl]; simp [str]) (by
        intro c hc
        exact hv c hc)
      exact this

/-- C19 (witness): the line `Host: a:b` is stored as `Host` ↦ `a:b`. -/
theorem C19_header_stored_witness :
    ParseHeader_ freshRequest (str "Host: a:b")
        = { freshRequest with
            header_ := freshRequest.header_.set (str "Host") (dropOneSpace (str " a:b")) }
      ∧ (freshRequest.header_.set (str "Host") (dropOneSpace (str " a:b"))).find (str "Host")
          = some (dropOneSpace (str " a:b"))
      ∧ ∀ other, other ≠ str "Host" →
          (freshRequest.header_.set (str "Host") (dropOneSpace (str " a:b"))).find other
            = freshRequest.header_.find other :=
  (C19_header_stored_iff_source_pattern freshRequest (str "Host: a:b")).1
    (str "Host") (str " a:b") (by decide) (by decide) (by decide)

/-- C19 (counterexample): the line `:x`, whose name is empty, is stored (under the empty
name) although it is not a line of the specification's grammar `^([^:]+): ?(.*)$`. -/
theorem C19_counterexample :
    ParseHeader_ freshRequest (str ":x") = { freshRequest with header_ := [([], str "x")] }
      ∧ ¬ SpecHeaderLine (str ":x") := by
  refine ⟨by decide, ?_⟩
  rintro ⟨name, value, hne, hn, -, hl | hl⟩
  · cases name with
    | nil => exact hne rfl
    | cons a t =>
      have ha : a = ':'.toNat := by
        have := congrArg List.head? hl
        simp [str] at this
        exact this.symm
      exact hn (by rw [ha]; exact List.mem_cons_self _ _)
  · cases name with
    | nil => exact hne rfl
    | cons a t =>
      have ha : a = ':'.toNat := by
        have := congrArg List.head? hl
        simp [str] at this
        exact this.symm
      exact hn (by rw [ha]; exact List.mem_cons_self _ _)

end HttpRequest

/-! ## C20: the empty line after the headers -/

namespace HttpRequest

/-- C20 (amended): when the empty line that ends the header block is parsed, the parser
moves to FINISH if at most two readable bytes are left (nothing follows the CRLF of the
empty line) and to BODY otherwise, whatever the method; no other member of the request
changes. -/
theorem C20_empty_line_transition (db : MySql) (r : HttpRequest) (buff : Buffer)
    (hs : r.state_ = .HEADERS) :
    parseSwitch db r buff []
      = .ok (some { r with state_ := if buff.ReadableBytes ≤ 2 then .FINISH else .BODY }) := by
  unfold parseSwitch
  rw [hs]
  simp only
  have hm : ParseHeader_ r [] = { r with state_ := .BODY } := rfl
  rw [hm]
  split <;> rfl

/-- C20 (witness): a POST request at its empty line, with no byte after the CRLF. -/
theorem C20_empty_line_transition_witness :
    parseSwitch exampleDb { exampleLoginRequest with state_ := .HEADERS } ⟨str "\r\n", 0, 2⟩ []
      = .ok (some { ({ exampleLoginRequest with state_ := .HEADERS }) with
          state_ := if Buffer.ReadableBytes ⟨str "\r\n", 0, 2⟩ ≤ 2 then .FINISH else .BODY }) :=
  C20_empty_line_transition exampleDb { exampleLoginRequest with state_ := .HEADERS }
    ⟨str "\r\n", 0, 2⟩ rfl

/-- C20 (counterexample): the GET request `GET / HTTP/1.1\r\n\r\nxyz` enters BODY at its
empty line and `xyz` is captured as its body; the POST request `POST /x HTTP/1.1\r\n\r\n`,
which no byte follows, moves from its empty line to FINISH and its body is never parsed. -/
theorem C20_counterexample :
    (parse exampleDb freshRequest.Init ⟨str "GET / HTTP/1.1\r\n\r\nxyz", 0, 21⟩).map
        (fun x => (x.1, x.2.1.method_, x.2.1.state_, x.2.1.body_))
        = .ok (true, str "GET", .FINISH, str "xyz")
      ∧ (parseSwitch exampleDb
            { freshRequest with state_ := .HEADERS, method_ := str "GET",
                                path_ := str "/index.html", version_ := str "1.1" }
            ⟨str "GET / HTTP/1.1\r\n\r\nxyz", 16, 21⟩ []).map
          (fun x => x.map (fun r1 => r1.state_)) = .ok (some .BODY)
      ∧ (parseSwitch exampleDb
            { freshRequest with state_ := .HEADERS, method_ := str "POST",
                                path_ := str "/x", version_ := str "1.1" }
            ⟨str "POST /x HTTP/1.1\r\n\r\n", 18, 20⟩ []).map
          (fun x => x.map (fun r1 => r1.state_)) = .ok (some .FINISH)
      ∧ (parse exampleDb freshRequest.Init ⟨str "POST /x HTTP/1.1\r\n\r\n", 0, 20⟩).map
          (fun x => (x.1, x.2.1.method_, x.2.1.state_, x.2.1.body_))
        = .ok (true, str "POST", .FINISH, []) := by
  refine ⟨by decide, by decide, by decide, by decide⟩

end HttpRequest

/-! ## C21 and C22: what `process` returns and the `iovec` entries it sets -/

namespace HttpConn

theorem setIov_fields (c : HttpConn) :
    (setIov c).writeBuff_ = c.writeBuff_ ∧ (setIov c).response_ = c.response_
      ∧ (setIov c).readBuff_ = c.readBuff_ ∧ (setIov c).request_ = c.request_
      ∧ (setIov c).iov0 = ⟨.buffer c.writeBuff_.Peek, c.writeBuff_.ReadableBytes⟩ := by
  unfold setIov
  simp only
  split <;> exact ⟨rfl, rfl, rfl, rfl, rfl⟩

/-- When `process` returns true, it has built a response and set the `iovec` entries. -/
theorem process_true (g : Statics) (fs : FileSystem) (db : MySql) (c c1 : HttpConn)
    (h : process g fs db c = .ok (true, c1)) :
    0 < c.readBuff_.ReadableBytes
      ∧ ∃ (parsed : Bool) (req : HttpRequest) (rb : Buffer) (resp resp1 : HttpResponse)
          (wb : Buffer),
        HttpRequest.parse db c.request_.Init c.readBuff_ = .ok (parsed, req, rb)
        ∧ c.response_.Init g.srcDir req.path_ (parsed && req.IsKeepAlive)
            (if parsed then 200 else 400) = .ok resp
        ∧ resp.MakeResponse fs c.writeBuff_ = .ok (resp1, wb)
        ∧ c1 = setIov { c with request_ := req, readBuff_ := rb, response_ := resp1,
                               writeBuff_ := wb } := by
  unfold process at h
  simp only at h
  split at h
  · simp at h
  · rename_i hb
    refine ⟨by omega, ?_⟩
    split at h
    · simp at h
    · rename_i parsed req rb hp
      split at h
      · simp at h
      · rename_i resp hi
        split at h
        · simp at h
        · rename_i resp1 wb hm
          simp only [Except.ok.injEq, Prod.mk.injEq, true_and] at h
          refine ⟨parsed, req, rb, resp, resp1, wb, hp, ?_, hm, h.symm⟩
          cases parsed
          · simpa using hi
          · simpa using hi

/-- Whenever `process` returns, it returns false exactly for a read buffer without readable
bytes, and then changes nothing but the request, which it has initialised. -/
theorem process_false_iff (g : Statics) (fs : FileSystem) (db : MySql) (c c1 : HttpConn)
    (flag : Bool) (h : process g fs db c = .ok (flag, c1)) :
    (flag = false ↔ c.readBuff_.ReadableBytes = 0)
      ∧ (flag = false → c1 = { c with request_ := c.request_.Init }) := by
  unfold process at h
  simp only at h
  split at h
  · rename_i hb
    simp only [Except.ok.injEq, Prod.mk.injEq] at h
    obtain ⟨h1, h2⟩ := h
    subst h1
    exact ⟨⟨fun _ => by omega, fun _ => rfl⟩, fun _ => h2.symm⟩
  · rename_i hb
    split at h
    · simp at h
    · split at h
      · simp at h
      · split at h
        · simp at h
        · simp only [Except.ok.injEq, Prod.mk.injEq] at h
          obtain ⟨h1, -⟩ := h
          subst h1
          exact ⟨⟨fun e => by simp at e, fun e => absurd e (by omega)⟩, fun e => by simp at e⟩

/-- C21 (failing input): the read buffer holds the request `GET /empty.txt HTTP/1.1` with
its empty line, and `/www/empty.txt` is a readable file of length 0. The read buffer is not
empty, yet `process` returns neither true nor false: `MakeResponse` reads through
`MAP_FAILED` in `AddContent_`, and the call has no defined result. -/
theorem C21_process_does_not_return :
    0 < (exampleConn (str "GET /empty.txt HTTP/1.1\r\n\r\n")).readBuff_.ReadableBytes
      ∧ exampleFsWithEmpty.stat (str "/www/empty.txt") = some ⟨0o100644, 0⟩
      ∧ exampleFsWithEmpty.openReadOnly (str "/www/empty.txt") = true
      ∧ exampleFsWithEmpty.mmap (str "/www/empty.txt") 0 = none
      ∧ process exampleStatics exampleFsWithEmpty exampleDb
          (exampleConn (str "GET /empty.txt HTTP/1.1\r\n\r\n")) = .error .undefinedBehaviour := by
  refine ⟨by decide, by decide, by decide, by decide, by decide⟩

/-- C22: whenever `process` returns true, `iov_[0]` is the readable slice of the write
buffer (base `Peek()`, length `ReadableBytes()`); `iovCnt_` is 2 and `iov_[1]` is the
mapping pointer with the file size exactly when the response has a mapped file (`File()`
not null) of size above 0, and `iovCnt_` is 1 otherwise. -/
theorem C22_iovec_after_process (g : Statics) (fs : FileSystem) (db : MySql) (c c1 : HttpConn)
    (h : process g fs db c = .ok (true, c1)) :
    c1.iov0 = ⟨.buffer c1.writeBuff_.Peek, c1.writeBuff_.ReadableBytes⟩
      ∧ ((c1.response_.File ≠ .null ∧ 0 < c1.response_.FileLen) →
          c1.iovCnt_ = 2 ∧ c1.iov1 = ⟨c1.response_.File, c1.response_.FileLen⟩)
      ∧ (¬ (c1.response_.File ≠ .null ∧ 0 < c1.response_.FileLen) → c1.iovCnt_ = 1)
      ∧ (c1.iovCnt_ = 2 ↔ (c1.response_.File ≠ .null ∧ 0 < c1.response_.FileLen)) := by
  obtain ⟨-, parsed, req, rb, resp, resp1, wb, -, -, -, hc⟩ := process_true g fs db c c1 h
  subst hc
  unfold setIov
  simp only
  split
  · rename_i hcond
    refine ⟨rfl, fun _ => ⟨rfl, rfl⟩, fun hn => absurd ⟨hcond.2, hcond.1⟩ hn, ?_⟩
    exact ⟨fun _ => ⟨hcond.2, hcond.1⟩, fun _ => rfl⟩
  · rename_i hcond
    refine ⟨rfl, fun hp => absurd ⟨hp.2, hp.1⟩ hcond, fun _ => rfl, ?_⟩
    exact ⟨fun e => by simp at e, fun hp => absurd ⟨hp.2, hp.1⟩ hcond⟩

/-- C22 (witness): the response to `GET /` in the example document root: two entries, the
second one the 18 mapped bytes of `/www/index.html`. -/
theorem C22_iovec_after_process_witness :
    ∃ c1, process exampleStatics exampleFs exampleDb (exampleConn (str "GET / HTTP/1.1\r\n\r\n"))
        = .ok (true, c1)
      ∧ c1.iovCnt_ = 2 ∧ c1.iov1 = ⟨.mapped (str "/www/index.html") 0, 18⟩
      ∧ (c1.iov0 = ⟨.buffer c1.writeBuff_.Peek, c1.writeBuff_.ReadableBytes⟩
        ∧ ((c1.response_.File ≠ .null ∧ 0 < c1.response_.FileLen) →
            c1.iovCnt_ = 2 ∧ c1.iov1 = ⟨c1.response_.File, c1.response_.FileLen⟩)
        ∧ (¬ (c1.response_.File ≠ .null ∧ 0 < c1.response_.FileLen) → c1.iovCnt_ = 1)
        ∧ (c1.iovCnt_ = 2 ↔ (c1.response_.File ≠ .null ∧ 0 < c1.response_.FileLen))) := by
  obtain ⟨c1, h, -, h2, h3⟩ := process_get_root exampleStatics exampleFs exampleDb 0o100644 18
    (str "<html>index</html>") (by decide) (by decide) (by decide) (by decide) (by decide)
    (by decide) (by decide) (by decide)
  exact ⟨c1, h, h2, h3, C22_iovec_after_process exampleStatics exampleFs exampleDb _ c1 h⟩

end HttpConn

/-! ## The form decoder on a body without `%` -/

namespace HttpRequest

theorem getD_append_cons (pre rest : Str) (c : Nat) :
    (pre ++ c :: rest).getD pre.length 0 = c := by
  induction pre with
  | nil => rfl
  | cons a t ih => simpa using ih

theorem set_append_cons (pre rest : Str) (c x : Nat) :
    (pre ++ c :: rest).set pre.length x = pre ++ x :: rest := by
  induction pre with
  | nil => rfl
  | cons a t ih => simp only [List.cons_append, List.length_cons, List.set_cons_succ, ih]

theorem substr_pre (pre rest : Str) (j : Nat) (hj : j ≤ pre.length) :
    substr (pre ++ rest) j (pre.length - j) = pre.drop j := by
  unfold substr
  rw [List.drop_append_of_le_length hj]
  apply List.take_left'
  simp

theorem substr_pre_cons (pre rest : Str) (x j : Nat) (hj : j ≤ pre.length) :
    substr (pre ++ x :: rest) j (pre.length + 1 - j) = pre.drop j ++ [x] := by
  have h := substr_pre (pre ++ [x]) rest j (by simp only [List.length_append, List.length_singleton]; omega)
  simp only [List.length_append, List.length_singleton, List.append_assoc, List.singleton_append] at h
  rw [h, List.drop_append_of_le_length hj]

/-- One iteration of the decoder on a character other than `%`. -/
theorem urlStep_plain (s : UrlState) (pre rest : Str) (c : Nat)
    (hi : s.i = pre.length) (hb : s.body_ = pre ++ c :: rest) (hc : c ≠ '%'.toNat)
    (hj : s.j ≤ s.i) :
    ∃ s1, urlStep s = .ok s1 ∧ s1.i = s.i + 1
      ∧ s1.body_ = (pre ++ [if c = '+'.toNat then ' '.toNat else c]) ++ rest
      ∧ s1.j ≤ s1.i ∧ s1.view = scanStep s.view c := by
  obtain ⟨i, j, key, body, post⟩ := s
  simp only at hi hb hj
  subst hi hb
  have hg := getD_append_cons pre rest c
  unfold urlStep
  simp only [hg]
  by_cases h1 : c = '='.toNat
  · rw [if_pos h1]
    refine ⟨_, rfl, rfl, ?_, Nat.le_refl _, ?_⟩
    · simp only [h1]; rw [if_neg (by decide)]; simp
    · simp only [UrlState.view, scanStep, if_pos h1, Nat.sub_self, substr, List.take_zero]
  · rw [if_neg h1]
    by_cases h2 : c = '+'.toNat
    · rw [if_pos h2]
      refine ⟨_, rfl, rfl, ?_, by simp only; omega, ?_⟩
      · simp only [if_pos h2, set_append_cons]; simp
      · simp only [UrlState.view, scanStep, if_neg h1, if_pos h2, set_append_cons]
        rw [substr_pre_cons pre rest _ j hj, substr_pre pre _ j hj]
    · rw [if_neg h2, if_neg hc]
      by_cases h3 : c = '&'.toNat
      · rw [if_pos h3]
        refine ⟨_, rfl, rfl, ?_, Nat.le_refl _, ?_⟩
        · simp only [if_neg h2]; simp
        · simp only [UrlState.view, scanStep, if_neg h1, if_neg h2, if_pos h3, Nat.sub_self,
            substr, List.take_zero]
      · rw [if_neg h3]
        refine ⟨_, rfl, rfl, ?_, by simp only; omega, ?_⟩
        · simp only [if_neg h2]; simp
        · simp only [UrlState.view, scanStep, if_neg h1, if_neg h2, if_neg h3]
          rw [substr_pre_cons pre rest _ j hj, substr_pre pre _ j hj]

theorem plusToSpace_cons (c : Nat) (rest : Str) :
    plusToSpace (c :: rest) = (if c = '+'.toNat then ' '.toNat else c) :: plusToSpace rest := rfl

/-- The loop of the decoder over a rest of the body without `%`: it ends with the body
decoded and with what a left fold of `scanStep` gathers. -/
theorem urlLoop_scan (rest : Str) :
    ∀ (pre : Str) (s : UrlState) (fuel : Nat), s.i = pre.length → s.body_ = pre ++ rest →
      '%'.toNat ∉ rest → s.j ≤ s.i → rest.length ≤ fuel →
      ∃ s1, urlLoop fuel s = .ok s1 ∧ s1.i = s1.body_.length
        ∧ s1.body_ = pre ++ plusToSpace rest ∧ s1.j ≤ s1.i
        ∧ s1.view = rest.foldl scanStep s.view := by
  induction rest with
  | nil =>
    intro pre s fuel hi hb _ hj _
    refine ⟨s, urlLoop_done fuel s (by rw [hb, hi]; simp), by rw [hb, hi]; simp, ?_, hj, rfl⟩
    rw [hb]; rfl
  | cons c rest ih =>
    intro pre s fuel hi hb hp hj hf
    obtain ⟨f, rfl⟩ : ∃ f, fuel = f + 1 := ⟨fuel - 1, by simp only [List.length_cons] at hf; omega⟩
    have hc : c ≠ '%'.toNat := fun e => hp (by rw [e]; exact List.mem_cons_self _ _)
    have hr : '%'.toNat ∉ rest := fun h => hp (List.mem_cons_of_mem _ h)
    obtain ⟨s1, e1, i1, b1, j1, v1⟩ := urlStep_plain s pre rest c hi hb hc hj
    unfold urlLoop
    rw [if_pos (by rw [hb, hi]; simp), e1]
    simp only
    obtain ⟨s2, e2, i2, b2, j2, v2⟩ := ih (pre ++ [if c = '+'.toNat then ' '.toNat else c]) s1 f
      (by rw [i1, hi]; simp) b1 hr j1 (by simp only [List.length_cons] at hf; omega)
    refine ⟨s2, e2, i2, ?_, j2, ?_⟩
    · rw [b2, plusToSpace_cons]; simp
    · rw [v2, v1]; rfl

/-- The decoder on a non-empty body without `%`: the body with each `+` replaced by a
space, and the mapping a left fold of `scanStep` gathers, with the final pair stored under
the guard of the code. -/
theorem ParseFromUrlencoded_plain (r : HttpRequest) (hne : r.body_ ≠ [])
    (hp : '%'.toNat ∉ r.body_) :
    ParseFromUrlencoded_ r = .ok { r with
      body_ := plusToSpace r.body_,
      post_ :=
        if ((r.body_.foldl scanStep ([], [], r.post_)).2.2.count
              (r.body_.foldl scanStep ([], [], r.post_)).1 = 0
            ∧ (r.body_.foldl scanStep ([], [], r.post_)).2.1 ≠ [])
        then (r.body_.foldl scanStep ([], [], r.post_)).2.2.set
              (r.body_.foldl scanStep ([], [], r.post_)).1
              (r.body_.foldl scanStep ([], [], r.post_)).2.1
        else (r.body_.foldl scanStep ([], [], r.post_)).2.2 } := by
  obtain ⟨s1, e1, i1, b1, j1, v1⟩ := urlLoop_scan r.body_ []
    { i := 0, j := 0, key := [], body_ := r.body_, post_ := r.post_ } r.body_.length rfl rfl hp
    (Nat.le_refl _) (Nat.le_refl _)
  have hv : ({ i := 0, j := 0, key := [], body_ := r.body_, post_ := r.post_ } : UrlState).view
      = ([], [], r.post_) := rfl
  rw [hv] at v1
  unfold ParseFromUrlencoded_
  rw [if_neg (by simpa using hne), e1]
  simp only
  rw [if_neg (by omega)]
  have hk : s1.key = (r.body_.foldl scanStep ([], [], r.post_)).1 := by rw [← v1]; rfl
  have hcur : substr s1.body_ s1.j (s1.i - s1.j) = (r.body_.foldl scanStep ([], [], r.post_)).2.1 := by
    rw [← v1]; rfl
  have hpost : s1.post_ = (r.body_.foldl scanStep ([], [], r.post_)).2.2 := by rw [← v1]; rfl
  have hlen : (substr s1.body_ s1.j (s1.i - s1.j)).length = s1.i - s1.j := by
    unfold substr
    simp only [List.length_take, List.length_drop]
    omega
  have hiff : s1.j < s1.i ↔ (r.body_.foldl scanStep ([], [], r.post_)).2.1 ≠ [] := by
    rw [← hcur, ← List.length_pos]
    rw [hlen]; omega
  simp only [List.nil_append] at b1
  rw [← hk, ← hcur, ← hpost, b1] at *
  by_cases hg : s1.post_.count s1.key = 0 ∧ s1.j < s1.i
  · rw [if_pos hg, if_pos ⟨hg.1, hiff.mp hg.2⟩]
  · rw [if_neg hg, if_neg (fun h => hg ⟨h.1, hiff.mpr h.2⟩)]

/-- A text without `=` and `&` is gathered into the current segment, decoded. -/
theorem foldl_scanStep_text (t : Str) :
    ∀ (k cur : Str) (m : StrMap), '='.toNat ∉ t → '&'.toNat ∉ t →
      t.foldl scanStep (k, cur, m) = (k, cur ++ plusToSpace t, m) := by
  induction t with
  | nil => intro k cur m _ _; simp [plusToSpace]
  | cons c t ih =>
    intro k cur m h1 h2
    have c1 : c ≠ '='.toNat := fun e => h1 (by rw [e]; exact List.mem_cons_self _ _)
    have c2 : c ≠ '&'.toNat := fun e => h2 (by rw [e]; exact List.mem_cons_self _ _)
    have t1 : '='.toNat ∉ t := fun h => h1 (List.mem_cons_of_mem _ h)
    have t2 : '&'.toNat ∉ t := fun h => h2 (List.mem_cons_of_mem _ h)
    rw [List.foldl_cons, plusToSpace_cons]
    by_cases hp : c = '+'.toNat
    · have e : scanStep (k, cur, m) c = (k, cur ++ [' '.toNat], m) := by
        simp only [scanStep, if_neg c1, if_pos hp]
      rw [e, ih _ _ _ t1 t2, if_pos hp]
      simp
    · have e : scanStep (k, cur, m) c = (k, cur ++ [c], m) := by
        simp only [scanStep, if_neg c1, if_neg hp, if_neg c2]
      rw [e, ih _ _ _ t1 t2, if_neg hp]
      simp

/-- One pair `key=value` is gathered as the decoded key and the decoded value. -/
theorem foldl_scanStep_pair (p : Str × Str) (k0 : Str) (m : StrMap)
    (hk : PlainText p.1) (hv : PlainText p.2) :
    (p.1 ++ str "=" ++ p.2).foldl scanStep (k0, [], m) = (plusToSpace p.1, plusToSpace p.2, m) := by
  rw [List.foldl_append, List.foldl_append, foldl_scanStep_text p.1 _ _ _ hk.1 hk.2.1]
  have e : (str "=").foldl scanStep (k0, [] ++ plusToSpace p.1, m) = (plusToSpace p.1, [], m) := by
    simp [str, scanStep]
  rw [e, foldl_scanStep_text p.2 _ _ _ hv.1 hv.2.1]
  simp

/-- The pairs of a form body are gathered one after the other: all but the last are stored
at their `&`, and the last is left as key and current segment. -/
theorem foldl_scanStep_formBody (pairs : List (Str × Str)) :
    ∀ (hne : pairs ≠ []) (k0 : Str) (m : StrMap),
      (∀ p ∈ pairs, PlainText p.1 ∧ PlainText p.2) →
      (formBody pairs).foldl scanStep (k0, [], m)
        = (plusToSpace (pairs.getLast hne).1, plusToSpace (pairs.getLast hne).2,
            storePairs pairs.dropLast m) := by
  induction pairs with
  | nil => intro hne; exact absurd rfl hne
  | cons p rest ih =>
    intro hne k0 m hall
    cases rest with
    | nil =>
      simp only [formBody, List.getLast_singleton, List.dropLast_single, storePairs, List.foldl_nil]
      exact foldl_scanStep_pair p k0 m (hall p (List.mem_cons_self _ _)).1
        (hall p (List.mem_cons_self _ _)).2
    | cons q rest =>
      have hp := hall p (List.mem_cons_self _ _)
      have e : formBody (p :: q :: rest)
          = (p.1 ++ str "=" ++ p.2) ++ (str "&" ++ formBody (q :: rest)) := by
        simp only [formBody, List.append_assoc]
      rw [e, List.foldl_append, foldl_scanStep_pair p k0 m hp.1 hp.2, List.foldl_append]
      have ea : (str "&").foldl scanStep (plusToSpace p.1, plusToSpace p.2, m)
          = (plusToSpace p.1, [], m.set (plusToSpace p.1) (plusToSpace p.2)) := by
        simp [str, scanStep]
      rw [ea, ih (List.cons_ne_nil _ _) _ _ (fun x hx => hall x (List.mem_cons_of_mem _ hx))]
      simp only [List.getLast_cons (List.cons_ne_nil q rest), List.dropLast_cons₂, storePairs,
        List.foldl_cons]

/-- A form body of `PlainText` pairs holds no `%`, and is not empty. -/
theorem formBody_plain (pairs : List (Str × Str)) (hne : pairs ≠ [])
    (hall : ∀ p ∈ pairs, PlainText p.1 ∧ PlainText p.2) :
    '%'.toNat ∉ formBody pairs ∧ formBody pairs ≠ [] := by
  induction pairs with
  | nil => exact absurd rfl hne
  | cons p rest ih =>
    have hp := hall p (List.mem_cons_self _ _)
    cases rest with
    | nil =>
      simp only [formBody]
      refine ⟨?_, by simp [str]⟩
      simp only [List.mem_append, not_or]
      exact ⟨⟨hp.1.2.2, by decide⟩, hp.2.2.2⟩
    | cons q rest =>
      obtain ⟨h1, -⟩ := ih (List.cons_ne_nil _ _) (fun x hx => hall x (List.mem_cons_of_mem _ hx))
      simp only [formBody]
      refine ⟨?_, by simp [str]⟩
      simp only [List.mem_append, not_or]
      exact ⟨⟨⟨⟨hp.1.2.2, by decide⟩, hp.2.2.2⟩, by decide⟩, h1⟩

end HttpRequest

namespace StrMap

theorem find_storePairs_other (pairs : List (Str × Str)) :
    ∀ (m : StrMap) (k : Str), (∀ p ∈ pairs, plusToSpace p.1 ≠ k) →
      find (storePairs pairs m) k = find m k := by
  induction pairs with
  | nil => intro m k _; rfl
  | cons p rest ih =>
    intro m k h
    show find (storePairs rest (m.set (plusToSpace p.1) (plusToSpace p.2))) k = find m k
    rw [ih _ _ (fun x hx => h x (List.mem_cons_of_mem _ hx))]
    exact find_set_ne m _ k _ (fun e => h p (List.mem_cons_self _ _) e.symm)

theorem find_storePairs_mem (pairs : List (Str × Str)) :
    ∀ (m : StrMap), (pairs.map (fun p => plusToSpace p.1)).Nodup →
      ∀ p ∈ pairs, find (storePairs pairs m) (plusToSpace p.1) = some (plusToSpace p.2) := by
  induction pairs with
  | nil => intro m _ p hp; exact absurd hp (List.not_mem_nil _)
  | cons q rest ih =>
    intro m hnd p hp
    rw [List.map_cons, List.nodup_cons] at hnd
    show find (storePairs rest (m.set (plusToSpace q.1) (plusToSpace q.2))) (plusToSpace p.1) = _
    rcases List.mem_cons.mp hp with e | hmem
    · subst e
      rw [find_storePairs_other rest _ _ (fun x hx e => hnd.1 (List.mem_map.mpr ⟨x, hx, e⟩))]
      exact find_set_self m _ _
    · exact ih _ hnd.2 p hmem

end StrMap

/-! ## C23: one iteration of `write` -/

namespace HttpConn

end HttpConn

/-! ## C24: `Close` is idempotent and undoes the count of `init` -/

namespace HttpConn

theorem Close_Close (g : Statics) (c : HttpConn) :
    Close (Close g c).1 (Close g c).2 = Close g c := by
  obtain ⟨fd, addr, closed, cnt, v0, v1, rb, wb, req, resp⟩ := c
  obtain ⟨code, ka, path, dir, mm, st⟩ := resp
  cases closed <;> by_cases hm : mm = .null <;> simp [Close, HttpResponse.UnmapFile, hm]

theorem closeTimes_Close (n : Nat) (g : Statics) (c : HttpConn) :
    closeTimes n (Close g c) = Close g c := by
  induction n with
  | zero => rfl
  | succ n ih =>
    show closeTimes n (Close (Close g c).1 (Close g c).2) = Close g c
    rw [Close_Close]
    exact ih

/-- C24: `Close()` followed by `Close()` leaves the state a single `Close()` leaves; on an
open connection `Close()` sets the closed flag and takes exactly one from the user count; on
a closed connection it leaves the count and the flag as they are; and after `init(fd, addr)`
(with `fd > 0`, which `init` asserts) any number `n ≥ 1` of `Close()` calls brings the user
count back to its value before `init`. -/
theorem C24_close_idempotent (g : Statics) (c : HttpConn) (fd : Int) (addr : sockaddr_in)
    (n : Nat) (hfd : 0 < fd) (hn : 1 ≤ n) :
    Close (Close g c).1 (Close g c).2 = Close g c
      ∧ (Close g c).2.isClose_ = true
      ∧ (c.isClose_ = false → (Close g c).1.userCount = g.userCount - 1)
      ∧ (c.isClose_ = true → (Close g c).1 = g)
      ∧ ∃ g1 c1, init g c fd addr = .ok (g1, c1)
          ∧ g1.userCount = g.userCount + 1 ∧ c1.isClose_ = false
          ∧ (closeTimes n (g1, c1)).1.userCount = g.userCount
          ∧ (closeTimes n (g1, c1)).2.isClose_ = true := by
  refine ⟨Close_Close g c, ?_, ?_, ?_, ?_⟩
  · unfold Close
    simp only
    split
    · rfl
    · rename_i h
      simpa using h
  · intro h
    simp [Close, h]
  · intro h
    simp [Close, h]
  · refine ⟨_, _, by unfold init; rw [if_neg (by omega)], rfl, rfl, ?_⟩
    obtain ⟨m, rfl⟩ : ∃ m, n = m + 1 := ⟨n - 1, by omega⟩
    show (closeTimes m (Close _ _)).1.userCount = g.userCount
      ∧ (closeTimes m (Close _ _)).2.isClose_ = true
    rw [closeTimes_Close]
    constructor
    · simp [Close]
    · simp [Close]

/-- C24 (witness): the example connection, initialised again on descriptor 7 and then closed
three times, leaves the user count at 1 as before. -/
theorem C24_close_idempotent_witness :
    ∃ g1 c1, init exampleStatics (exampleConn []) 7 ⟨2, 8080, 0⟩ = .ok (g1, c1)
      ∧ g1.userCount = 2
      ∧ (closeTimes 3 (g1, c1)).1.userCount = 1 := by
  obtain ⟨-, -, -, -, g1, c1, h1, h2, -, h3, -⟩ :=
    C24_close_idempotent exampleStatics (exampleConn []) 7 ⟨2, 8080, 0⟩ 3 (by decide) (by decide)
  exact ⟨g1, c1, h1, h2, h3⟩

end HttpConn

/-! ## C25: the mapping decoded from a form body of `key=value` pairs -/

namespace HttpRequest

end HttpRequest

/-! ## C26: keep-alive -/

namespace HttpConn

/-- C26: `IsKeepAlive()` is true exactly when the header mapping holds the key `Connection`
with the value `keep-alive` and the version is `1.1`; so a request without a `Connection`
header is not keep-alive whatever its version; and when `parse` has failed, every response
`process` builds carries `Connection: close` after its status line and is not marked
keep-alive. -/
theorem C26_keep_alive (r : HttpRequest) (g : Statics) (fs : FileSystem) (db : MySql)
    (c c1 : HttpConn) (req : HttpRequest) (rb : Buffer) :
    (r.IsKeepAlive = true ↔
        r.header_.find (str "Connection") = some (str "keep-alive") ∧ r.version_ = str "1.1")
      ∧ (r.header_.find (str "Connection") = none → r.IsKeepAlive = false)
      ∧ (c.writeBuff_.WF →
          HttpRequest.parse db c.request_.Init c.readBuff_ = .ok (false, req, rb) →
          process g fs db c = .ok (true, c1) →
          c1.response_.isKeepAlive_ = false
            ∧ ∃ line rest, c1.writeBuff_.readable
                = c.writeBuff_.readable ++ line ++ str "Connection: close\r\n" ++ rest
              ∧ line.take 9 = str "HTTP/1.1 ") := by
  refine ⟨?_, ?_, ?_⟩
  · unfold HttpRequest.IsKeepAlive StrMap.count
    constructor
    · intro h
      split at h
      · simpa using h
      · simp at h
    · intro h
      rw [h.1]
      simp [h.2]
  · intro h
    unfold HttpRequest.IsKeepAlive StrMap.count
    rw [h]
    simp
  · intro hw hparse hp
    obtain ⟨-, parsed, req1, rb1, resp, resp1, wb, hp1, hi, hm, hc⟩ := process_true g fs db c c1 hp
    rw [hparse] at hp1
    simp only [Except.ok.injEq, Prod.mk.injEq] at hp1
    obtain ⟨e1, e2, e3⟩ := hp1
    subst e1 e2 e3
    simp only [Bool.false_and, Bool.false_eq_true, if_false] at hi
    obtain ⟨-, hka, -, -, -, -⟩ := HttpResponse.Init_ok _ _ _ _ _ _ hi
    obtain ⟨f1, f2, f3, f4, f5⟩ := setIov_fields
      { c with request_ := req, readBuff_ := rb, response_ := resp1, writeBuff_ := wb }
    simp only at f1 f2
    subst hc
    rw [f1, f2]
    obtain ⟨-, -, -, line, rest, e, hline⟩ := HttpResponse.MakeResponse_ok fs resp resp1 _ wb hw hm
    rw [hka] at e
    simp only [Bool.false_eq_true, if_false] at e
    refine ⟨?_, line, (str "Content-type: " ++ resp1.GetFileType_ ++ str "\r\n") ++ rest, ?_, ?_⟩
    · rw [HttpResponse.MakeResponse_keepAlive fs resp resp1 _ wb hw hm]
      exact hka
    · rw [e]
      simp only [List.append_assoc]
    · rcases hline with ⟨-, h⟩ | ⟨-, h⟩ | ⟨-, h⟩ | ⟨-, h⟩ <;> subst h <;> decide

/-- C26 (witness): the rejected request `BAD` is answered with `Connection: close`. -/
theorem C26_keep_alive_witness :
    (exampleAnswered (str "BAD\r\n")).response_.isKeepAlive_ = false
      ∧ ∃ line rest, (exampleAnswered (str "BAD\r\n")).writeBuff_.readable
          = (exampleConn (str "BAD\r\n")).writeBuff_.readable ++ line
              ++ str "Connection: close\r\n" ++ rest
        ∧ line.take 9 = str "HTTP/1.1 " :=
  (C26_keep_alive freshRequest exampleStatics exampleFs exampleDb (exampleConn (str "BAD\r\n"))
    (exampleAnswered (str "BAD\r\n")) (exampleConn (str "BAD\r\n")).request_.Init
    (exampleConn (str "BAD\r\n")).readBuff_).2.2 (by decide) (by decide) (by decide)

end HttpConn

/-! ## Termination of the loops of `parse` and of the form decoder -/

theorem search_found (hay pat : Str) (h : search hay pat ≠ hay.length) :
    search hay pat + pat.length ≤ hay.length := by
  induction hay with
  | nil => exact absurd rfl h
  | cons c cs ih =>
    unfold search at h ⊢
    split
    · rename_i hp
      have := (List.isPrefixOf_iff_prefix.mp hp).length_le
      omega
    · rename_i hp
      rw [if_neg hp] at h
      simp only [List.length_cons] at h ⊢
      have := ih (fun e => h (by omega))
      omega

namespace HttpRequest

theorem urlStep_fault (s : UrlState) (e : Fault) (h : urlStep s = .error e) :
    e = .undefinedBehaviour := by
  unfold urlStep at h
  simp only at h
  split at h
  · simp at h
  · split at h
    · simp at h
    · split at h
      · split at h
        · simp at h
        · simp only [Except.error.injEq] at h; exact h.symm
      · split at h
        · simp at h
        · simp at h

theorem urlLoop_fuel (fuel : Nat) :
    ∀ s : UrlState, s.body_.length - s.i ≤ fuel → urlLoop fuel s ≠ .error .outOfFuel := by
  induction fuel with
  | zero =>
    intro s h
    rw [urlLoop_done 0 s (by omega)]
    simp
  | succ n ih =>
    intro s h
    unfold urlLoop
    by_cases hi : s.i < s.body_.length
    · rw [if_pos hi]
      cases hs : urlStep s with
      | error e =>
        simp only
        rw [urlStep_fault s e hs]
        simp
      | ok s1 =>
        simp only
        have h1 := urlStep_i s s1 hi hs
        have h2 := urlStep_length s s1 hs
        exact ih s1 (by omega)
    · rw [if_neg hi]
      simp

theorem ParseFromUrlencoded_fuel (r : HttpRequest) :
    ParseFromUrlencoded_ r ≠ .error .outOfFuel := by
  unfold ParseFromUrlencoded_
  split
  · simp
  · have h := urlLoop_fuel r.body_.length
      { i := 0, j := 0, key := [], body_ := r.body_, post_ := r.post_ } (by simp)
    split
    · rename_i e he
      intro h2
      simp only [Except.error.injEq] at h2
      rw [h2] at he
      exact h he
    · split
      · simp
      · split <;> simp

theorem ParsePost_fuel (db : MySql) (r : HttpRequest) : ParsePost_ db r ≠ .error .outOfFuel := by
  unfold ParsePost_
  split
  · simp only
    split
    · split
      · rename_i e he
        intro h2
        simp only [Except.error.injEq] at h2
        rw [h2] at he
        exact ParseFromUrlencoded_fuel _ he
      · split
        · split
          · split <;> simp
          · simp
        · simp
    · simp
  · simp

theorem ParseBody_fuel (db : MySql) (r : HttpRequest) (line : Str) :
    ParseBody_ db r line ≠ .error .outOfFuel := by
  unfold ParseBody_
  split
  · rename_i e he
    intro h2
    simp only [Except.error.injEq] at h2
    rw [h2] at he
    exact ParsePost_fuel db _ he
  · simp

theorem parseSwitch_fuel (db : MySql) (r : HttpRequest) (buff : Buffer) (line : Str) :
    parseSwitch db r buff line ≠ .error .outOfFuel := by
  unfold parseSwitch
  split
  · split <;> simp
  · simp only; split <;> simp
  · split
    · rename_i e he
      intro h2
      simp only [Except.error.injEq] at h2
      rw [h2] at he
      exact ParseBody_fuel db _ _ he
    · simp
  · simp

/-- What `RetrieveUntil(lineEnd + 2)` leaves readable. -/
theorem ReadableBytes_RetrieveUntil_line (buff : Buffer) (n : Nat) :
    (buff.RetrieveUntil (buff.Peek + n + 2)).ReadableBytes = buff.ReadableBytes - (n + 2) := by
  unfold Buffer.RetrieveUntil
  rw [Buffer.ReadableBytes_Retrieve]
  congr 1
  omega

theorem parseLoop_fuel (db : MySql) (fuel : Nat) :
    ∀ (r : HttpRequest) (buff : Buffer), buff.ReadableBytes ≤ fuel →
      parseLoop db fuel r buff ≠ .error .outOfFuel := by
  induction fuel with
  | zero =>
    intro r buff h
    unfold parseLoop
    rw [if_neg (fun hc => hc.1 (by omega))]
    simp
  | succ n ih =>
    intro r buff h
    unfold parseLoop
    split
    · rename_i hc
      simp only [Nat.add_sub_cancel_left]
      split
      · rename_i e he
        intro h2
        simp only [Except.error.injEq] at h2
        rw [h2] at he
        exact parseSwitch_fuel db _ _ _ he
      · simp
      · split
        · simp
        · apply ih
          rw [ReadableBytes_RetrieveUntil_line]
          omega
    · simp

theorem parseLoop_fuel_indep (db : MySql) (fuel1 : Nat) :
    ∀ (fuel2 : Nat) (r : HttpRequest) (buff : Buffer), buff.ReadableBytes ≤ fuel1 →
      buff.ReadableBytes ≤ fuel2 → parseLoop db fuel1 r buff = parseLoop db fuel2 r buff := by
  have stop : ∀ (f : Nat) (r : HttpRequest) (buff : Buffer), buff.ReadableBytes = 0 →
      parseLoop db f r buff = .ok (true, r, buff) := by
    intro f r buff h
    cases f with
    | zero => unfold parseLoop; rw [if_neg (fun hc => hc.1 h)]
    | succ m => unfold parseLoop; rw [if_neg (fun hc => hc.1 h)]
  induction fuel1 with
  | zero =>
    intro fuel2 r buff h1 _
    rw [stop 0 r buff (by omega), stop fuel2 r buff (by omega)]
  | succ n ih =>
    intro fuel2 r buff h1 h2
    cases fuel2 with
    | zero => rw [stop _ r buff (by omega), stop 0 r buff (by omega)]
    | succ m =>
      unfold parseLoop
      split
      · rename_i hc
        simp only [Nat.add_sub_cancel_left]
        split
        · rfl
        · rfl
        · split
          · rfl
          · apply ih
            · rw [ReadableBytes_RetrieveUntil_line]; omega
            · rw [ReadableBytes_RetrieveUntil_line]; omega
      · rfl

theorem ParseFromUrlencoded_returns (r : HttpRequest) (hp : '%'.toNat ∉ r.body_) :
    ∃ r1, ParseFromUrlencoded_ r = .ok r1 := by
  by_cases hne : r.body_ = []
  · unfold ParseFromUrlencoded_
    rw [if_pos (by rw [hne]; rfl)]
    exact ⟨r, rfl⟩
  · exact ⟨_, ParseFromUrlencoded_plain r hne hp⟩

theorem ParsePost_returns (db : MySql) (r : HttpRequest) (hp : '%'.toNat ∉ r.body_) :
    ∃ r1, ParsePost_ db r = .ok r1 := by
  unfold ParsePost_
  split
  · simp only
    split
    · obtain ⟨r2, h2⟩ := ParseFromUrlencoded_returns
        { r with header_ := (r.header_.index (str "Content-Type")).2 } hp
      rw [h2]
      simp only
      split
      · split
        · split <;> exact ⟨_, rfl⟩
        · exact ⟨_, rfl⟩
      · exact ⟨_, rfl⟩
    · exact ⟨_, rfl⟩
  · exact ⟨_, rfl⟩

theorem ParseBody_returns (db : MySql) (r : HttpRequest) (line : Str) (hp : '%'.toNat ∉ line) :
    ∃ r1, ParseBody_ db r line = .ok r1 := by
  unfold ParseBody_
  obtain ⟨r1, h1⟩ := ParsePost_returns db { r with body_ := line } hp
  rw [h1]
  exact ⟨_, rfl⟩

theorem parseSwitch_returns (db : MySql) (r : HttpRequest) (buff : Buffer) (line : Str)
    (hp : '%'.toNat ∉ line) : ∃ o, parseSwitch db r buff line = .ok o := by
  unfold parseSwitch
  split
  · split <;> exact ⟨_, rfl⟩
  · simp only; split <;> exact ⟨_, rfl⟩
  · obtain ⟨r1, h1⟩ := ParseBody_returns db r line hp
    rw [h1]
    exact ⟨_, rfl⟩
  · exact ⟨_, rfl⟩

theorem readable_RetrieveUntil_line (buff : Buffer) (n : Nat) (hw : buff.WF) :
    (buff.RetrieveUntil (buff.Peek + n + 2)).WF
      ∧ (buff.RetrieveUntil (buff.Peek + n + 2)).readable = buff.readable.drop (n + 2) := by
  unfold Buffer.RetrieveUntil
  have e : buff.Peek + n + 2 - buff.Peek = n + 2 := by omega
  rw [e]
  exact ⟨Buffer.WF_Retrieve _ _ hw, Buffer.readable_Retrieve _ _ hw⟩

theorem parseLoop_returns (db : MySql) (fuel : Nat) :
    ∀ (r : HttpRequest) (buff : Buffer), buff.WF → '%'.toNat ∉ buff.readable →
      buff.ReadableBytes ≤ fuel → ∃ res, parseLoop db fuel r buff = .ok res := by
  induction fuel with
  | zero =>
    intro r buff _ _ h
    unfold parseLoop
    rw [if_neg (fun hc => hc.1 (by omega))]
    exact ⟨_, rfl⟩
  | succ n ih =>
    intro r buff hw hp h
    unfold parseLoop
    split
    · rename_i hc
      simp only [Nat.add_sub_cancel_left]
      obtain ⟨o, ho⟩ := parseSwitch_returns db r buff
        (buff.readable.take (search buff.readable (str "\r\n")))
        (fun hm => hp (List.mem_of_mem_take hm))
      rw [ho]
      cases o with
      | none => exact ⟨_, rfl⟩
      | some r1 =>
        simp only
        split
        · exact ⟨_, rfl⟩
        · obtain ⟨w, e⟩ := readable_RetrieveUntil_line buff (search buff.readable (str "\r\n")) hw
          apply ih _ _ w
          · rw [e]
            exact fun hm => hp (List.mem_of_mem_drop hm)
          · rw [ReadableBytes_RetrieveUntil_line]
            omega
    · exact ⟨_, rfl⟩

end HttpRequest

/-! ## C27: the loop of `parse` terminates -/

namespace HttpRequest

/-- C27: for every read buffer within its bounds and every starting parse state, the loop of
`parse` terminates: `parse` never needs more iterations than there are readable bytes (more
fuel changes nothing, and it returns whenever the decoder of a form body does, as for every
content without `%`); an iteration that does not leave the loop goes on with the buffer
`RetrieveUntil(lineEnd + 2)` leaves, which has at least 2 readable bytes less (the line and
its CRLF are removed), and `lineEnd + 2` is at most the write index. -/
theorem C27_parse_loop_terminates (db : MySql) (r : HttpRequest) (buff : Buffer)
    (hw : buff.WF) :
    parse db r buff ≠ .error .outOfFuel
      ∧ ('%'.toNat ∉ buff.readable → ∃ res, parse db r buff = .ok res)
      ∧ (∀ fuel, buff.ReadableBytes ≤ fuel →
          parseLoop db fuel r buff = parseLoop db buff.ReadableBytes r buff)
      ∧ (∀ (fuel : Nat) (r1 : HttpRequest), buff.ReadableBytes ≠ 0 → r.state_ ≠ .FINISH →
          parseSwitch db r buff (buff.readable.take (search buff.readable (str "\r\n")))
            = .ok (some r1) →
          buff.Peek + search buff.readable (str "\r\n") ≠ buff.BeginWrite →
          parseLoop db (fuel + 1) r buff
              = parseLoop db fuel r1
                  (buff.RetrieveUntil (buff.Peek + search buff.readable (str "\r\n") + 2))
            ∧ buff.Peek + search buff.readable (str "\r\n") + 2 ≤ buff.BeginWrite
            ∧ (buff.RetrieveUntil (buff.Peek + search buff.readable (str "\r\n") + 2)).ReadableBytes
                + 2 ≤ buff.ReadableBytes
            ∧ (buff.RetrieveUntil (buff.Peek + search buff.readable (str "\r\n") + 2)).readable
                = buff.readable.drop (search buff.readable (str "\r\n") + 2)
            ∧ (buff.RetrieveUntil (buff.Peek + search buff.readable (str "\r\n") + 2)).WF) := by
  refine ⟨?_, ?_, ?_, ?_⟩
  · unfold parse
    split
    · simp
    · exact parseLoop_fuel db _ r buff (Nat.le_refl _)
  · intro hp
    unfold parse
    split
    · exact ⟨_, rfl⟩
    · exact parseLoop_returns db _ r buff hw hp (Nat.le_refl _)
  · intro fuel h
    exact parseLoop_fuel_indep db fuel _ r buff h (Nat.le_refl _)
  · intro fuel r1 hb hs hsw hle
    have hl := Buffer.readable_length buff hw
    have hfound : search buff.readable (str "\r\n") + 2 ≤ buff.readable.length := by
      apply search_found buff.readable (str "\r\n")
      intro e
      apply hle
      unfold Buffer.Peek Buffer.BeginWrite
      unfold Buffer.ReadableBytes at hl
      obtain ⟨h1, h2⟩ := hw
      omega
    obtain ⟨w, e⟩ := readable_RetrieveUntil_line buff (search buff.readable (str "\r\n")) hw
    refine ⟨?_, ?_, ?_, e, w⟩
    · conv_lhs => unfold parseLoop
      rw [if_pos ⟨hb, hs⟩]
      simp only [Nat.add_sub_cancel_left, hsw]
      rw [if_neg hle]
    · unfold Buffer.Peek Buffer.BeginWrite
      unfold Buffer.ReadableBytes at hl
      obtain ⟨h1, h2⟩ := hw
      omega
    · rw [ReadableBytes_RetrieveUntil_line]
      rw [hl] at hfound
      omega

/-- C27 (witness): `parse` returns on the request `GET / HTTP/1.1` with its empty line. -/
theorem C27_parse_loop_terminates_witness :
    (exampleConn (str "GET / HTTP/1.1\r\n\r\n")).readBuff_.WF
      ∧ ∃ res, parse exampleDb freshRequest (exampleConn (str "GET / HTTP/1.1\r\n\r\n")).readBuff_
          = .ok res :=
  ⟨by decide,
   (C27_parse_loop_terminates exampleDb freshRequest
      (exampleConn (str "GET / HTTP/1.1\r\n\r\n")).readBuff_ (by decide)).2.1 (by decide)⟩

end HttpRequest

/-! ## C28: the positions of the body the form decoder touches -/

namespace HttpRequest

/-- An iteration of the decoder's loop has a defined result exactly when every position it
passes to `operator[]` is below the length of the body. -/
theorem urlStep_ok_iff (s : UrlState) (hi : s.i < s.body_.length) :
    (∃ s1, urlStep s = .ok s1) ↔ ∀ p ∈ urlStepAccess s, p < s.body_.length := by
  unfold urlStep urlStepAccess
  simp only
  by_cases h1 : s.body_.getD s.i 0 = '='.toNat
  · rw [if_pos h1, if_neg (by rw [h1]; decide)]
    simp [hi]
  · rw [if_neg h1]
    by_cases h2 : s.body_.getD s.i 0 = '+'.toNat
    · rw [if_pos h2, if_neg (by rw [h2]; decide)]
      simp [hi]
    · rw [if_neg h2]
      by_cases h3 : s.body_.getD s.i 0 = '%'.toNat
      · rw [if_pos h3, if_pos h3]
        by_cases h4 : s.i + 2 < s.body_.length
        · rw [if_pos h4]
          simp only [List.mem_cons, List.mem_singleton, List.not_mem_nil, or_false]
          constructor
          · rintro - p (rfl | rfl | rfl) <;> omega
          · exact fun _ => ⟨_, rfl⟩
        · rw [if_neg h4]
          simp only [List.mem_cons, List.mem_singleton, List.not_mem_nil, or_false]
          constructor
          · rintro ⟨s1, h⟩
            simp at h
          · intro h
            exact absurd (h (s.i + 2) (Or.inr (Or.inr rfl))) h4
      · rw [if_neg h3, if_neg h3]
        by_cases h5 : s.body_.getD s.i 0 = '&'.toNat
        · rw [if_pos h5]
          simp [hi]
        · rw [if_neg h5]
          simp [hi]

/-- C28 (failing input): the form body `a=%`, whose last character is `%`. The third
iteration of the loop runs with `i = 2` on a body of length 3 and passes the positions 3 and
4 to `operator[]`; the same happens one position earlier for `a=%4`, where position 4 of a
body of length 4 is read and written. Neither call has a defined result, and neither has
`process` on a POST of such a body to `/login`. -/
theorem C28_percent_at_end_leaves_body :
    (urlStep ⟨0, 0, [], str "a=%", []⟩ >>= urlStep) = .ok ⟨2, 2, str "a", str "a=%", []⟩
      ∧ urlStepAccess ⟨2, 2, str "a", str "a=%", []⟩ = [2, 3, 4]
      ∧ (str "a=%").length = 3
      ∧ urlStep ⟨2, 2, str "a", str "a=%", []⟩ = .error .undefinedBehaviour
      ∧ ParseFromUrlencoded_ { freshRequest with body_ := str "a=%" } = .error .undefinedBehaviour
      ∧ urlStepAccess ⟨2, 2, str "a", str "a=%4", []⟩ = [2, 3, 4]
      ∧ (str "a=%4").length = 4
      ∧ ParseFromUrlencoded_ { freshRequest with body_ := str "a=%4" } = .error .undefinedBehaviour
      ∧ HttpConn.process exampleStatics exampleFs exampleDb (exampleConn (examplePost (str "a=%")))
          = .error .undefinedBehaviour := by
  refine ⟨by decide, by decide, by decide, by decide, by decide, by decide, by decide, by decide,
    by decide⟩

end HttpRequest

/-! ## C29: what `parse` leaves in the read buffer -/

namespace HttpRequest

/-- In state BODY, a line that is not followed by CRLF is parsed and left in the buffer:
`parse` leaves the loop by `break`, before `RetrieveUntil`. -/
theorem parse_body_line_stays (db : MySql) (r r1 : HttpRequest) (buff : Buffer)
    (hw : buff.WF) (hs : r.state_ = .BODY) (hb : 0 < buff.ReadableBytes)
    (hno : search buff.readable (str "\r\n") = buff.readable.length)
    (hp : ParseBody_ db r buff.readable = .ok r1) :
    parse db r buff = .ok (true, r1, buff) := by
  have hl := Buffer.readable_length buff hw
  unfold parse
  rw [if_neg (by omega)]
  obtain ⟨n, hn⟩ : ∃ n, buff.ReadableBytes = n + 1 := ⟨buff.ReadableBytes - 1, by omega⟩
  rw [hn]
  unfold parseLoop
  rw [if_pos ⟨by omega, by rw [hs]; decide⟩]
  simp only [Nat.add_sub_cancel_left, parseSwitch, hs, hno, List.take_length, hp]
  rw [if_pos]
  unfold Buffer.Peek Buffer.BeginWrite
  unfold Buffer.ReadableBytes at hl
  obtain ⟨h1, h2⟩ := hw
  omega

/-- C29 (failing input): the read buffer holds exactly one complete request, a POST to
`/login` with the form Content-Type, the empty line and the body `username=u&password=p`
with no CRLF after it. `parse` returns true with the form decoded, and the 21 bytes of the
body are still readable in the read buffer; the bytes `GET / HTTP/1.1` of the next request,
received after them, are then parsed as a request line whose method is
`username=u&password=pGET`. -/
theorem C29_post_body_stays_in_read_buffer :
    (parse exampleDb (exampleConn (examplePost (str "username=u&password=p"))).request_.Init
        (exampleConn (examplePost (str "username=u&password=p"))).readBuff_).map
        (fun x => (x.1, x.2.1.state_, x.2.1.post_))
      = .ok (true, .FINISH, [(str "username", str "u"), (str "password", str "p")])
      ∧ (parse exampleDb (exampleConn (examplePost (str "username=u&password=p"))).request_.Init
        (exampleConn (examplePost (str "username=u&password=p"))).readBuff_).map
        (fun x => (x.2.2.ReadableBytes, x.2.2.readable))
      = .ok (21, str "username=u&password=p")
      ∧ (exampleAnswered (examplePost (str "username=u&password=p"))).readBuff_.readable
          = str "username=u&password=p"
      ∧ (parse exampleDb (exampleAnswered (examplePost (str "username=u&password=p"))).request_.Init
          ((exampleAnswered (examplePost (str "username=u&password=p"))).readBuff_.Append
            (str "GET / HTTP/1.1\r\n\r\n"))).map (fun x => (x.1, x.2.1.method_, x.2.1.path_))
        = .ok (true, str "username=u&password=pGET", str "/index.html") := by
  refine ⟨by decide, by decide, by decide, by decide⟩

end HttpRequest

/-! ## C30: `iov_[0].iov_len` is the number of readable bytes of the write buffer -/

namespace HttpConn

/-- C30: the equality `iov_[0].iov_len == writeBuff_.ReadableBytes()` holds after every
`process()` that returns true, and an iteration of `write()` in which `writev` reports
`0 < len ≤ ToWriteBytes()` bytes, or more generally at most the `size_t` sum of the two
lengths, leaves it true when it was true before. -/
theorem C30_iov0_len_invariant (g : Statics) (fs : FileSystem) (db : MySql) (c0 c1 : HttpConn)
    (c : HttpConn) (len : Int) :
    (process g fs db c0 = .ok (true, c1) → c1.iov0.iov_len = c1.writeBuff_.ReadableBytes)
      ∧ (0 < len →
          (len.toNat ≤ c.iov0.iov_len + c.iov1.iov_len ∨ len ≤ c.ToWriteBytes) →
          c.iov0.iov_len = c.writeBuff_.ReadableBytes →
          (writeBody c len).1.iov0.iov_len = (writeBody c len).1.writeBuff_.ReadableBytes) := by
  constructor
  · intro h
    obtain ⟨-, parsed, req, rb, resp, resp1, wb, -, -, -, hc⟩ := process_true g fs db c0 c1 h
    subst hc
    obtain ⟨f1, -, -, -, f5⟩ := setIov_fields
      { c0 with request_ := req, readBuff_ := rb, response_ := resp1, writeBuff_ := wb }
    rw [f5, f1]
  · intro h0 hle0 hinv
    have hle : len.toNat ≤ c.iov0.iov_len + c.iov1.iov_len := by
      rcases hle0 with h | h
      · exact h
      · exact toInt_le _ len h0 h
    unfold writeBody
    rw [if_neg (by omega), if_neg (by omega)]
    by_cases hgt : len.toNat > c.iov0.iov_len
    · rw [if_pos hgt]
      simp only
      by_cases hz : c.iov0.iov_len = 0
      · rw [if_neg (by simpa using hz)]
        exact hinv
      · rw [if_pos hz]
        rfl
    · rw [if_neg hgt]
      simp only [Buffer.ReadableBytes_Retrieve]
      omega

/-- C30 (witness): the answer to `GET /` starts with the equality true, and it stays true
when `writev` reports 3 of the 4 + 18 bytes of the example connection that is sending. -/
theorem C30_iov0_len_invariant_witness :
    (exampleAnswered (str "GET / HTTP/1.1\r\n\r\n")).iov0.iov_len
        = (exampleAnswered (str "GET / HTTP/1.1\r\n\r\n")).writeBuff_.ReadableBytes
      ∧ (writeBody exampleWriting 3).1.iov0.iov_len
        = (writeBody exampleWriting 3).1.writeBuff_.ReadableBytes :=
  ⟨(C30_iov0_len_invariant exampleStatics exampleFs exampleDb
      (exampleConn (str "GET / HTTP/1.1\r\n\r\n")) (exampleAnswered (str "GET / HTTP/1.1\r\n\r\n"))
      exampleWriting 3).1 (by decide),
   (C30_iov0_len_invariant exampleStatics exampleFs exampleDb
      (exampleConn (str "GET / HTTP/1.1\r\n\r\n")) (exampleAnswered (str "GET / HTTP/1.1\r\n\r\n"))
      exampleWriting 3).2 (by decide) (Or.inr (by decide)) (by decide)⟩

end HttpConn

/-! ## C31: `ToWriteBytes` after `process` -/

namespace HttpConn

/-- After a `process()` that returns true, the `size_t` sum `ToWriteBytes()` converts to
`int` is the number of readable bytes of the write buffer plus the mapped file size when
`iovCnt_` is 2, and plus whatever length `iov_[1]` had before the call when `iovCnt_` is 1. -/
theorem process_ToWriteBytes (g : Statics) (fs : FileSystem) (db : MySql) (c c1 : HttpConn)
    (h : process g fs db c = .ok (true, c1)) :
    (c1.iovCnt_ = 1 ∨ c1.iovCnt_ = 2)
      ∧ (c1.iovCnt_ = 2 →
          c1.iov0.iov_len + c1.iov1.iov_len = c1.writeBuff_.ReadableBytes + c1.response_.FileLen
            ∧ c1.ToWriteBytes = toInt (c1.writeBuff_.ReadableBytes + c1.response_.FileLen))
      ∧ (c1.iovCnt_ = 1 →
          c1.iov1 = c.iov1
            ∧ c1.iov0.iov_len + c1.iov1.iov_len = c1.writeBuff_.ReadableBytes + c.iov1.iov_len
            ∧ c1.ToWriteBytes = toInt (c1.writeBuff_.ReadableBytes + c.iov1.iov_len)) := by
  obtain ⟨-, parsed, req, rb, resp, resp1, wb, -, -, -, hc⟩ := process_true g fs db c c1 h
  subst hc
  unfold setIov ToWriteBytes
  simp only
  split
  · exact ⟨Or.inr rfl, fun _ => ⟨rfl, rfl⟩, fun e => absurd (show (2 : Int) = 1 from e) (by decide)⟩
  · exact ⟨Or.inl rfl, fun e => absurd (show (1 : Int) = 2 from e) (by decide),
      fun _ => ⟨rfl, rfl, rfl⟩⟩

/-- C31 (failing input): a connection object used a second time. Its earlier response to
`GET /` was cut off after `writev` had reported 89 of its 83 + 18 bytes, which left
`iov_[1]` with 12 bytes; `Close` and `init` do not touch `iov_[1]`. The next request,
`GET /missing HTTP/1.1`, is answered in a document root without `404.html`: `process`
returns true with no mapped file and `iovCnt_` 1, the response is the 217 readable bytes of
the write buffer, and `ToWriteBytes()` is 229. -/
theorem C31_stale_iov1_is_counted :
    exampleReused.iov1 = ⟨.mapped (str "/www/index.html") 6, 12⟩
      ∧ exampleReused.isClose_ = false
      ∧ exampleReused.writeBuff_.ReadableBytes = 0
      ∧ exampleReused.readBuff_.readable = str "GET /missing HTTP/1.1\r\n\r\n"
      ∧ (process exampleStatics exampleFsNoPages exampleDb exampleReused).map
          (fun x => (x.1, x.2.iovCnt_, x.2.response_.File, x.2.response_.FileLen))
        = .ok (true, 1, .null, 0)
      ∧ (process exampleStatics exampleFsNoPages exampleDb exampleReused).map
          (fun x => (x.2.writeBuff_.ReadableBytes, x.2.ToWriteBytes, x.2.iov1))
        = .ok (217, 229, ⟨.mapped (str "/www/index.html") 6, 12⟩) := by
  refine ⟨by decide, by decide, by decide, by decide, by decide, by decide⟩

end HttpConn

end WebServer
